import Mathlib

/-!
# PhishGuard: the URL risk-scoring engine of `src/background/background.js`

A shallow embedding of the class `AdvancedPhishingDetector` and of the storage
actions of `src/content/content.js`.

Modelling conventions.

* A JavaScript string is a Lean `String`; regular expressions run over its list of
  characters.  Every character class of the source contains only code units of the
  Basic Multilingual Plane, so a character outside it never matches.
* A JavaScript number that is an integer by construction (table weights, counts,
  day numbers, clock readings in milliseconds) is an `Int`; a number that can be
  fractional (keyword scores, the accumulated risk, confidences, `Math.random()`)
  is a `ℚ`.  All values the engine computes are multiples of `1/2` of small
  magnitude, hence exact in double precision.
* `Date.now()`, `Math.random()` and the platform `URL` parser are inputs.
* `Set` is a list used through membership, `Map` an association list in insertion
  order.
-/

set_option autoImplicit false

namespace PhishGuard

/-! ## Data model -/

/-- The `status` field of a reputation entry. -/
inductive RepStatus where
  | phishing
  | legitimate
  | unknown
  deriving DecidableEq, Repr

/-- Render a reputation status as the string literal used by the source. -/
def RepStatus.toString : RepStatus → String
  | .phishing => "phishing"
  | .legitimate => "legitimate"
  | .unknown => "unknown"

/-- The object literal `{ status, confidence, source }` built by `checkDomainReputation`. -/
structure Reputation where
  status : RepStatus
  confidence : ℚ
  source : String
  deriving DecidableEq

/-- The `category` field of `calculateDomainAge`. -/
inductive AgeCategory where
  | very_new
  | new
  | recent
  | established
  deriving DecidableEq, Repr

/-- The object `{ days, category }` returned by `calculateDomainAge`. -/
structure DomainAge where
  days : Int
  category : AgeCategory
  deriving DecidableEq

/-- The object `{ hasSSL, score, issues }` returned by `checkSSLCertificate`. -/
structure SSLCheck where
  hasSSL : Bool
  score : Int
  issues : List String
  deriving DecidableEq

/-- An element `{ description, weight }` of `matchedPatterns`. -/
structure MatchedPattern where
  description : String
  weight : Int
  deriving DecidableEq

/-- The object `{ totalWeight, matchedPatterns }` returned by `checkSuspiciousPatterns`. -/
structure PatternCheck where
  totalWeight : Int
  matchedPatterns : List MatchedPattern
  deriving DecidableEq

/-- An element `{ word, context, score }` of `matchedKeywords`. -/
structure MatchedKeyword where
  word : String
  context : Nat
  score : ℚ
  deriving DecidableEq

/-- The object `{ keywordScore, matchedKeywords }` returned by `checkPhishingKeywords`. -/
structure KeywordCheck where
  keywordScore : ℚ
  matchedKeywords : List MatchedKeyword
  deriving DecidableEq

/-- The object `{ detected, score, characters }` returned by `checkHomographAttacks`
(`characters` is absent, here empty, when nothing is detected). -/
structure HomographCheck where
  detected : Bool
  score : Int
  characters : List Char
  deriving DecidableEq

/-- The object `{ structureScore, issues }` returned by `analyzeDomainStructure`. -/
structure StructureCheck where
  structureScore : Int
  issues : List String
  deriving DecidableEq

/-- The object `{ hasSuspiciousRedirects, score, redirectChain }` returned by
`checkURLRedirects` (`redirectChain` is absent, here empty, when nothing is flagged). -/
structure RedirectCheck where
  hasSuspiciousRedirects : Bool
  score : Int
  redirectChain : List String
  deriving DecidableEq

/-- The `checks` object assembled by `performAdvancedAnalysis`. -/
structure Checks where
  reputation : Reputation
  ssl : SSLCheck
  domainAge : DomainAge
  patterns : PatternCheck
  keywords : KeywordCheck
  homograph : HomographCheck
  structure_ : StructureCheck
  redirects : RedirectCheck
  deriving DecidableEq

/-- The `analysis` object assembled by `performAdvancedAnalysis`. -/
structure Analysis where
  url : String
  domain : String
  timestamp : Int
  checks : Checks
  deriving DecidableEq

/-- The `status` of a verdict. -/
inductive Status where
  | phishing
  | suspicious
  | questionable
  | legitimate
  deriving DecidableEq, Repr

/-- The `threat` of a verdict. -/
inductive Threat where
  | high
  | medium
  | low
  | minimal
  deriving DecidableEq, Repr

/-- The `detailedAnalysis` object of a verdict. -/
structure DetailedAnalysis where
  reputation : Reputation
  patterns : Nat
  keywords : Nat
  homograph : Bool
  structure_ : Nat
  redirects : Bool
  deriving DecidableEq

/-- The verdict object returned by `calculateFinalScore`. -/
structure AnalysisResult where
  status : Status
  threat : Threat
  message : String
  color : String
  riskScore : ℚ
  confidence : ℚ
  reasons : List String
  domain : String
  hasSSL : Bool
  domainAge : Int
  domainCategory : AgeCategory
  detailedAnalysis : DetailedAnalysis
  analysisTime : Int
  deriving DecidableEq

/-! ## Number helpers -/

/-- `Math.round` on a finite number: the nearest integer, halves rounded up. -/
def mathRound (x : ℚ) : ℚ := ((⌊x + 1 / 2⌋ : Int) : ℚ)

/-- The integer nearest to `x`, a tie going to the even one. -/
def roundHalfEven (x : ℚ) : Int :=
  if x - ⌊x⌋ < 1 / 2 then ⌊x⌋
  else if 1 / 2 < x - ⌊x⌋ then ⌊x⌋ + 1
  else if ⌊x⌋ % 2 = 0 then ⌊x⌋ else ⌊x⌋ + 1

/-- The exponent of the spacing of the binary64 numbers around `x`: 52 below the binary
exponent of `x`, which is at least -1022. -/
def ulpExponent (x : ℚ) : Int := max (Int.log 2 |x|) (-1022) - 52

/-- The binary64 number nearest to `x`, a tie going to the even significand: the value
of a floating-point operation whose exact result is `x`, for a result below `2^1024` in
magnitude. -/
def toDouble (x : ℚ) : ℚ := (roundHalfEven (x / 2 ^ ulpExponent x) : ℚ) * 2 ^ ulpExponent x

/-- Whether `x` is a binary64 number. -/
def isDouble (x : ℚ) : Bool := toDouble x == x

/-- Decimal digits of a natural number, as `Number.prototype.toString` prints them. -/
def natToString (n : Nat) : String := toString n

/-- An integer printed the way a template literal prints it. -/
def intToString (i : Int) : String :=
  if i < 0 then "-" ++ natToString i.natAbs else natToString i.natAbs

/-- `Number.prototype.toFixed(1)` on a number whose tenfold is settled by rounding
halves away from zero (exact on the multiples of `1/2` the engine produces). -/
def toFixed1 (x : ℚ) : String :=
  let t : Int := ⌊|x| * 10 + 1 / 2⌋
  let body := natToString (t.natAbs / 10) ++ "." ++ natToString (t.natAbs % 10)
  if x < 0 ∧ t ≠ 0 then "-" ++ body else body

/-! ## Regular expressions

The fragment of ECMAScript regular expressions used by the tables of the source:
character classes, bounded and unbounded repetition of a class, grouping, alternation,
optional groups and the two anchors, with or without the `i` flag (never `u`, never `m`).
-/

/-- The abstract operation `Canonicalize` of ECMAScript for a pattern with the `i` flag
and without the `u` flag: the upper-case mapping of a code unit, kept only when it is a
single code unit and does not send a non-ASCII unit to ASCII.  It is spelled out on
every code unit whose image meets the image of a class or literal of this file; all
other units, which match nothing here, are left fixed. -/
def canonicalize (c : Nat) : Nat :=
  if 0x61 ≤ c ∧ c ≤ 0x7A then c - 32
  else if c = 0xB5 then 0x39C
  else if (0xE0 ≤ c ∧ c ≤ 0xF6) ∨ (0xF8 ≤ c ∧ c ≤ 0xFE) then c - 32
  else if c = 0xFF then 0x178
  else if c = 0x345 then 0x399
  else if c = 0x3C2 then 0x3A3
  else if 0x3B1 ≤ c ∧ c ≤ 0x3C9 then c - 32
  else if c = 0x3D0 then 0x392
  else if c = 0x3D1 then 0x398
  else if c = 0x3D5 then 0x3A6
  else if c = 0x3D6 then 0x3A0
  else if c = 0x3F0 then 0x39A
  else if c = 0x3F1 then 0x3A1
  else if c = 0x3F5 then 0x395
  else if 0x430 ≤ c ∧ c ≤ 0x44F then c - 32
  else if 0x450 ≤ c ∧ c ≤ 0x45F then c - 80
  else if c = 0x1C80 then 0x412
  else if c = 0x1C81 then 0x414
  else if c = 0x1C82 then 0x41E
  else if c = 0x1C83 then 0x421
  else if c = 0x1C84 then 0x422
  else if c = 0x1C85 then 0x422
  else if c = 0x1C86 then 0x42A
  else if c = 0x1FBE then 0x399
  else c

/-- A character class as a list of inclusive code-unit ranges. -/
abbrev CharClass := List (Nat × Nat)

/-- Whether code unit `c` belongs to the class. -/
def CharClass.has (cls : CharClass) (c : Nat) : Bool :=
  cls.any (fun r => decide (r.1 ≤ c) && decide (c ≤ r.2))

/-- Whether some member of the class has the same canonical form as `c`. -/
def CharClass.hasCanonical (cls : CharClass) (c : Nat) : Bool :=
  cls.any (fun r => (List.range (r.2 + 1 - r.1)).any (fun k =>
    canonicalize (r.1 + k) == canonicalize c))

/-- One character against a class, with (`ic = true`) or without the `i` flag. -/
def classMatches (ic : Bool) (cls : CharClass) (c : Char) : Bool :=
  if ic then cls.hasCanonical c.toNat else cls.has c.toNat

/-- Regular expression terms. -/
inductive Regex where
  | eps
  | cls (c : CharClass)
  | rep (c : CharClass) (lo : Nat) (hi : Option Nat)
  | seq (a b : Regex)
  | alt (a b : Regex)
  | opt (a : Regex)
  | bol
  | eol

/-- The class holding exactly the character `c`. -/
def Regex.chr (c : Char) : Regex := Regex.cls [(c.toNat, c.toNat)]

/-- The characters of `s` in sequence. -/
def Regex.lit (s : String) : Regex :=
  s.toList.foldr (fun c r => Regex.seq (Regex.chr c) r) Regex.eps

/-- Backtracking over `c{lo,hi}`: every admissible number of repetitions is tried, and
`k` receives whether the position is still the start of the input and the rest. -/
def repK (ic : Bool) (cls : CharClass) :
    Nat → Option Nat → Bool → List Char → (Bool → List Char → Bool) → Bool
  | lo, _, st, [], k => decide (lo = 0) && k st []
  | lo, hi, st, c :: rest, k =>
    (decide (lo = 0) && k st (c :: rest)) ||
      (decide (hi ≠ some 0) && classMatches ic cls c &&
        repK ic cls (lo - 1) (hi.map (fun h => h - 1)) false rest k)

/-- Backtracking matcher in continuation-passing style: `matchK ic re st s k` holds when
`re` matches a beginning of `s` (with `st` telling whether `s` is the whole input) such
that `k` accepts what follows. -/
def matchK (ic : Bool) : Regex → Bool → List Char → (Bool → List Char → Bool) → Bool
  | Regex.eps, st, s, k => k st s
  | Regex.cls c, _, s, k =>
    match s with
    | [] => false
    | x :: rest => classMatches ic c x && k false rest
  | Regex.rep c lo hi, st, s, k => repK ic c lo hi st s k
  | Regex.seq a b, st, s, k => matchK ic a st s (fun st2 s2 => matchK ic b st2 s2 k)
  | Regex.alt a b, st, s, k => matchK ic a st s k || matchK ic b st s k
  | Regex.opt a, st, s, k => matchK ic a st s k || k st s
  | Regex.bol, st, s, k => st && k st s
  | Regex.eol, st, s, k => s.isEmpty && k st s

/-- A match beginning at some position of the remaining input. -/
def searchFrom (ic : Bool) (re : Regex) : Bool → List Char → Bool
  | st, [] => matchK ic re st [] (fun _ _ => true)
  | st, c :: rest => matchK ic re st (c :: rest) (fun _ _ => true) || searchFrom ic re false rest

/-- A regular expression literal without the `g` flag: `/re/` or `/re/i`. -/
structure RegExp where
  re : Regex
  ignoreCase : Bool

/-- The method `RegExp.prototype.test` of a pattern without the `g` flag. -/
def RegExp.test (p : RegExp) (s : String) : Bool :=
  searchFrom p.ignoreCase p.re true s.toList

/-- `String.prototype.match` with a `g` pattern every alternative of which consumes
exactly one code unit: the matched units in order, or `none` (`null`) when there are none. -/
def matchGlobalUnits (ic : Bool) (re : Regex) (s : String) : Option (List Char) :=
  let ms := s.toList.filter (fun c => matchK ic re false [c] (fun _ r => r.isEmpty))
  if ms.isEmpty then none else some ms

/-! ## Pattern registry (constructor, lines 10-69) -/

/-- The class `[.-]`. -/
def dotDash : CharClass := [(0x2E, 0x2E), (0x2D, 0x2D)]

/-- The class `[0-9]`. -/
def digit : CharClass := [(0x30, 0x39)]

/-- The class `[a-z]`. -/
def lower : CharClass := [(0x61, 0x7A)]

/-- The class `[a-z0-9]`. -/
def lowerDigit : CharClass := [(0x61, 0x7A), (0x30, 0x39)]

/-- The class `[а-я]` (U+0430 to U+044F). -/
def cyrillic : CharClass := [(0x430, 0x44F)]

/-- The class `[а-яё]`. -/
def cyrillicIo : CharClass := [(0x430, 0x44F), (0x451, 0x451)]

/-- The class `[αβγδεζηθικλμνξοπρστυφχψω]` (U+03B1 to U+03C9 without final sigma). -/
def greek : CharClass := [(0x3B1, 0x3C1), (0x3C3, 0x3C9)]

/-- The class `[àáâãäåæçèéêëìíîïðñòóôõöøùúûüýþÿ]` (U+00E0 to U+00FF without U+00F7). -/
def accented : CharClass := [(0xE0, 0xF6), (0xF8, 0xFF)]

/-- The shape `first[.-]?second` shared by the ten phrase patterns. -/
def phrase (first second : String) : Regex :=
  Regex.seq (Regex.lit first) (Regex.seq (Regex.opt (Regex.cls dotDash)) (Regex.lit second))

/-- The shape `\.tld$` shared by the five top-level-domain patterns. -/
def tldEnd (tld : String) : Regex :=
  Regex.seq (Regex.chr '.') (Regex.seq (Regex.lit tld) Regex.eol)

/-- An entry `{ pattern, weight, description }` of `suspiciousPatterns`. -/
structure SuspiciousPattern where
  pattern : RegExp
  weight : Int
  description : String

/-- The pattern `[0-9]{1,3}\.[0-9]{1,3}\.[0-9]{1,3}\.[0-9]{1,3}` (no `i` flag). -/
def ipLiteral : Regex :=
  Regex.seq (Regex.rep digit 1 (some 3)) (Regex.seq (Regex.chr '.')
    (Regex.seq (Regex.rep digit 1 (some 3)) (Regex.seq (Regex.chr '.')
      (Regex.seq (Regex.rep digit 1 (some 3)) (Regex.seq (Regex.chr '.')
        (Regex.rep digit 1 (some 3)))))))

/-- The pattern `[a-z0-9]+-[a-z0-9]+-[a-z0-9]+\.`. -/
def multiHyphen : Regex :=
  Regex.seq (Regex.rep lowerDigit 1 none) (Regex.seq (Regex.chr '-')
    (Regex.seq (Regex.rep lowerDigit 1 none) (Regex.seq (Regex.chr '-')
      (Regex.seq (Regex.rep lowerDigit 1 none) (Regex.chr '.')))))

/-- The pattern `bit\.ly|tinyurl|t\.co|goo\.gl|ow\.ly|short\.link`. -/
def shortener : Regex :=
  Regex.alt (Regex.lit "bit.ly") (Regex.alt (Regex.lit "tinyurl") (Regex.alt (Regex.lit "t.co")
    (Regex.alt (Regex.lit "goo.gl") (Regex.alt (Regex.lit "ow.ly") (Regex.lit "short.link")))))

/-- The field `this.suspiciousPatterns`, in declaration order. -/
def suspiciousPatterns : List SuspiciousPattern :=
  [ { pattern := ⟨phrase "secure" "update", true⟩, weight := 25,
      description := "Fake security update" },
    { pattern := ⟨phrase "verify" "account", true⟩, weight := 30,
      description := "Account verification scam" },
    { pattern := ⟨phrase "suspended" "account", true⟩, weight := 35,
      description := "Account suspension threat" },
    { pattern := ⟨phrase "urgent" "action", true⟩, weight := 20,
      description := "Urgency manipulation" },
    { pattern := ⟨phrase "click" "here", true⟩, weight := 15,
      description := "Generic click bait" },
    { pattern := ⟨phrase "limited" "time", true⟩, weight := 20,
      description := "Time pressure tactic" },
    { pattern := ⟨phrase "confirm" "identity", true⟩, weight := 25,
      description := "Identity confirmation scam" },
    { pattern := ⟨phrase "billing" "problem", true⟩, weight := 25,
      description := "Fake billing issue" },
    { pattern := ⟨phrase "payment" "failed", true⟩, weight := 30,
      description := "Payment failure scam" },
    { pattern := ⟨phrase "security" "alert", true⟩, weight := 25,
      description := "Fake security alert" },
    { pattern := ⟨tldEnd "tk", true⟩, weight := 40, description := "High-risk TLD (.tk)" },
    { pattern := ⟨tldEnd "ml", true⟩, weight := 40, description := "High-risk TLD (.ml)" },
    { pattern := ⟨tldEnd "ga", true⟩, weight := 40, description := "High-risk TLD (.ga)" },
    { pattern := ⟨tldEnd "cf", true⟩, weight := 40, description := "High-risk TLD (.cf)" },
    { pattern := ⟨tldEnd "pw", true⟩, weight := 35, description := "Suspicious TLD (.pw)" },
    { pattern := ⟨ipLiteral, false⟩, weight := 50, description := "Direct IP access" },
    { pattern := ⟨multiHyphen, true⟩, weight := 20,
      description := "Multiple hyphens in domain" },
    { pattern := ⟨Regex.rep digit 4 none, true⟩, weight := 25,
      description := "Long number sequences" },
    { pattern := ⟨Regex.rep lower 20 none, true⟩, weight := 15,
      description := "Unusually long domain parts" },
    { pattern := ⟨Regex.cls cyrillic, true⟩, weight := 45,
      description := "Cyrillic characters (homograph)" },
    { pattern := ⟨Regex.cls greek, true⟩, weight := 45,
      description := "Greek characters (homograph)" },
    { pattern := ⟨shortener, true⟩, weight := 15, description := "URL shortener" } ]

/-- The group `(com|co\.[a-z]{2}|[a-z]{2})`. -/
def suffixWide : Regex :=
  Regex.alt (Regex.lit "com") (Regex.alt
    (Regex.seq (Regex.lit "co.") (Regex.rep lower 2 (some 2))) (Regex.rep lower 2 (some 2)))

/-- The group `(com|co\.[a-z]{2})`. -/
def suffixNarrow : Regex :=
  Regex.alt (Regex.lit "com") (Regex.seq (Regex.lit "co.") (Regex.rep lower 2 (some 2)))

/-- The shape `^(www\.)?name\.suffix$` shared by the allow-patterns. -/
def allowPattern (name : String) (suffix : Regex) : RegExp :=
  ⟨Regex.seq Regex.bol (Regex.seq (Regex.opt (Regex.lit "www."))
    (Regex.seq (Regex.lit name) (Regex.seq (Regex.chr '.') (Regex.seq suffix Regex.eol)))), true⟩

/-- The field `this.legitimatePatterns`, in declaration order. -/
def legitimatePatterns : List RegExp :=
  [ allowPattern "google" suffixWide,
    allowPattern "github" (Regex.lit "com"),
    allowPattern "stackoverflow" (Regex.lit "com"),
    allowPattern "microsoft" suffixNarrow,
    allowPattern "amazon" suffixWide,
    allowPattern "facebook" (Regex.lit "com"),
    allowPattern "twitter" (Regex.lit "com"),
    allowPattern "linkedin" (Regex.lit "com"),
    allowPattern "youtube" (Regex.lit "com"),
    allowPattern "wikipedia" (Regex.lit "org") ]

/-- An entry `{ word, context, weight }` of `phishingKeywords`. -/
structure PhishingKeyword where
  word : String
  context : List String
  weight : Int

/-- The field `this.phishingKeywords`, in declaration order. -/
def phishingKeywords : List PhishingKeyword :=
  [ { word := "paypal", context := ["secure", "verify", "suspended"], weight := 40 },
    { word := "amazon", context := ["account", "suspended", "verify"], weight := 35 },
    { word := "apple", context := ["id", "locked", "verify"], weight := 35 },
    { word := "microsoft", context := ["account", "security", "verify"], weight := 30 },
    { word := "google", context := ["account", "suspended", "verify"], weight := 30 },
    { word := "bank", context := ["account", "suspended", "verify"], weight := 45 },
    { word := "security", context := ["alert", "warning", "breach"], weight := 25 } ]

/-- The alternation of `suspiciousChars` in `checkHomographAttacks` (flags `gi`). -/
def suspiciousChars : Regex :=
  Regex.alt (Regex.cls cyrillicIo) (Regex.alt (Regex.cls greek) (Regex.cls accented))

/-! ## Platform inputs and string helpers -/

/-- The fields of a parsed `URL` object that the engine reads. -/
structure URLRecord where
  protocol : String
  hostname : String
  deriving DecidableEq

/-- The platform constructor `new URL(url)`: `none` when it throws. -/
abbrev URLParser := String → Option URLRecord

/-- `String.prototype.toLowerCase` on a hostname; the platform serialises a hostname
in ASCII, on which lower-casing acts on the letters `A` to `Z` only. -/
def toLowerCase (s : String) : String := String.mk (s.toList.map Char.toLower)

/-- Whether `needle` occurs in `hay` as a contiguous block. -/
def includesList (needle : List Char) : List Char → Bool
  | [] => needle.isEmpty
  | c :: rest => needle.isPrefixOf (c :: rest) || includesList needle rest

/-- `String.prototype.includes`. -/
def includes (hay needle : String) : Bool := includesList needle.toList hay.toList

/-- `String.prototype.split` with a one-character separator. -/
def splitChar (sep : Char) : List Char → List (List Char)
  | [] => [[]]
  | c :: rest =>
    if c = sep then [] :: splitChar sep rest
    else
      match splitChar sep rest with
      | [] => [[c]]
      | p :: ps => (c :: p) :: ps

/-- The `length` of a string: its number of UTF-16 code units. -/
def jsLength (s : List Char) : Nat :=
  (s.map (fun c => if c.toNat < 0x10000 then 1 else 2)).sum

/-! ## Signal extractors -/

/-- The method `extractDomain(url)`: `none` is `null`. -/
def extractDomain (parseURL : URLParser) (url : String) : Option String :=
  match parseURL url with
  | some urlObj => some (toLowerCase urlObj.hostname)
  | none => none

/-- The loop body of `checkSuspiciousPatterns` (lines 216-221) on the locals
`totalWeight` and `matchedPatterns`. -/
def patternStep (url : String) (acc : PatternCheck) (p : SuspiciousPattern) : PatternCheck :=
  if p.pattern.test url then
    { totalWeight := acc.totalWeight + p.weight
      matchedPatterns := acc.matchedPatterns ++ [{ description := p.description, weight := p.weight }] }
  else acc

/-- The loop of `checkSuspiciousPatterns` over an arbitrary table. -/
def checkPatternsIn (table : List SuspiciousPattern) (url : String) : PatternCheck :=
  table.foldl (patternStep url) { totalWeight := 0, matchedPatterns := [] }

/-- The method `checkSuspiciousPatterns(url)`. -/
def checkSuspiciousPatterns (url : String) : PatternCheck :=
  checkPatternsIn suspiciousPatterns url

/-- The inner loop of `checkPhishingKeywords` (lines 232-237): `contextMatches`. -/
def contextMatches (domain url : String) (context : List String) : Nat :=
  context.foldl (fun n ctx => if includes domain ctx || includes url ctx then n + 1 else n) 0

/-- The outer loop body of `checkPhishingKeywords` (lines 231-244). -/
def keywordStep (domain url : String) (acc : KeywordCheck) (k : PhishingKeyword) : KeywordCheck :=
  if includes domain k.word || includes url k.word then
    let cm := contextMatches domain url k.context
    if cm > 0 then
      let score : ℚ := (k.weight : ℚ) * (1 + (cm : ℚ) * (1 / 2))
      { keywordScore := acc.keywordScore + score
        matchedKeywords := acc.matchedKeywords ++ [{ word := k.word, context := cm, score := score }] }
    else acc
  else acc

/-- The method `checkPhishingKeywords(domain, url)`. -/
def checkPhishingKeywords (domain url : String) : KeywordCheck :=
  phishingKeywords.foldl (keywordStep domain url) { keywordScore := 0, matchedKeywords := [] }

/-- The method `checkHomographAttacks(domain)`; `characters` is `[...new Set(matches)]`. -/
def checkHomographAttacks (domain : String) : HomographCheck :=
  match matchGlobalUnits true suspiciousChars domain with
  | some matches_ =>
    { detected := true, score := (matches_.length : Int) * 15, characters := matches_.eraseDups }
  | none => { detected := false, score := 0, characters := [] }

/-- The method `analyzeDomainStructure(domain)`. -/
def analyzeDomainStructure (domain : String) : StructureCheck :=
  let parts := splitChar '.' domain.toList
  let s0 : StructureCheck := { structureScore := 0, issues := [] }
  let s1 : StructureCheck :=
    if parts.length > 4 then
      { structureScore := s0.structureScore + 20, issues := s0.issues ++ ["Excessive subdomains"] }
    else s0
  let s2 : StructureCheck :=
    if parts.length ≥ 2 then
      let tld := parts.getD (parts.length - 1) []
      let sld := parts.getD (parts.length - 2) []
      if jsLength tld = 2 ∧ jsLength sld < 3 then
        { structureScore := s1.structureScore + 15
          issues := s1.issues ++ ["Suspicious domain structure"] }
      else s1
    else s1
  if (RegExp.test ⟨Regex.cls digit, false⟩ domain && RegExp.test ⟨Regex.cls lower, false⟩ domain
      && includes domain "-") = true then
    { structureScore := s2.structureScore + 10
      issues := s2.issues ++ ["Mixed character types with hyphens"] }
  else s2

/-- The method `checkSSLCertificate(url)`. -/
def checkSSLCertificate (parseURL : URLParser) (url : String) : SSLCheck :=
  match parseURL url with
  | some urlObj =>
    let hasSSL := decide (urlObj.protocol = "https:")
    { hasSSL := hasSSL
      score := if hasSSL then 0 else 25
      issues := if hasSSL then [] else ["No SSL certificate"] }
  | none => { hasSSL := false, score := 25, issues := ["Invalid URL"] }

/-- The local `newDomains` of `calculateDomainAge`. -/
def newDomains : List String :=
  ["new-site.com", "fresh-domain.net", "recent-site.org", "just-created.com", "brand-new.net"]

/-- The local `oldDomains` of `calculateDomainAge`. -/
def oldDomains : List String :=
  ["google.com", "microsoft.com", "amazon.com", "apple.com", "github.com", "stackoverflow.com"]

/-- The method `calculateDomainAge(domain)`; `rand` is the reading of `Math.random()`,
and the products are the binary64 products. -/
def calculateDomainAge (domain : String) (rand : ℚ) : DomainAge :=
  if domain ∈ newDomains then
    { days := ⌊toDouble (rand * 30)⌋, category := AgeCategory.very_new }
  else if domain ∈ oldDomains then
    { days := 3000 + ⌊toDouble (rand * 2000)⌋, category := AgeCategory.established }
  else
    let days : Int := ⌊toDouble (rand * 2000)⌋ + 30
    let category :=
      if days < 30 then AgeCategory.very_new
      else if days < 90 then AgeCategory.new
      else if days < 365 then AgeCategory.recent
      else AgeCategory.established
    { days := days, category := category }

/-- The local `suspiciousRedirects` of `checkURLRedirects`. -/
def suspiciousRedirects : List String := ["bit.ly", "tinyurl.com", "t.co"]

/-- The method `checkURLRedirects(url)`. -/
def checkURLRedirects (parseURL : URLParser) (url : String) : RedirectCheck :=
  let domain := extractDomain parseURL url
  if suspiciousRedirects.any (fun redirect =>
      match domain with
      | some d => includes d redirect
      | none => false) then
    { hasSuspiciousRedirects := true, score := 20
      redirectChain := ["original-url.com", "bit.ly/xyz", "suspicious-site.com"] }
  else { hasSuspiciousRedirects := false, score := 0, redirectChain := [] }

/-! ## Score aggregation (`calculateFinalScore`) -/

/-- The mutable locals `riskScore`, `confidence`, `reasons` of `calculateFinalScore`. -/
structure Acc where
  riskScore : ℚ
  confidence : ℚ
  reasons : List String

/-- Lines 482-491: the reputation check. -/
def stepReputation (checks : Checks) (a : Acc) : Acc :=
  if checks.reputation.status = RepStatus.phishing then
    { riskScore := a.riskScore + 70
      confidence := max a.confidence checks.reputation.confidence
      reasons := a.reasons ++
        ["Domain found in phishing database (" ++ checks.reputation.source ++ ")"] }
  else if checks.reputation.status = RepStatus.legitimate then
    { riskScore := a.riskScore - 40
      confidence := max a.confidence checks.reputation.confidence
      reasons := a.reasons ++
        ["Domain verified as legitimate (" ++ checks.reputation.source ++ ")"] }
  else a

/-- Lines 493-497: the SSL certificate check. -/
def stepSSL (checks : Checks) (a : Acc) : Acc :=
  if checks.ssl.hasSSL = false then
    { a with riskScore := a.riskScore + (checks.ssl.score : ℚ)
             reasons := a.reasons ++ checks.ssl.issues }
  else a

/-- Lines 499-508: the domain age check. -/
def stepAge (checks : Checks) (a : Acc) : Acc :=
  if checks.domainAge.category = AgeCategory.very_new then
    { a with riskScore := a.riskScore + 35
             reasons := a.reasons ++
               ["Very new domain (" ++ intToString checks.domainAge.days ++ " days old)"] }
  else if checks.domainAge.category = AgeCategory.new then
    { a with riskScore := a.riskScore + 20
             reasons := a.reasons ++
               ["New domain (" ++ intToString checks.domainAge.days ++ " days old)"] }
  else if checks.domainAge.category = AgeCategory.established then
    { a with riskScore := a.riskScore - 10 }
  else a

/-- Lines 510-516: the suspicious pattern check. -/
def stepPatterns (checks : Checks) (a : Acc) : Acc :=
  if checks.patterns.totalWeight > 0 then
    { a with riskScore := a.riskScore + ((min checks.patterns.totalWeight 50 : Int) : ℚ)
             reasons := a.reasons ++ checks.patterns.matchedPatterns.map (fun p =>
               p.description ++ " (weight: " ++ intToString p.weight ++ ")") }
  else a

/-- Lines 518-524: the phishing keyword check. -/
def stepKeywords (checks : Checks) (a : Acc) : Acc :=
  if checks.keywords.keywordScore > 0 then
    { a with riskScore := a.riskScore + min checks.keywords.keywordScore 40
             reasons := a.reasons ++ checks.keywords.matchedKeywords.map (fun k =>
               "Phishing keyword \"" ++ k.word ++ "\" with context (score: " ++
                 toFixed1 k.score ++ ")") }
  else a

/-- Lines 526-530: the homograph check. -/
def stepHomograph (checks : Checks) (a : Acc) : Acc :=
  if checks.homograph.detected = true then
    { a with riskScore := a.riskScore + (checks.homograph.score : ℚ)
             reasons := a.reasons ++
               ["Homograph attack detected: " ++
                 ", ".intercalate (checks.homograph.characters.map (fun c => String.mk [c]))] }
  else a

/-- Lines 532-536: the domain structure check. -/
def stepStructure (checks : Checks) (a : Acc) : Acc :=
  if checks.structure_.structureScore > 0 then
    { a with riskScore := a.riskScore + (checks.structure_.structureScore : ℚ)
             reasons := a.reasons ++ checks.structure_.issues }
  else a

/-- Lines 538-542: the URL redirect check. -/
def stepRedirects (checks : Checks) (a : Acc) : Acc :=
  if checks.redirects.hasSuspiciousRedirects = true then
    { a with riskScore := a.riskScore + (checks.redirects.score : ℚ)
             reasons := a.reasons ++ ["Suspicious URL redirects detected"] }
  else a

/-- Lines 475-542: the locals after all eight checks have run, in source order. -/
def accumulate (checks : Checks) : Acc :=
  stepRedirects checks (stepStructure checks (stepHomograph checks (stepKeywords checks
    (stepPatterns checks (stepAge checks (stepSSL checks (stepReputation checks
      { riskScore := 0, confidence := 1 / 2, reasons := [] })))))))

/-- Line 545: `riskScore = Math.max(0, Math.min(100, riskScore))`. -/
def clampRisk (riskScore : ℚ) : ℚ := max 0 (min 100 riskScore)

/-- The local `riskScore` after line 545. -/
def clampedRisk (analysis : Analysis) : ℚ := clampRisk (accumulate analysis.checks).riskScore

/-- Lines 548-569: status, threat, message and colour chosen from the clamped risk. -/
def verdictOf (riskScore : ℚ) : Status × Threat × String × String :=
  if riskScore ≥ 70 then
    (Status.phishing, Threat.high,
      "This site is very likely a phishing attempt. Do not enter personal information!",
      "#ef4444")
  else if riskScore ≥ 45 then
    (Status.suspicious, Threat.medium,
      "This site shows multiple suspicious characteristics. Exercise extreme caution.",
      "#f59e0b")
  else if riskScore ≥ 25 then
    (Status.questionable, Threat.low,
      "This site has some concerning features. Verify before proceeding.",
      "#eab308")
  else
    (Status.legitimate, Threat.minimal,
      "This site appears to be legitimate and safe.",
      "#10b981")

/-- The method `calculateFinalScore(analysis)`; `now` is the reading of `Date.now()`
at line 591. -/
def calculateFinalScore (analysis : Analysis) (now : Int) : AnalysisResult :=
  let checks := analysis.checks
  let acc := accumulate checks
  let riskScore := clampRisk acc.riskScore
  let v := verdictOf riskScore
  { status := v.1
    threat := v.2.1
    message := v.2.2.1
    color := v.2.2.2
    riskScore := mathRound riskScore
    confidence := mathRound (toDouble (acc.confidence * 100))
    reasons := acc.reasons.take 8
    domain := analysis.domain
    hasSSL := checks.ssl.hasSSL
    domainAge := checks.domainAge.days
    domainCategory := checks.domainAge.category
    detailedAnalysis :=
      { reputation := checks.reputation
        patterns := checks.patterns.matchedPatterns.length
        keywords := checks.keywords.matchedKeywords.length
        homograph := checks.homograph.detected
        structure_ := checks.structure_.issues.length
        redirects := checks.redirects.hasSuspiciousRedirects }
    analysisTime := now - analysis.timestamp }

/-! ## Engine state -/

/-- A cache value `{ data, timestamp }`. -/
structure CacheEntry (α : Type) where
  data : α
  timestamp : Int

/-- `Map.prototype.has`. -/
def mapHas {α : Type} (m : List (String × α)) (key : String) : Bool :=
  m.any (fun e => e.1 == key)

/-- `Map.prototype.get`: `none` is `undefined`. -/
def mapGet {α : Type} (m : List (String × α)) (key : String) : Option α :=
  (m.find? (fun e => e.1 == key)).map (fun e => e.2)

/-- `Map.prototype.set`: an existing key keeps its position, a new key goes last. -/
def mapSet {α : Type} (m : List (String × α)) (key : String) (value : α) : List (String × α) :=
  if mapHas m key then m.map (fun e => if e.1 == key then (key, value) else e)
  else m ++ [(key, value)]

/-- `Set.prototype.add`. -/
def setAdd (s : List String) (x : String) : List String :=
  if x ∈ s then s else s ++ [x]

/-- The statistics object kept under the storage key `stats`.  A number field that a
stored object may lack holds `none`, which also stands for `NaN`: both turn every sum
and quotient they enter into `NaN`. -/
structure Stats where
  sitesAnalyzed : Int
  threatsBlocked : Int
  legitimateSites : Int
  suspiciousSites : Int
  totalRiskScore : Option ℚ
  protectionRate : Option ℚ
  averageRiskScore : Option ℚ
  lastUpdate : Option Int
  installDate : Option Int

/-- The keys of `chrome.storage.local` read or written by the engine and by the page
overlay; `none` is an absent key. -/
structure Storage where
  customBlacklist : Option (List String)
  customWhitelist : Option (List String)
  domainCache : Option (List (String × CacheEntry Reputation))
  stats : Option Stats

/-- The fields of an `AdvancedPhishingDetector` instance that change at run time. -/
structure Detector where
  phishingDomains : List String
  legitimateDomains : List String
  domainCache : List (String × CacheEntry Reputation)
  analysisCache : List (String × CacheEntry AnalysisResult)

/-- The background detector together with the extension storage. -/
structure World where
  detector : Detector
  storage : Storage

/-- The readings of `Date.now()` during one call of `analyzeURL`, named by the line
that takes them. -/
structure Clock where
  analysisCheck : Int
  analysisStart : Int
  reputationCheck : Int
  reputationStore : Int
  scored : Int
  analysisStore : Int
  statsDefault : Int
  statsUpdate : Int

/-- The readings of `Math.random()` during one call of `analyzeURL`. -/
structure RandomDraws where
  reputation : ℚ
  age : ℚ

/-- The local `knownPhishing` of `initializeDatabase`. -/
def knownPhishing : List String :=
  ["phishing-example.com", "fake-bank.net", "suspicious-site.org", "scam-paypal.com",
   "fake-amazon.net", "phish-apple.com", "bogus-microsoft.org", "fraudulent-bank.com",
   "fake-security.net"]

/-- The local `knownLegitimate` of `initializeDatabase`. -/
def knownLegitimate : List String :=
  ["google.com", "www.google.com", "mail.google.com", "drive.google.com",
   "github.com", "www.github.com", "gist.github.com",
   "stackoverflow.com", "www.stackoverflow.com",
   "mozilla.org", "www.mozilla.org", "developer.mozilla.org",
   "microsoft.com", "www.microsoft.com", "office.microsoft.com",
   "amazon.com", "www.amazon.com", "aws.amazon.com",
   "paypal.com", "www.paypal.com",
   "apple.com", "www.apple.com", "support.apple.com",
   "facebook.com", "www.facebook.com",
   "twitter.com", "www.twitter.com",
   "linkedin.com", "www.linkedin.com",
   "youtube.com", "www.youtube.com"]

/-- The method `initializeDatabase()` of a detector constructed over storage `st`
(the storage read succeeding). -/
def initializeDatabase (st : Storage) : Detector :=
  { phishingDomains := (st.customBlacklist.getD []).foldl setAdd knownPhishing
    legitimateDomains := (st.customWhitelist.getD []).foldl setAdd knownLegitimate
    domainCache :=
      match st.domainCache with
      | some entries => entries.foldl (fun m e => mapSet m e.1 e.2) []
      | none => []
    analysisCache := [] }

/-! ## Reputation resolver -/

/-- Lines 307-325: the reputation computed inside the timeout of
`checkDomainReputation`; `randomScore` is the reading of `Math.random()`. -/
def resolveReputation (d : Detector) (domain : String) (randomScore : ℚ) : Reputation :=
  if domain ∈ d.phishingDomains then
    { status := RepStatus.phishing, confidence := 0.95, source := "blacklist" }
  else if domain ∈ d.legitimateDomains then
    { status := RepStatus.legitimate, confidence := 0.98, source := "whitelist" }
  else if legitimatePatterns.any (fun pattern => pattern.test domain) then
    { status := RepStatus.legitimate, confidence := 0.90, source := "pattern" }
  else if randomScore > 0.8 then
    { status := RepStatus.legitimate, confidence := 0.85, source := "api" }
  else if randomScore < 0.2 then
    { status := RepStatus.phishing, confidence := 0.75, source := "api" }
  else
    { status := RepStatus.unknown, confidence := 0.5, source := "api" }

/-- Lines 298-303: the cached reputation that `checkDomainReputation` returns at clock
reading `now`, if any. -/
def validCachedReputation (d : Detector) (domain : String) (now : Int) : Option Reputation :=
  if mapHas d.domainCache domain then
    match mapGet d.domainCache domain with
    | some cached => if now - cached.timestamp < 60 * 60 * 1000 then some cached.data else none
    | none => none
  else none

/-- The method `checkDomainReputation(domain)`: the resolved value and the detector
afterwards.  `tCheck` and `tStore` are the clock readings of lines 300 and 330. -/
def checkDomainReputation (d : Detector) (domain : String) (tCheck tStore : Int)
    (randomScore : ℚ) : Reputation × Detector :=
  match validCachedReputation d domain tCheck with
  | some data => (data, d)
  | none =>
    let reputation := resolveReputation d domain randomScore
    (reputation,
      { d with domainCache := mapSet d.domainCache domain
                 { data := reputation, timestamp := tStore } })

/-! ## Statistics accumulator -/

/-- The fallback object of `updateStatistics` (lines 598-605). -/
def defaultStats (now : Int) : Stats :=
  { sitesAnalyzed := 0, threatsBlocked := 0, legitimateSites := 0, suspiciousSites := 0
    totalRiskScore := some 0, protectionRate := none, averageRiskScore := none
    lastUpdate := some now, installDate := none }

/-- The method `updateStatistics(result)` (the storage calls succeeding); `tDefault`
and `tUpdate` are the clock readings of lines 604 and 626. -/
def updateStatistics (st : Storage) (result : AnalysisResult) (tDefault tUpdate : Int) :
    Storage :=
  let currentStats := st.stats.getD (defaultStats tDefault)
  let c1 : Stats :=
    { currentStats with
      sitesAnalyzed := currentStats.sitesAnalyzed + 1
      totalRiskScore := currentStats.totalRiskScore.map (fun t => t + result.riskScore) }
  let c2 : Stats :=
    if result.status = Status.phishing then
      { c1 with threatsBlocked := c1.threatsBlocked + 1 }
    else if result.status = Status.legitimate then
      { c1 with legitimateSites := c1.legitimateSites + 1 }
    else { c1 with suspiciousSites := c1.suspiciousSites + 1 }
  let c3 : Stats :=
    { c2 with
      protectionRate :=
        if c2.sitesAnalyzed > 0 then
          some (((c2.threatsBlocked : ℚ) / (c2.sitesAnalyzed : ℚ)) * 100)
        else some 0
      averageRiskScore :=
        if c2.sitesAnalyzed > 0 then c2.totalRiskScore.map (fun t => t / (c2.sitesAnalyzed : ℚ))
        else some 0
      lastUpdate := some tUpdate }
  { st with stats := some c3 }

/-! ## Analysis (`performAdvancedAnalysis`, `analyzeURL`) and user actions -/

/-- The method `performAdvancedAnalysis(url, domain)`: the analysis object and the
detector afterwards (only the reputation check writes to the detector). -/
def performAdvancedAnalysis (parseURL : URLParser) (d : Detector) (url domain : String)
    (clock : Clock) (rnd : RandomDraws) : Analysis × Detector :=
  let rep := checkDomainReputation d domain clock.reputationCheck clock.reputationStore
    rnd.reputation
  ({ url := url
     domain := domain
     timestamp := clock.analysisStart
     checks :=
       { reputation := rep.1
         ssl := checkSSLCertificate parseURL url
         domainAge := calculateDomainAge domain rnd.age
         patterns := checkSuspiciousPatterns url
         keywords := checkPhishingKeywords domain url
         homograph := checkHomographAttacks domain
         structure_ := analyzeDomainStructure domain
         redirects := checkURLRedirects parseURL url } }, rep.2)

/-- What `analyzeURL` resolves to: an error object or a verdict. -/
inductive AnalyzeOutcome where
  | error (message : String)
  | verdict (result : AnalysisResult)

/-- Lines 446-452: the cached verdict that `analyzeURL` returns at clock reading `now`,
if any. -/
def validCachedAnalysis (d : Detector) (cacheKey : String) (now : Int) :
    Option AnalysisResult :=
  if mapHas d.analysisCache cacheKey then
    match mapGet d.analysisCache cacheKey with
    | some cached => if now - cached.timestamp < 10 * 60 * 1000 then some cached.data else none
    | none => none
  else none

/-- The method `analyzeURL(url)`: the value it resolves to and the state afterwards.
No callee of the `try` block throws in this model, so its `catch` branch does not
appear; the statistics update it starts is carried out within the call. -/
def analyzeURL (parseURL : URLParser) (w : World) (clock : Clock) (rnd : RandomDraws)
    (url : String) : AnalyzeOutcome × World :=
  match extractDomain parseURL url with
  | none => (AnalyzeOutcome.error "Invalid URL", w)
  | some domain =>
    if domain = "" then (AnalyzeOutcome.error "Invalid URL", w)
    else
      let cacheKey := domain ++ ":" ++ url
      match validCachedAnalysis w.detector cacheKey clock.analysisCheck with
      | some data => (AnalyzeOutcome.verdict data, w)
      | none =>
        let pa := performAdvancedAnalysis parseURL w.detector url domain clock rnd
        let result := calculateFinalScore pa.1 clock.scored
        let d2 : Detector :=
          { pa.2 with analysisCache := mapSet pa.2.analysisCache cacheKey
                        { data := result, timestamp := clock.analysisStore } }
        (AnalyzeOutcome.verdict result,
          { detector := d2
            storage := updateStatistics w.storage result clock.statsDefault clock.statsUpdate })

/-- The overlay action `blockSite(domain)` of `src/content/content.js` (lines 301-321),
the storage calls succeeding. -/
def blockSite (w : World) (domain : String) : World :=
  let blacklist := w.storage.customBlacklist.getD []
  if domain ∈ blacklist then w
  else { w with storage := { w.storage with customBlacklist := some (blacklist ++ [domain]) } }

/-- The overlay action `addToWhitelist(domain)` of `src/content/content.js`
(lines 334-352), the storage calls succeeding. -/
def addToWhitelist (w : World) (domain : String) : World :=
  let whitelist := w.storage.customWhitelist.getD []
  if domain ∈ whitelist then w
  else { w with storage := { w.storage with customWhitelist := some (whitelist ++ [domain]) } }

/-! ## Reference definitions used by the statements -/

/-- The risk sum in the words of the specification: the reputation term, the TLS term,
the age term, the capped pattern and keyword terms, the uncapped homograph and
structure terms and the redirect term. -/
def specRiskSum (c : Checks) : ℚ :=
  (match c.reputation.status with
    | RepStatus.phishing => 70
    | RepStatus.legitimate => -40
    | RepStatus.unknown => 0)
  + (if c.ssl.hasSSL = false then 25 else 0)
  + (match c.domainAge.category with
    | AgeCategory.very_new => 35
    | AgeCategory.new => 20
    | AgeCategory.established => -10
    | AgeCategory.recent => 0)
  + ((min c.patterns.totalWeight 50 : Int) : ℚ)
  + min c.keywords.keywordScore 40
  + (c.homograph.score : ℚ)
  + (c.structure_.structureScore : ℚ)
  + (if c.redirects.hasSuspiciousRedirects = true then 20 else 0)

/-- A code unit counted by `checkHomographAttacks`: Cyrillic, Greek or accented Latin,
upper or lower case. -/
def isSuspiciousUnit (c : Char) : Bool :=
  classMatches true cyrillicIo c || classMatches true greek c || classMatches true accented c

/-- The number of occurrences of suspicious code units in `domain`. -/
def suspiciousOccurrences (domain : String) : Nat :=
  (domain.toList.filter isSuspiciousUnit).length

/-- The number of distinct suspicious code units in `domain`, the count named by the
specification. -/
def specDistinctSuspicious (domain : String) : Nat :=
  (domain.toList.filter isSuspiciousUnit).eraseDups.length

/-- A detector whose reputation cache still holds a `legitimate` answer, recorded at
clock reading 0, for a domain that is now on the blacklist. -/
def staleDetector : Detector :=
  { phishingDomains := ["new-phishing-site.com"]
    legitimateDomains := []
    domainCache :=
      [("new-phishing-site.com",
        { data := { status := RepStatus.legitimate, confidence := 0.85, source := "api" }
          timestamp := 0 })]
    analysisCache := [] }

/-- A detector with an empty reputation cache and one domain that is on the blacklist,
on the whitelist and matched by an allow-pattern. -/
def conflictedDetector : Detector :=
  { phishingDomains := ["www.google.com"]
    legitimateDomains := ["www.google.com"]
    domainCache := []
    analysisCache := [] }

/-- The platform parser on the two URLs used in the examples below. -/
def exampleParser : URLParser := fun url =>
  if url = "https://example.com/" then some { protocol := "https:", hostname := "example.com" }
  else if url = "about:blank" then some { protocol := "about:", hostname := "" }
  else none

/-- A `legitimate` verdict for `example.com`, as a cached analysis entry holds it. -/
def cachedVerdict : AnalysisResult :=
  { status := Status.legitimate
    threat := Threat.minimal
    message := "This site appears to be legitimate and safe."
    color := "#10b981"
    riskScore := 0
    confidence := 50
    reasons := []
    domain := "example.com"
    hasSSL := true
    domainAge := 1030
    domainCategory := AgeCategory.established
    detailedAnalysis :=
      { reputation := { status := RepStatus.unknown, confidence := 0.5, source := "api" }
        patterns := 0, keywords := 0, homograph := false, structure_ := 0, redirects := false }
    analysisTime := 150 }

/-- Storage with no key set. -/
def emptyStorage : Storage :=
  { customBlacklist := none, customWhitelist := none, domainCache := none, stats := none }

/-- A running extension whose caches hold `legitimate` entries for `example.com`,
both recorded at clock reading 0. -/
def cachedWorld : World :=
  { detector :=
      { phishingDomains := knownPhishing
        legitimateDomains := knownLegitimate
        domainCache :=
          [("example.com",
            { data := { status := RepStatus.legitimate, confidence := 0.85, source := "api" }
              timestamp := 0 })]
        analysisCache :=
          [("example.com:https://example.com/", { data := cachedVerdict, timestamp := 0 })] }
    storage := emptyStorage }

/-- A freshly started extension: the built-in lists, empty caches, empty storage. -/
def initialWorld : World :=
  { detector := initializeDatabase emptyStorage, storage := emptyStorage }

/-- Clock readings of a call that starts at `t` and resolves 150 ms later. -/
def clockAt (t : Int) : Clock :=
  { analysisCheck := t, analysisStart := t, reputationCheck := t, reputationStore := t + 150
    scored := t + 150, analysisStore := t + 150, statsDefault := t + 150
    statsUpdate := t + 150 }

/-- Random readings in the middle of the unit interval. -/
def midDraws : RandomDraws := { reputation := 0.5, age := 0.5 }

/-! ## Cache housekeeping and threat intelligence -/

/-- `Map.prototype.delete`. -/
def mapDelete {α : Type} (m : List (String × α)) (key : String) : List (String × α) :=
  m.filter (fun e => !(e.1 == key))

/-- One of the two loops of `cleanCache` (lines 182-186 and 188-192): every entry of the
map is visited once, and an entry older than `maxAge` is deleted by its key. -/
def sweep {α : Type} (m : List (String × CacheEntry α)) (now maxAge : Int) :
    List (String × CacheEntry α) :=
  m.foldl (fun acc e => if now - e.2.timestamp > maxAge then mapDelete acc e.1 else acc) m

/-- The method `cleanCache()`; `now` is the reading of `Date.now()` at line 179. -/
def cleanCache (d : Detector) (now : Int) : Detector :=
  let maxAge : Int := 24 * 60 * 60 * 1000
  { d with domainCache := sweep d.domainCache now maxAge
           analysisCache := sweep d.analysisCache now maxAge }

/-- A field `updates.phishing` or `updates.legitimate` of a fetched batch: missing
(`undefined` or `null`), an array of domains, or a value that has no `forEach`. -/
inductive FetchedList where
  | absent
  | domains (list : List String)
  | malformed

/-- What `fetchThreatUpdates()` settles to: a rejection, a falsy value, or a batch. -/
inductive FetchOutcome where
  | rejected
  | nothing
  | batch (phishing legitimate : FetchedList)

/-- The object stored under the key `threatIntelligence`. -/
structure ThreatIntelligence where
  lastUpdate : Int
  phishingCount : Nat
  legitimateCount : Nat
  deriving DecidableEq

/-- The observable result of one run of `updateThreatIntelligence`: the detector
afterwards, the summary written to storage if the write happened and succeeded, and
whether the `catch` block ran. -/
structure UpdateRun where
  detector : Detector
  persisted : Option ThreatIntelligence
  caught : Bool

/-- The statement `list?.forEach(domain => set.add(domain))`: `none` when it throws. -/
def mergeInto (set : List String) : FetchedList → Option (List String)
  | FetchedList.absent => some set
  | FetchedList.domains list => some (list.foldl setAdd set)
  | FetchedList.malformed => none

/-- The method `updateThreatIntelligence()`; `fetched` is what the fetch settles to,
`persistOk` whether `chrome.storage.local.set` succeeds and `now` the reading of
`Date.now()` at line 155. -/
def updateThreatIntelligence (d : Detector) (fetched : FetchOutcome) (persistOk : Bool)
    (now : Int) : UpdateRun :=
  match fetched with
  | FetchOutcome.rejected => { detector := d, persisted := none, caught := true }
  | FetchOutcome.nothing => { detector := d, persisted := none, caught := false }
  | FetchOutcome.batch phishing legitimate =>
    match mergeInto d.phishingDomains phishing with
    | none => { detector := d, persisted := none, caught := true }
    | some ph =>
      let d1 : Detector := { d with phishingDomains := ph }
      match mergeInto d1.legitimateDomains legitimate with
      | none => { detector := d1, persisted := none, caught := true }
      | some lg =>
        let d2 : Detector := { d1 with legitimateDomains := lg }
        if persistOk then
          { detector := d2
            persisted := some { lastUpdate := now, phishingCount := d2.phishingDomains.length
                                legitimateCount := d2.legitimateDomains.length }
            caught := false }
        else { detector := d2, persisted := none, caught := true }

/-- The batch that the simulated `fetchThreatUpdates()` of the source resolves to. -/
def simulatedBatch : FetchOutcome :=
  FetchOutcome.batch (FetchedList.domains ["new-phishing-site.com", "another-scam.net"])
    (FetchedList.domains ["trusted-new-site.com"])

/-! ## Reference definitions for the keyword, structure and reason statements -/

/-- Whether `term` occurs in the domain or in the URL. -/
def occursIn (term domain url : String) : Bool := includes domain term || includes url term

/-- The number of context terms of a rule that occur in the domain or in the URL. -/
def contextHits (domain url : String) (k : PhishingKeyword) : Nat :=
  (k.context.filter (fun ctx => occursIn ctx domain url)).length

/-- Whether a keyword rule contributes: its word occurs and so does a context term. -/
def contributes (domain url : String) (k : PhishingKeyword) : Bool :=
  occursIn k.word domain url && decide (0 < contextHits domain url k)

/-- The contribution of one keyword rule in the words of the specification. -/
def specKeywordContribution (domain url : String) (k : PhishingKeyword) : ℚ :=
  if contributes domain url k then
    (k.weight : ℚ) * (1 + (contextHits domain url k : ℚ) * (1 / 2))
  else 0

/-- The dot-separated labels of a domain. -/
def dotLabels (domain : String) : List (List Char) := splitChar '.' domain.toList

/-- First structure rule: more than four labels. -/
def ruleSubdomains (domain : String) : Bool := decide ((dotLabels domain).length > 4)

/-- Second structure rule: the last label has two code units and the label before it
fewer than three. -/
def ruleShortLabels (domain : String) : Bool :=
  match (dotLabels domain).reverse with
  | tld :: sld :: _ => decide (jsLength tld = 2) && decide (jsLength sld < 3)
  | _ => false

/-- Third structure rule: a digit, a letter of a lower-cased host name and a hyphen. -/
def ruleMixed (domain : String) : Bool :=
  domain.toList.any Char.isDigit && domain.toList.any Char.isLower &&
    domain.toList.any (fun c => c == '-')

/-- The reasons pushed by the reputation check. -/
def reputationReasons (c : Checks) : List String :=
  match c.reputation.status with
  | RepStatus.phishing => ["Domain found in phishing database (" ++ c.reputation.source ++ ")"]
  | RepStatus.legitimate => ["Domain verified as legitimate (" ++ c.reputation.source ++ ")"]
  | RepStatus.unknown => []

/-- The reasons pushed by the SSL check. -/
def sslReasons (c : Checks) : List String := if c.ssl.hasSSL = false then c.ssl.issues else []

/-- The reasons pushed by the domain age check. -/
def ageReasons (c : Checks) : List String :=
  match c.domainAge.category with
  | AgeCategory.very_new => ["Very new domain (" ++ intToString c.domainAge.days ++ " days old)"]
  | AgeCategory.new => ["New domain (" ++ intToString c.domainAge.days ++ " days old)"]
  | _ => []

/-- The reasons pushed by the pattern check. -/
def patternReasons (c : Checks) : List String :=
  if c.patterns.totalWeight > 0 then
    c.patterns.matchedPatterns.map (fun p =>
      p.description ++ " (weight: " ++ intToString p.weight ++ ")")
  else []

/-- The reasons pushed by the keyword check. -/
def keywordReasons (c : Checks) : List String :=
  if c.keywords.keywordScore > 0 then
    c.keywords.matchedKeywords.map (fun k =>
      "Phishing keyword \"" ++ k.word ++ "\" with context (score: " ++ toFixed1 k.score ++ ")")
  else []

/-- The reasons pushed by the homograph check. -/
def homographReasons (c : Checks) : List String :=
  if c.homograph.detected = true then
    ["Homograph attack detected: " ++
      ", ".intercalate (c.homograph.characters.map (fun ch => String.mk [ch]))]
  else []

/-- The reasons pushed by the structure check. -/
def structureReasons (c : Checks) : List String :=
  if c.structure_.structureScore > 0 then c.structure_.issues else []

/-- The reasons pushed by the redirect check. -/
def redirectReasons (c : Checks) : List String :=
  if c.redirects.hasSuspiciousRedirects = true then ["Suspicious URL redirects detected"] else []

/-- All reasons in the fixed order of the checks. -/
def collectedReasons (c : Checks) : List String :=
  reputationReasons c ++ sslReasons c ++ ageReasons c ++ patternReasons c ++
    keywordReasons c ++ homographReasons c ++ structureReasons c ++ redirectReasons c

/-- The risk term of a reputation status. -/
def reputationTerm : RepStatus → ℚ
  | RepStatus.phishing => 70
  | RepStatus.legitimate => -40
  | RepStatus.unknown => 0

/-- The detector after `legitimateDomains.add(domain)`. -/
def whitelisted (d : Detector) (domain : String) : Detector :=
  { d with legitimateDomains := setAdd d.legitimateDomains domain }

/-- The platform parser on the two scenario URLs of the specification. -/
def scenarioParser : URLParser := fun url =>
  if url = "http://192.168.1.1/secure-update" then
    some { protocol := "http:", hostname := "192.168.1.1" }
  else if url = "https://www.github.com" then
    some { protocol := "https:", hostname := "www.github.com" }
  else none

/-- Random readings giving an `unknown` external reputation and a `recent` age
(230 days). -/
def neutralDraws : RandomDraws := { reputation := 0.5, age := 0.1 }

/-- A detector whose reputation cache holds entries recorded 29 hours, 2 hours and
5 minutes before the clock reading of 30 hours. -/
def agedDetector : Detector :=
  { phishingDomains := knownPhishing
    legitimateDomains := knownLegitimate
    domainCache :=
      [("day-old.example",
          { data := { status := RepStatus.unknown, confidence := 0.5, source := "api" }
            timestamp := 1 * 60 * 60 * 1000 }),
       ("two-hours.example",
          { data := { status := RepStatus.unknown, confidence := 0.5, source := "api" }
            timestamp := 28 * 60 * 60 * 1000 }),
       ("fresh.example",
          { data := { status := RepStatus.unknown, confidence := 0.5, source := "api" }
            timestamp := 30 * 60 * 60 * 1000 - 5 * 60 * 1000 })]
    analysisCache := [] }

/-! ## Presentation helpers and the options page -/

/-- The risk level names of `getRiskLevel`. -/
inductive RiskLevel where
  | critical
  | high
  | medium
  | low
  deriving DecidableEq, Repr

/-- The method `getRiskLevel(score)` of `src/content/content.js` (lines 277-282). -/
def getRiskLevel (score : ℚ) : RiskLevel :=
  if score ≥ 70 then RiskLevel.critical
  else if score ≥ 45 then RiskLevel.high
  else if score ≥ 25 then RiskLevel.medium
  else RiskLevel.low

/-- The method `formatDomainAge(days, category)` of `src/popup/popup.js`
(lines 491-496). -/
def formatDomainAge (days : Int) (_category : AgeCategory) : String :=
  if days < 30 then intToString days ++ " days (Very New)"
  else if days < 90 then intToString ⌊(days : ℚ) / 30⌋ ++ " months (New)"
  else if days < 365 then intToString ⌊(days : ℚ) / 30⌋ ++ " months (Recent)"
  else intToString ⌊(days : ℚ) / 365⌋ ++ " years (Established)"

/-- The `stats` object written by the `onInstalled` listener (lines 742-749); it has no
`totalRiskScore`, no `averageRiskScore` and no `lastUpdate`. -/
def installStats (installDate : Int) : Stats :=
  { sitesAnalyzed := 0, threatsBlocked := 0, legitimateSites := 0, suspiciousSites := 0
    totalRiskScore := none, protectionRate := some 0, averageRiskScore := none
    lastUpdate := none, installDate := some installDate }

/-- The class `[a-zA-Z0-9]`. -/
def alnum : CharClass := [(0x61, 0x7A), (0x41, 0x5A), (0x30, 0x39)]

/-- The class `[a-zA-Z0-9-]`. -/
def alnumHyphen : CharClass := [(0x61, 0x7A), (0x41, 0x5A), (0x30, 0x39), (0x2D, 0x2D)]

/-- The label pattern `[a-zA-Z0-9][a-zA-Z0-9-]{0,61}[a-zA-Z0-9]` of `domainRegex`. -/
def labelRe : Regex :=
  Regex.seq (Regex.cls alnum) (Regex.seq (Regex.rep alnumHyphen 0 (some 61)) (Regex.cls alnum))

/-- Backtracking over `(?:re)*`: after any number of rounds `k` is tried; a round that
consumes nothing is rejected, as ECMAScript does, so that `fuel` equal to the length of
the input is never exhausted. -/
def starK (ic : Bool) (re : Regex) :
    Nat → Bool → List Char → (Bool → List Char → Bool) → Bool
  | 0, st, s, k => k st s
  | fuel + 1, st, s, k =>
    k st s || matchK ic re st s (fun st2 s2 =>
      decide (s2.length < s.length) && starK ic re fuel st2 s2 k)

/-- A match of `re` followed by `k`, beginning at some position of the remaining input. -/
def searchFromK (ic : Bool) (re : Regex) (k : Bool → List Char → Bool) :
    Bool → List Char → Bool
  | st, [] => matchK ic re st [] k
  | st, c :: rest => matchK ic re st (c :: rest) k || searchFromK ic re k false rest

/-- The method `isValidDomain(domain)` of `src/options/options.js` (lines 177-180):
`domainRegex.test(domain) && domain.length <= 253` with
`domainRegex = /^label(?:\.label)*$/`. -/
def isValidDomain (domain : String) : Bool :=
  searchFromK false (Regex.seq Regex.bol labelRe)
      (fun st rest => starK false (Regex.seq (Regex.chr '.') labelRe) rest.length st rest
        (fun _ r => r.isEmpty))
      true domain.toList
    && decide (jsLength domain.toList ≤ 253)

/-- The click handlers of `addWhitelist` and `addBlacklist` (lines 69-98) on the custom
list they manage; `domain` is the input value after `trim().toLowerCase()`. -/
def addCustomDomain (list : List String) (domain : String) : List String :=
  if domain ≠ "" ∧ isValidDomain domain = true ∧ domain ∉ list then list ++ [domain] else list

/-- The platform parser on the URL of the `www.microsoft.com` example. -/
def microsoftParser : URLParser := fun url =>
  if url = "https://www.microsoft.com/account" then
    some { protocol := "https:", hostname := "www.microsoft.com" }
  else none

/-! ## Reference definitions for the pattern and domain statements -/

/-- The code of a character with the letters `A` to `Z` turned into `a` to `z`. -/
def lowerCode (n : Nat) : Nat := if 0x41 ≤ n ∧ n ≤ 0x5A then n + 32 else n

/-- A string with its ASCII letters in lower case, as codes. -/
def lowered (s : List Char) : List Nat := s.map (fun c => lowerCode c.toNat)

/-- The codes of a literal. -/
def codes (w : String) : List Nat := w.toList.map Char.toNat

/-- Whether a code is one of `a` to `z`. -/
def isLowerCode (n : Nat) : Bool := decide (0x61 ≤ n ∧ n ≤ 0x7A)

/-- Whether a string ends with `ending`, ignoring the case of ASCII letters. -/
def endsWithFolded (s ending : String) : Bool := (codes ending).isSuffixOf (lowered s.toList)

/-- Exactly two letters. -/
def twoLetters (l : List Nat) : Bool := decide (l.length = 2) && l.all isLowerCode

/-- The suffixes an allow-pattern admits after `name.`: one fixed suffix; `com` or
`co.` and two letters; or these and two letters alone. -/
inductive SuffixRule where
  | only (tld : String)
  | comOrCo
  | comOrCoOrCountry

/-- Whether a lower-cased rest of the host name is a suffix the rule admits. -/
def suffixAllowed : SuffixRule → List Nat → Bool
  | SuffixRule.only tld, l => l == codes tld
  | SuffixRule.comOrCo, l =>
    l == codes "com" || ((codes "co.").isPrefixOf l && twoLetters (l.drop 3))
  | SuffixRule.comOrCoOrCountry, l =>
    l == codes "com" || ((codes "co.").isPrefixOf l && twoLetters (l.drop 3)) || twoLetters l

/-- The brand names of the allow-list with their suffix rules. -/
def allowList : List (String × SuffixRule) :=
  [("google", SuffixRule.comOrCoOrCountry), ("github", SuffixRule.only "com"),
   ("stackoverflow", SuffixRule.only "com"), ("microsoft", SuffixRule.comOrCo),
   ("amazon", SuffixRule.comOrCoOrCountry), ("facebook", SuffixRule.only "com"),
   ("twitter", SuffixRule.only "com"), ("linkedin", SuffixRule.only "com"),
   ("youtube", SuffixRule.only "com"), ("wikipedia", SuffixRule.only "org")]

/-- Whether the whole lower-cased string is `lead`, the brand name, a dot and an
admitted suffix. -/
def brandMatches (lead : String) (brand : String × SuffixRule) (l : List Nat) : Bool :=
  (codes lead ++ codes brand.1 ++ codes ".").isPrefixOf l &&
    suffixAllowed brand.2 (l.drop (codes lead ++ codes brand.1 ++ codes ".").length)

/-- The allow-list in the words of the specification: ignoring case, the whole domain
is an optional `www.`, a listed brand name, a dot and one of its suffixes. -/
def specAllowed (domain : String) : Bool :=
  allowList.any (fun brand =>
    brandMatches "" brand (lowered domain.toList) ||
      brandMatches "www." brand (lowered domain.toList))

/-- A label of a valid domain: letters, digits and hyphens only, a letter or digit at
both ends, between 2 and 63 long. -/
def validLabel (l : List Char) : Bool :=
  decide (2 ≤ l.length) && decide (l.length ≤ 63) &&
    l.all (fun c => c.isAlphanum || c == '-') &&
    (match l.head? with
      | some c => c.isAlphanum
      | none => false) &&
    (match l.getLast? with
      | some c => c.isAlphanum
      | none => false)

/-- Validity of a domain in the words of the specification. -/
def specValidDomain (domain : String) : Bool :=
  decide (jsLength domain.toList ≤ 253) && (splitChar '.' domain.toList).all validLabel

/-- An analysis, not one the extractors can produce, whose only signal is a keyword
score of 24.5. -/
def oddKeywordAnalysis : Analysis :=
  { url := "https://example.com/", domain := "example.com", timestamp := 0
    checks :=
      { reputation := { status := RepStatus.unknown, confidence := 0.5, source := "api" }
        ssl := { hasSSL := true, score := 0, issues := [] }
        domainAge := { days := 200, category := AgeCategory.recent }
        patterns := { totalWeight := 0, matchedPatterns := [] }
        keywords := { keywordScore := 24.5, matchedKeywords := [] }
        homograph := { detected := false, score := 0, characters := [] }
        structure_ := { structureScore := 0, issues := [] }
        redirects := { hasSuspiciousRedirects := false, score := 0, redirectChain := [] } } }

/-! ## Auxiliary definitions for the later statements -/

/-- The label that `formatDomainAge` prints for a category. -/
def ageLabel : AgeCategory → String
  | AgeCategory.very_new => "(Very New)"
  | AgeCategory.new => "(New)"
  | AgeCategory.recent => "(Recent)"
  | AgeCategory.established => "(Established)"

/-- A number that is an integer multiple of 2.5. -/
def isStepOfRisk (x : ℚ) : Prop := ∃ k : Int, x = (k : ℚ) * (5 / 2)

/-- A code that only itself and, for a letter, its upper-case form match under the `i`
flag: a lower-case letter, a digit, a dot or a hyphen. -/
def plainCode (p : Nat) : Bool :=
  decide (97 ≤ p ∧ p ≤ 122) || decide (48 ≤ p ∧ p ≤ 57) || decide (p = 46) || decide (p = 45)

/-- A dot followed by what `f` accepts. -/
def dotThen (f : List Nat → Bool) : List Nat → Bool
  | [] => false
  | x :: r => x == 46 && f r

/-- Whether a pattern for the suffix group, followed by the end of the input, decides
the rule. -/
def decidesRule (suffix : Regex) (rule : SuffixRule) : Prop :=
  ∀ (st : Bool) (s : List Char),
    matchK true suffix st s (fun st2 s2 => matchK true Regex.eol st2 s2 (fun _ _ => true)) =
      suffixAllowed rule (lowered s)

/-- The platform parser on a spelling of the host `www.microsoft.com` in which the
letter `t` is percent-encoded; the constructor `URL` decodes it in the host. -/
def encodedHostParser : URLParser := fun url =>
  if url = "https://www.microsof%74.com/account" then
    some { protocol := "https:", hostname := "www.microsoft.com" }
  else none

/-- The labels of a list, each preceded by a dot. -/
def dotted : List (List Char) → List Char
  | [] => []
  | l :: ls => '.' :: (l ++ dotted ls)

/-- An analysis with a legitimate reputation whose confidence is the binary64 number
`0.6749999999999999`, and no other signal. -/
def roundedConfidenceAnalysis : Analysis :=
  { url := "https://example.com/", domain := "example.com", timestamp := 0
    checks :=
      { reputation := { status := RepStatus.legitimate
                        confidence := 6079859496950169 / 9007199254740992, source := "api" }
        ssl := { hasSSL := true, score := 0, issues := [] }
        domainAge := { days := 200, category := AgeCategory.recent }
        patterns := { totalWeight := 0, matchedPatterns := [] }
        keywords := { keywordScore := 0, matchedKeywords := [] }
        homograph := { detected := false, score := 0, characters := [] }
        structure_ := { structureScore := 0, issues := [] }
        redirects := { hasSuspiciousRedirects := false, score := 0, redirectChain := [] } } }

/-- The platform parser on the URL of the rounding example. -/
def alertParser : URLParser := fun url =>
  if url = "http://security.example/alert" then
    some { protocol := "http:", hostname := "security.example" }
  else none

end PhishGuard

/-! # Theorems -/

namespace PhishGuard

/-! ## Binary64 rounding -/

theorem roundHalfEven_bounds (x : ℚ) : ⌊x⌋ ≤ roundHalfEven x ∧ roundHalfEven x ≤ ⌊x⌋ + 1 := by
  unfold roundHalfEven
  split_ifs <;> constructor <;> omega

theorem roundHalfEven_intCast (n : Int) : roundHalfEven (n : ℚ) = n := by
  unfold roundHalfEven
  simp

theorem roundHalfEven_le (x : ℚ) (m : Int) (h : x ≤ m) : roundHalfEven x ≤ m := by
  have hf : ⌊x⌋ ≤ m := Int.floor_le_floor h |>.trans (by simp)
  rcases lt_or_eq_of_le hf with hlt | heq
  · have := (roundHalfEven_bounds x).2; omega
  · have hx : x = m := le_antisymm h (by rw [← heq]; exact Int.floor_le x)
    rw [hx, roundHalfEven_intCast]

theorem le_roundHalfEven (x : ℚ) (m : Int) (h : (m : ℚ) ≤ x) : m ≤ roundHalfEven x :=
  (Int.le_floor.mpr h).trans (roundHalfEven_bounds x).1

theorem roundHalfEven_lt (x : ℚ) (m : Int) (h : x < m - 1 / 2) : roundHalfEven x ≤ m - 1 := by
  have hf : ⌊x⌋ ≤ m - 1 := by
    have : ⌊x⌋ < m := Int.floor_lt.mpr (by linarith)
    omega
  rcases lt_or_eq_of_le hf with hlt | heq
  · have := (roundHalfEven_bounds x).2; omega
  · unfold roundHalfEven
    have hfr : x - ⌊x⌋ < 1 / 2 := by
      rw [heq]; push_cast; linarith
    rw [if_pos hfr, heq]

theorem roundHalfEven_gt (x : ℚ) (m : Int) (h : (m : ℚ) - 1 / 2 < x) : m ≤ roundHalfEven x := by
  by_cases hm : (m : ℚ) ≤ x
  · exact le_roundHalfEven x m hm
  · have hlt : x < m := lt_of_not_ge hm
    have hf : ⌊x⌋ = m - 1 := by
      rw [Int.floor_eq_iff]; push_cast; constructor <;> linarith
    unfold roundHalfEven
    have h1 : ¬ (x - ⌊x⌋ < 1 / 2) := by
      rw [hf]; push_cast; linarith
    have h2 : 1 / 2 < x - ⌊x⌋ := by
      rw [hf]; push_cast; linarith
    rw [if_neg h1, if_pos h2, hf]; omega

theorem ulp_pos (x : ℚ) : (0 : ℚ) < 2 ^ ulpExponent x := zpow_pos (by norm_num) _

/-- A multiple of `2 ^ t` is a multiple of the spacing at `x` when the spacing is finer. -/
theorem multiple_of_ulp (x : ℚ) (b t : Int) (ht : ulpExponent x ≤ t) :
    ∃ m : Int, (b : ℚ) * 2 ^ t = (m : ℚ) * 2 ^ ulpExponent x := by
  obtain ⟨j, hj⟩ := Int.eq_ofNat_of_zero_le (sub_nonneg.mpr ht)
  refine ⟨b * 2 ^ j, ?_⟩
  have ht2 : t = ulpExponent x + j := by omega
  rw [ht2, zpow_add₀ (by norm_num : (2 : ℚ) ≠ 0), zpow_natCast]
  push_cast
  ring

theorem toDouble_le (x : ℚ) (b t : Int) (ht : ulpExponent x ≤ t) (h : x ≤ (b : ℚ) * 2 ^ t) :
    toDouble x ≤ (b : ℚ) * 2 ^ t := by
  obtain ⟨m, hm⟩ := multiple_of_ulp x b t ht
  rw [hm] at h ⊢
  unfold toDouble
  have hq : x / 2 ^ ulpExponent x ≤ m := by
    rw [div_le_iff₀ (ulp_pos x)]; exact h
  have := roundHalfEven_le _ m hq
  exact mul_le_mul_of_nonneg_right (by exact_mod_cast this) (le_of_lt (ulp_pos x))

theorem le_toDouble (x : ℚ) (b t : Int) (ht : ulpExponent x ≤ t) (h : (b : ℚ) * 2 ^ t ≤ x) :
    (b : ℚ) * 2 ^ t ≤ toDouble x := by
  obtain ⟨m, hm⟩ := multiple_of_ulp x b t ht
  rw [hm] at h ⊢
  unfold toDouble
  have hq : (m : ℚ) ≤ x / 2 ^ ulpExponent x := by
    rw [le_div_iff₀ (ulp_pos x)]; exact h
  have := le_roundHalfEven _ m hq
  exact mul_le_mul_of_nonneg_right (by exact_mod_cast this) (le_of_lt (ulp_pos x))

theorem toDouble_lt (x : ℚ) (b t : Int) (ht : ulpExponent x ≤ t)
    (h : x + 2 ^ t / 2 < (b : ℚ) * 2 ^ t) : toDouble x < (b : ℚ) * 2 ^ t := by
  obtain ⟨m, hm⟩ := multiple_of_ulp x b t ht
  have hU : (2 : ℚ) ^ ulpExponent x ≤ 2 ^ t := zpow_le_zpow_right₀ (by norm_num) ht
  rw [hm] at h ⊢
  unfold toDouble
  have hq : x / 2 ^ ulpExponent x < m - 1 / 2 := by
    rw [div_lt_iff₀ (ulp_pos x)]
    have := ulp_pos x
    nlinarith
  have := roundHalfEven_lt _ m hq
  have h2 : ((roundHalfEven (x / 2 ^ ulpExponent x) : Int) : ℚ) ≤ (m : ℚ) - 1 := by
    exact_mod_cast this
  have := ulp_pos x
  nlinarith

theorem ulpExponent_le (x : ℚ) (k : Int) (hx : |x| < 2 ^ k) (hk : 1 ≤ k) :
    ulpExponent x ≤ k - 53 := by
  unfold ulpExponent
  have hlog : Int.log 2 |x| < k := by
    rcases eq_or_lt_of_le (abs_nonneg x) with h0 | hpos
    · rw [← h0]; simp; omega
    · exact (Int.lt_zpow_iff_log_lt (by norm_num) hpos).mp (by exact_mod_cast hx)
  have : max (Int.log 2 |x|) (-1022) ≤ k - 1 := max_le (by omega) (by omega)
  omega

theorem ulpExponent_eq (x : ℚ) (e : Int) (h1 : (2 : ℚ) ^ e ≤ |x|) (h2 : |x| < 2 ^ (e + 1))
    (he : -1022 ≤ e) : ulpExponent x = e - 52 := by
  unfold ulpExponent
  have hpos : 0 < |x| := lt_of_lt_of_le (zpow_pos (by norm_num) _) h1
  have hlo : e ≤ Int.log 2 |x| :=
    (Int.zpow_le_iff_le_log (by norm_num) hpos).mp (by exact_mod_cast h1)
  have hhi : Int.log 2 |x| < e + 1 :=
    (Int.lt_zpow_iff_log_lt (by norm_num) hpos).mp (by exact_mod_cast h2)
  have : Int.log 2 |x| = e := by omega
  rw [this, max_eq_left he]

theorem toDouble_eq_self (x : ℚ) (b t : Int) (ht : ulpExponent x ≤ t) (h : x = (b : ℚ) * 2 ^ t) :
    toDouble x = x :=
  le_antisymm (by have := toDouble_le x b t ht (le_of_eq h); rwa [← h] at this)
    (by have := le_toDouble x b t ht (le_of_eq h.symm); rwa [← h] at this)

theorem toDouble_intCast (n : Int) (h : |(n : ℚ)| < 2 ^ (53 : Int)) : toDouble (n : ℚ) = n := by
  apply toDouble_eq_self (n : ℚ) n 0
  · have := ulpExponent_le (n : ℚ) 53 h (by norm_num); omega
  · simp

theorem toDouble_nonneg (x : ℚ) (h : 0 ≤ x) : 0 ≤ toDouble x := by
  unfold toDouble
  have hq : (0 : ℚ) ≤ x / 2 ^ ulpExponent x := div_nonneg h (le_of_lt (ulp_pos x))
  have := le_roundHalfEven _ 0 (by simpa using hq)
  exact mul_nonneg (by exact_mod_cast this) (le_of_lt (ulp_pos x))

theorem toDouble_natCast (n : ℕ) (h : n < 2 ^ 53) : toDouble (n : ℚ) = n := by
  have := toDouble_intCast (n : Int) (by
    rw [abs_of_nonneg (by positivity)]
    have : ((n : Int) : ℚ) = (n : ℚ) := by norm_cast
    have e : (2 : ℚ) ^ (53 : Int) = 2 ^ (53 : ℕ) := by norm_num
    rw [this, e]
    exact_mod_cast h)
  simpa using this

theorem le_toDouble_half (x : ℚ) (b : Int)
    (h : (b : ℚ) * 2 ^ ulpExponent x - 2 ^ ulpExponent x / 2 < x) :
    (b : ℚ) * 2 ^ ulpExponent x ≤ toDouble x := by
  unfold toDouble
  have hq : (b : ℚ) - 1 / 2 < x / 2 ^ ulpExponent x := by
    rw [lt_div_iff₀ (ulp_pos x)]
    have := ulp_pos x
    nlinarith
  have := roundHalfEven_gt _ b hq
  exact mul_le_mul_of_nonneg_right (by exact_mod_cast this) (le_of_lt (ulp_pos x))

/-- Rounding to binary64 and then to an integer gives `n` for every number within a
quarter of `n`, for `n` up to 100. -/
theorem mathRound_toDouble_near (x : ℚ) (n : Int) (h0 : 1 ≤ n) (h100 : n ≤ 100)
    (h : |x - n| ≤ 1 / 4) : mathRound (toDouble x) = n := by
  obtain ⟨hl, hr⟩ := abs_le.mp h
  have hn1 : (1 : ℚ) ≤ n := by exact_mod_cast h0
  have hn2 : (n : ℚ) ≤ 100 := by exact_mod_cast h100
  have hu : ulpExponent x ≤ -2 := by
    have := ulpExponent_le x 7 (by rw [abs_of_nonneg (by linarith)]; norm_num; linarith)
      (by norm_num)
    omega
  have e1 : ((4 * n - 1 : Int) : ℚ) * 2 ^ (-2 : Int) = n - 1 / 4 := by
    push_cast; norm_num; ring
  have e2 : ((4 * n + 1 : Int) : ℚ) * 2 ^ (-2 : Int) = n + 1 / 4 := by
    push_cast; norm_num; ring
  have hlo := le_toDouble x (4 * n - 1) (-2) hu (by rw [e1]; linarith)
  have hhi := toDouble_le x (4 * n + 1) (-2) hu (by rw [e2]; linarith)
  rw [e1] at hlo
  rw [e2] at hhi
  unfold mathRound
  have : ⌊toDouble x + 1 / 2⌋ = n := by
    rw [Int.floor_eq_iff]
    constructor <;> linarith
  rw [this]

theorem toDouble_eq_of_below (x y : ℚ) (e b : Int) (he : -1022 ≤ e) (h1 : (2 : ℚ) ^ e ≤ |x|)
    (h2 : |x| < 2 ^ (e + 1)) (hy : y = (b : ℚ) * 2 ^ (e - 52))
    (hlo : y - 2 ^ (e - 52) / 2 < x) (hhi : x ≤ y) : toDouble x = y := by
  have hu : ulpExponent x = e - 52 := ulpExponent_eq x e h1 h2 he
  apply le_antisymm
  · rw [hy]
    exact toDouble_le x b (e - 52) (le_of_eq hu) (by rw [← hy]; exact hhi)
  · have := le_toDouble_half x b (by rw [hu, ← hy]; exact hlo)
    rw [hu, ← hy] at this
    exact this

theorem roundHalfEven_tie_even (m : Int) (hm : m % 2 = 0) :
    roundHalfEven ((m : ℚ) - 1 / 2) = m := by
  have hf : ⌊(m : ℚ) - 1 / 2⌋ = m - 1 := by
    rw [Int.floor_eq_iff]; push_cast; constructor <;> linarith
  unfold roundHalfEven
  rw [hf]
  have h1 : ¬ ((m : ℚ) - 1 / 2 - ((m - 1 : Int) : ℚ) < 1 / 2) := by push_cast; linarith
  have h2 : ¬ ((1 : ℚ) / 2 < (m : ℚ) - 1 / 2 - ((m - 1 : Int) : ℚ)) := by push_cast; linarith
  have h3 : ¬ ((m - 1) % 2 = 0) := by omega
  rw [if_neg h1, if_neg h2, if_neg h3]
  omega

theorem toDouble_eq_of_tie (x y : ℚ) (e b : Int) (he : -1022 ≤ e) (h1 : (2 : ℚ) ^ e ≤ |x|)
    (h2 : |x| < 2 ^ (e + 1)) (hy : y = (b : ℚ) * 2 ^ (e - 52)) (hb : b % 2 = 0)
    (hx : x = y - 2 ^ (e - 52) / 2) : toDouble x = y := by
  have hu : ulpExponent x = e - 52 := ulpExponent_eq x e h1 h2 he
  unfold toDouble
  rw [hu]
  have hp : (0 : ℚ) < 2 ^ (e - 52) := zpow_pos (by norm_num) _
  have hq : x / 2 ^ (e - 52) = (b : ℚ) - 1 / 2 := by
    rw [hx, hy]; field_simp; ring
  rw [hq, roundHalfEven_tie_even b hb, hy]

/-- A binary64 number below 1 is at most `1 - 2^-53`. -/
theorem isDouble_lt_one (x : ℚ) (hd : isDouble x = true) (h0 : 0 ≤ x) (h1 : x < 1) :
    x ≤ 1 - 1 / 2 ^ 53 := by
  by_cases hhalf : x < 1 / 2
  · have : (1 : ℚ) / 2 ^ 53 ≤ 1 / 2 := by norm_num
    linarith
  · have hx : (1 : ℚ) / 2 ≤ x := not_lt.mp hhalf
    have habs : |x| = x := abs_of_nonneg h0
    have hu : ulpExponent x = -1 - 52 := by
      apply ulpExponent_eq x (-1)
      · rw [habs]; norm_num; linarith
      · rw [habs]; norm_num; exact h1
      · norm_num
    have hd2 : toDouble x = x := by
      unfold isDouble at hd; exact beq_iff_eq.mp hd
    unfold toDouble at hd2
    rw [hu] at hd2
    generalize roundHalfEven (x / 2 ^ (-1 - 52 : Int)) = n at hd2
    have hpow : (2 : ℚ) ^ (-1 - 52 : Int) = 1 / 2 ^ 53 := by
      rw [show (-1 - 52 : Int) = -(53 : Nat) by norm_num, zpow_neg, zpow_natCast]
      norm_num
    rw [hpow] at hd2
    have hlt : (n : ℚ) < ((2 ^ 53 : Int) : ℚ) := by
      have : (n : ℚ) * (1 / 2 ^ 53) < 1 := by rw [hd2]; exact h1
      push_cast
      have h53 : (0 : ℚ) < 2 ^ 53 := by norm_num
      rw [mul_one_div, div_lt_one h53] at this
      exact this
    have hle : n ≤ 2 ^ 53 - 1 := by
      have : n < 2 ^ 53 := by exact_mod_cast hlt
      omega
    have hle2 : (n : ℚ) ≤ 2 ^ 53 - 1 := by exact_mod_cast hle
    rw [← hd2]
    have h53 : (0 : ℚ) < 2 ^ 53 := by norm_num
    rw [mul_one_div, div_le_iff₀ h53]
    have : ((1 : ℚ) - 1 / 2 ^ 53) * 2 ^ 53 = 2 ^ 53 - 1 := by field_simp
    rw [this]
    exact hle2

/-! ## Score aggregation -/

theorem verdictOf_status (r : ℚ) :
    ((verdictOf r).1 = Status.phishing ↔ 70 ≤ r) ∧
    ((verdictOf r).1 = Status.suspicious ↔ 45 ≤ r ∧ r < 70) ∧
    ((verdictOf r).1 = Status.questionable ↔ 25 ≤ r ∧ r < 45) ∧
    ((verdictOf r).1 = Status.legitimate ↔ r < 25) := by
  unfold verdictOf
  split_ifs with h1 h2 h3
  · refine ⟨by simpa using h1, ?_, ?_, ?_⟩ <;> simp <;> intros <;> linarith
  · have h1b : r < 70 := lt_of_not_ge h1
    refine ⟨?_, ?_, ?_, ?_⟩ <;> simp <;> first | linarith | exact ⟨h2, h1b⟩ | (intros; linarith)
  · have h1b : r < 70 := lt_of_not_ge h1
    have h2b : r < 45 := lt_of_not_ge h2
    refine ⟨?_, ?_, ?_, ?_⟩ <;> simp <;> first | linarith | exact ⟨h3, h2b⟩ | (intros; linarith)
  · have h1b : r < 70 := lt_of_not_ge h1
    have h2b : r < 45 := lt_of_not_ge h2
    have h3b : r < 25 := lt_of_not_ge h3
    refine ⟨?_, ?_, ?_, ?_⟩ <;> simp <;> first | linarith | (intros; linarith)

theorem verdictOf_paired (r : ℚ) :
    ((verdictOf r).1 = Status.phishing ↔ (verdictOf r).2.1 = Threat.high) ∧
    ((verdictOf r).1 = Status.suspicious ↔ (verdictOf r).2.1 = Threat.medium) ∧
    ((verdictOf r).1 = Status.questionable ↔ (verdictOf r).2.1 = Threat.low) ∧
    ((verdictOf r).1 = Status.legitimate ↔ (verdictOf r).2.1 = Threat.minimal) := by
  unfold verdictOf
  split_ifs <;> simp

/-- C1: the verdict of `calculateFinalScore` is read off the clamped risk `r`:
phishing/high iff `r ≥ 70`, suspicious/medium iff `45 ≤ r < 70`, questionable/low iff
`25 ≤ r < 45`, legitimate/minimal iff `r < 25`; the four ranges are exhaustive and
exclusive and every status comes with its own threat level. -/
theorem calculateFinalScore_verdict_thresholds (analysis : Analysis) (now : Int) :
    ((calculateFinalScore analysis now).status = Status.phishing ∧
        (calculateFinalScore analysis now).threat = Threat.high ↔
      70 ≤ clampedRisk analysis) ∧
    ((calculateFinalScore analysis now).status = Status.suspicious ∧
        (calculateFinalScore analysis now).threat = Threat.medium ↔
      45 ≤ clampedRisk analysis ∧ clampedRisk analysis < 70) ∧
    ((calculateFinalScore analysis now).status = Status.questionable ∧
        (calculateFinalScore analysis now).threat = Threat.low ↔
      25 ≤ clampedRisk analysis ∧ clampedRisk analysis < 45) ∧
    ((calculateFinalScore analysis now).status = Status.legitimate ∧
        (calculateFinalScore analysis now).threat = Threat.minimal ↔
      clampedRisk analysis < 25) ∧
    ((calculateFinalScore analysis now).status = Status.phishing ↔
      (calculateFinalScore analysis now).threat = Threat.high) ∧
    ((calculateFinalScore analysis now).status = Status.suspicious ↔
      (calculateFinalScore analysis now).threat = Threat.medium) ∧
    ((calculateFinalScore analysis now).status = Status.questionable ↔
      (calculateFinalScore analysis now).threat = Threat.low) ∧
    ((calculateFinalScore analysis now).status = Status.legitimate ↔
      (calculateFinalScore analysis now).threat = Threat.minimal) := by
  have hs : (calculateFinalScore analysis now).status = (verdictOf (clampedRisk analysis)).1 := rfl
  have ht : (calculateFinalScore analysis now).threat = (verdictOf (clampedRisk analysis)).2.1 := rfl
  rw [hs, ht]
  obtain ⟨a1, a2, a3, a4⟩ := verdictOf_status (clampedRisk analysis)
  obtain ⟨b1, b2, b3, b4⟩ := verdictOf_paired (clampedRisk analysis)
  refine ⟨?_, ?_, ?_, ?_, b1, b2, b3, b4⟩
  · rw [← a1]; exact ⟨fun h => h.1, fun h => ⟨h, b1.mp h⟩⟩
  · rw [← a2]; exact ⟨fun h => h.1, fun h => ⟨h, b2.mp h⟩⟩
  · rw [← a3]; exact ⟨fun h => h.1, fun h => ⟨h, b3.mp h⟩⟩
  · rw [← a4]; exact ⟨fun h => h.1, fun h => ⟨h, b4.mp h⟩⟩

theorem clampRisk_bounds (x : ℚ) : 0 ≤ clampRisk x ∧ clampRisk x ≤ 100 := by
  unfold clampRisk
  refine ⟨le_max_left _ _, max_le (by norm_num) (min_le_left _ _)⟩

/-- C3: the returned `riskScore` is an integer between 0 and 100; it is 0 whenever the
accumulated sum is not positive and 100 whenever the sum is at least 100. -/
theorem calculateFinalScore_riskScore_range (analysis : Analysis) (now : Int) :
    (∃ n : Int, (calculateFinalScore analysis now).riskScore = (n : ℚ) ∧ 0 ≤ n ∧ n ≤ 100) ∧
    ((accumulate analysis.checks).riskScore ≤ 0 →
      (calculateFinalScore analysis now).riskScore = 0) ∧
    (100 ≤ (accumulate analysis.checks).riskScore →
      (calculateFinalScore analysis now).riskScore = 100) := by
  have hr : (calculateFinalScore analysis now).riskScore =
      mathRound (clampRisk (accumulate analysis.checks).riskScore) := rfl
  rw [hr]
  obtain ⟨h0, h100⟩ := clampRisk_bounds (accumulate analysis.checks).riskScore
  refine ⟨⟨⌊clampRisk (accumulate analysis.checks).riskScore + 1 / 2⌋, rfl, ?_, ?_⟩, ?_, ?_⟩
  · apply Int.floor_nonneg.mpr; linarith
  · have : ⌊clampRisk (accumulate analysis.checks).riskScore + 1 / 2⌋ < 101 := by
      apply Int.floor_lt.mpr
      push_cast
      linarith
    omega
  · intro h
    have hc : clampRisk (accumulate analysis.checks).riskScore = 0 := by
      unfold clampRisk
      exact max_eq_left (le_trans (min_le_right _ _) h)
    rw [hc]
    norm_num [mathRound]
  · intro h
    have hc : clampRisk (accumulate analysis.checks).riskScore = 100 := by
      unfold clampRisk
      rw [min_eq_left h]
      norm_num
    rw [hc]
    unfold mathRound
    have : ⌊(100 : ℚ) + 1 / 2⌋ = 100 := by
      rw [Int.floor_eq_iff]; norm_num
    rw [this]; norm_num

/-! ## Extractor outputs -/

theorem foldl_patternStep (url : String) (table : List SuspiciousPattern) (acc : PatternCheck) :
    table.foldl (patternStep url) acc =
      { totalWeight := acc.totalWeight +
          ((table.filter (fun p => p.pattern.test url)).map (fun p => p.weight)).sum
        matchedPatterns := acc.matchedPatterns ++
          (table.filter (fun p => p.pattern.test url)).map
            (fun p => { description := p.description, weight := p.weight }) } := by
  induction table generalizing acc with
  | nil => simp
  | cons p rest ih =>
    rw [List.foldl_cons, ih]
    by_cases hp : p.pattern.test url = true
    · simp [patternStep, hp, List.filter_cons, add_assoc]
    · simp [patternStep, hp, List.filter_cons]

theorem suspiciousPatterns_weight_nonneg :
    ∀ p ∈ suspiciousPatterns, 0 ≤ p.weight := by
  intro p hp
  simp only [suspiciousPatterns, List.mem_cons, List.mem_singleton, List.not_mem_nil,
    or_false] at hp
  rcases hp with h | h | h | h | h | h | h | h | h | h | h | h | h | h | h | h | h | h | h |
    h | h | h <;> subst h <;> decide

theorem checkSuspiciousPatterns_totalWeight_nonneg (url : String) :
    0 ≤ (checkSuspiciousPatterns url).totalWeight := by
  unfold checkSuspiciousPatterns checkPatternsIn
  rw [foldl_patternStep]
  simp only [zero_add]
  apply List.sum_nonneg
  intro w hw
  obtain ⟨p, hp, rfl⟩ := List.mem_map.mp hw
  exact suspiciousPatterns_weight_nonneg p (List.mem_of_mem_filter hp)

theorem keywordStep_nonneg (domain url : String) (acc : KeywordCheck) (k : PhishingKeyword)
    (hk : 0 ≤ k.weight) (hacc : 0 ≤ acc.keywordScore) :
    0 ≤ (keywordStep domain url acc k).keywordScore := by
  unfold keywordStep
  by_cases h1 : (includes domain k.word || includes url k.word) = true
  · by_cases h2 : contextMatches domain url k.context > 0
    · simp only [h1, h2, if_true]
      have hw : (0 : ℚ) ≤ (k.weight : ℚ) := by exact_mod_cast hk
      have hc : (0 : ℚ) ≤ 1 + ((contextMatches domain url k.context : Nat) : ℚ) * (1 / 2) := by
        positivity
      have := mul_nonneg hw hc
      linarith
    · simpa only [h1, h2, if_true, if_false] using hacc
  · simpa only [h1, if_false] using hacc

theorem foldl_keywordStep_nonneg (domain url : String) (table : List PhishingKeyword)
    (htable : ∀ k ∈ table, 0 ≤ k.weight) (acc : KeywordCheck) (hacc : 0 ≤ acc.keywordScore) :
    0 ≤ (table.foldl (keywordStep domain url) acc).keywordScore := by
  induction table generalizing acc with
  | nil => simpa using hacc
  | cons k rest ih =>
    rw [List.foldl_cons]
    apply ih
    · intro k2 hk2; exact htable k2 (List.mem_cons_of_mem _ hk2)
    · exact keywordStep_nonneg domain url acc k (htable k (List.mem_cons_self _ _)) hacc

theorem phishingKeywords_weight_nonneg : ∀ k ∈ phishingKeywords, 0 ≤ k.weight := by
  intro k hk
  simp only [phishingKeywords, List.mem_cons, List.mem_singleton, List.not_mem_nil,
    or_false] at hk
  rcases hk with h | h | h | h | h | h | h <;> subst h <;> decide

theorem checkPhishingKeywords_keywordScore_nonneg (domain url : String) :
    0 ≤ (checkPhishingKeywords domain url).keywordScore := by
  unfold checkPhishingKeywords
  exact foldl_keywordStep_nonneg domain url _ phishingKeywords_weight_nonneg _ (le_refl _)

theorem checkHomographAttacks_score_of_not_detected (domain : String)
    (h : (checkHomographAttacks domain).detected = false) :
    (checkHomographAttacks domain).score = 0 := by
  unfold checkHomographAttacks at h ⊢
  cases hm : matchGlobalUnits true suspiciousChars domain with
  | none => rfl
  | some ms => rw [hm] at h; simp at h

theorem analyzeDomainStructure_structureScore_nonneg (domain : String) :
    0 ≤ (analyzeDomainStructure domain).structureScore := by
  unfold analyzeDomainStructure
  simp only
  split_ifs <;> simp

theorem checkSSLCertificate_score (parseURL : URLParser) (url : String)
    (h : (checkSSLCertificate parseURL url).hasSSL = false) :
    (checkSSLCertificate parseURL url).score = 25 := by
  unfold checkSSLCertificate at h ⊢
  cases hp : parseURL url with
  | none => rfl
  | some u =>
    rw [hp] at h
    simp only at h ⊢
    simp [h]

theorem checkURLRedirects_score (parseURL : URLParser) (url : String)
    (h : (checkURLRedirects parseURL url).hasSuspiciousRedirects = true) :
    (checkURLRedirects parseURL url).score = 20 := by
  unfold checkURLRedirects at h ⊢
  simp only at h ⊢
  split_ifs at h ⊢ with hc
  rfl

/-! ## The risk sum -/

theorem accumulate_riskScore (c : Checks)
    (hp : 0 ≤ c.patterns.totalWeight) (hk : 0 ≤ c.keywords.keywordScore)
    (hh : c.homograph.detected = false → c.homograph.score = 0)
    (hs : 0 ≤ c.structure_.structureScore)
    (hssl : c.ssl.hasSSL = false → c.ssl.score = 25)
    (hr : c.redirects.hasSuspiciousRedirects = true → c.redirects.score = 20) :
    (accumulate c).riskScore = specRiskSum c := by
  have e1 : ∀ a, (stepReputation c a).riskScore = a.riskScore +
      (match c.reputation.status with
        | RepStatus.phishing => 70
        | RepStatus.legitimate => -40
        | RepStatus.unknown => 0) := by
    intro a
    unfold stepReputation
    cases hst : c.reputation.status <;> simp
    ring
  have e2 : ∀ a, (stepSSL c a).riskScore = a.riskScore +
      (if c.ssl.hasSSL = false then 25 else 0) := by
    intro a
    unfold stepSSL
    by_cases h : c.ssl.hasSSL = false
    · simp [h, hssl h]
    · simp [h]
  have e3 : ∀ a, (stepAge c a).riskScore = a.riskScore +
      (match c.domainAge.category with
        | AgeCategory.very_new => 35
        | AgeCategory.new => 20
        | AgeCategory.established => -10
        | AgeCategory.recent => 0) := by
    intro a
    unfold stepAge
    cases hst : c.domainAge.category <;> simp
    ring
  have e4 : ∀ a, (stepPatterns c a).riskScore = a.riskScore +
      ((min c.patterns.totalWeight 50 : Int) : ℚ) := by
    intro a
    unfold stepPatterns
    by_cases h : c.patterns.totalWeight > 0
    · simp [h]
    · have h0 : c.patterns.totalWeight = 0 := le_antisymm (not_lt.mp h) hp
      simp [h0]
  have e5 : ∀ a, (stepKeywords c a).riskScore = a.riskScore +
      min c.keywords.keywordScore 40 := by
    intro a
    unfold stepKeywords
    by_cases h : c.keywords.keywordScore > 0
    · simp [h]
    · have h0 : c.keywords.keywordScore = 0 := le_antisymm (not_lt.mp h) hk
      simp [h0]
  have e6 : ∀ a, (stepHomograph c a).riskScore = a.riskScore + (c.homograph.score : ℚ) := by
    intro a
    unfold stepHomograph
    by_cases h : c.homograph.detected = true
    · simp [h]
    · have hf : c.homograph.detected = false := by simpa using h
      simp [hf, hh hf]
  have e7 : ∀ a, (stepStructure c a).riskScore =
      a.riskScore + (c.structure_.structureScore : ℚ) := by
    intro a
    unfold stepStructure
    by_cases h : c.structure_.structureScore > 0
    · simp [h]
    · have h0 : c.structure_.structureScore = 0 := le_antisymm (not_lt.mp h) hs
      simp [h0]
  have e8 : ∀ a, (stepRedirects c a).riskScore = a.riskScore +
      (if c.redirects.hasSuspiciousRedirects = true then 20 else 0) := by
    intro a
    unfold stepRedirects
    by_cases h : c.redirects.hasSuspiciousRedirects = true
    · simp [h, hr h]
    · simp [h]
  unfold accumulate specRiskSum
  rw [e8, e7, e6, e5, e4, e3, e2, e1]
  ring

theorem clampedRisk_eq_spec (parseURL : URLParser) (d : Detector) (url domain : String)
    (clock : Clock) (rnd : RandomDraws) :
    clampedRisk (performAdvancedAnalysis parseURL d url domain clock rnd).1 =
      max 0 (min 100
        (specRiskSum (performAdvancedAnalysis parseURL d url domain clock rnd).1.checks)) := by
  unfold clampedRisk clampRisk
  rw [accumulate_riskScore]
  · exact checkSuspiciousPatterns_totalWeight_nonneg url
  · exact checkPhishingKeywords_keywordScore_nonneg domain url
  · exact checkHomographAttacks_score_of_not_detected domain
  · exact analyzeDomainStructure_structureScore_nonneg domain
  · exact checkSSLCertificate_score parseURL url
  · exact checkURLRedirects_score parseURL url

/-! ## Pattern registry -/

/-- C10: `checkSuspiciousPatterns` runs through the whole table: `matchedPatterns` is
the list of the entries whose pattern matches, in table order, `totalWeight` is the
sum of their weights without a cap (105 for a URL matching three entries), and
`calculateFinalScore` adds `min(totalWeight, 50)` of it to the risk. -/
theorem checkSuspiciousPatterns_exhaustive (url : String) (c : Checks) (a : Acc) :
    (checkSuspiciousPatterns url).matchedPatterns =
      (suspiciousPatterns.filter (fun p => p.pattern.test url)).map
        (fun p => { description := p.description, weight := p.weight }) ∧
    (checkSuspiciousPatterns url).totalWeight =
      ((suspiciousPatterns.filter (fun p => p.pattern.test url)).map (fun p => p.weight)).sum ∧
    (stepPatterns { c with patterns := checkSuspiciousPatterns url } a).riskScore =
      a.riskScore + ((min (checkSuspiciousPatterns url).totalWeight 50 : Int) : ℚ) ∧
    (checkSuspiciousPatterns "http://192.168.1.1/secure-update/verify-account").totalWeight
      = 105 ∧
    (checkSuspiciousPatterns
      "http://192.168.1.1/secure-update/verify-account").matchedPatterns.length = 3 ∧
    min (checkSuspiciousPatterns
      "http://192.168.1.1/secure-update/verify-account").totalWeight 50 = 50 := by
  have hfold := foldl_patternStep url suspiciousPatterns { totalWeight := 0, matchedPatterns := [] }
  have hnn := checkSuspiciousPatterns_totalWeight_nonneg url
  refine ⟨?_, ?_, ?_, by decide, by decide, by decide⟩
  · unfold checkSuspiciousPatterns checkPatternsIn
    rw [hfold]; simp
  · unfold checkSuspiciousPatterns checkPatternsIn
    rw [hfold]; simp
  · unfold stepPatterns
    by_cases h : (checkSuspiciousPatterns url).totalWeight > 0
    · simp [h]
    · have h0 : (checkSuspiciousPatterns url).totalWeight = 0 := le_antisymm (not_lt.mp h) hnn
      simp [h0]

/-! ## Homograph detector -/

theorem suspiciousChars_unit (c : Char) :
    matchK true suspiciousChars false [c] (fun _ r => r.isEmpty) = isSuspiciousUnit c := by
  simp [suspiciousChars, matchK, isSuspiciousUnit, Bool.or_assoc]

theorem matchGlobalUnits_suspiciousChars (domain : String) :
    matchGlobalUnits true suspiciousChars domain =
      if (domain.toList.filter isSuspiciousUnit).isEmpty then none
      else some (domain.toList.filter isSuspiciousUnit) := by
  unfold matchGlobalUnits
  have : (fun c => matchK true suspiciousChars false [c] (fun _ r => r.isEmpty)) =
      isSuspiciousUnit := funext suspiciousChars_unit
  rw [this]

/-- C9, counterexample: a domain in which the same Cyrillic letter occurs twice scores
30, while it has one distinct suspicious character. -/
theorem checkHomographAttacks_counts_repeats :
    (checkHomographAttacks "аа.com").score = 30 ∧
    specDistinctSuspicious "аа.com" = 1 ∧
    (checkHomographAttacks "аа.com").score ≠
      15 * (specDistinctSuspicious "аа.com" : Int) := by
  decide

/-- C9, amended: the score is 15 times the number of occurrences of Cyrillic, Greek or
accented Latin characters in the domain, `detected` holds iff there is at least one,
and `characters` lists the distinct ones. -/
theorem checkHomographAttacks_score_occurrences (domain : String) :
    (checkHomographAttacks domain).score = 15 * (suspiciousOccurrences domain : Int) ∧
    ((checkHomographAttacks domain).detected = true ↔ 0 < suspiciousOccurrences domain) ∧
    (checkHomographAttacks domain).characters.length = specDistinctSuspicious domain := by
  unfold checkHomographAttacks suspiciousOccurrences specDistinctSuspicious
  rw [matchGlobalUnits_suspiciousChars]
  cases hl : domain.toList.filter isSuspiciousUnit with
  | nil => exact ⟨by simp, by simp, rfl⟩
  | cons x xs => simp [mul_comm]

/-! ## Reputation resolver -/

theorem resolveReputation_cases (d : Detector) (domain : String) (randomScore : ℚ) :
    (domain ∈ d.phishingDomains → resolveReputation d domain randomScore =
      { status := RepStatus.phishing, confidence := 0.95, source := "blacklist" }) ∧
    (domain ∉ d.phishingDomains → domain ∈ d.legitimateDomains →
      resolveReputation d domain randomScore =
        { status := RepStatus.legitimate, confidence := 0.98, source := "whitelist" }) ∧
    (domain ∉ d.phishingDomains → domain ∉ d.legitimateDomains →
      legitimatePatterns.any (fun pattern => pattern.test domain) = true →
      resolveReputation d domain randomScore =
        { status := RepStatus.legitimate, confidence := 0.90, source := "pattern" }) ∧
    (domain ∉ d.phishingDomains → domain ∉ d.legitimateDomains →
      legitimatePatterns.any (fun pattern => pattern.test domain) = false →
      (resolveReputation d domain randomScore =
          { status := RepStatus.legitimate, confidence := 0.85, source := "api" } ∨
        resolveReputation d domain randomScore =
          { status := RepStatus.phishing, confidence := 0.75, source := "api" } ∨
        resolveReputation d domain randomScore =
          { status := RepStatus.unknown, confidence := 0.5, source := "api" })) := by
  refine ⟨?_, ?_, ?_, ?_⟩
  · intro h; simp [resolveReputation, h]
  · intro h1 h2; simp [resolveReputation, h1, h2]
  · intro h1 h2 h3
    unfold resolveReputation
    rw [if_neg h1, if_neg h2, if_pos h3]
  · intro h1 h2 h3
    unfold resolveReputation
    rw [if_neg h1, if_neg h2, if_neg (by simp [h3])]
    split_ifs
    · exact Or.inl rfl
    · exact Or.inr (Or.inl rfl)
    · exact Or.inr (Or.inr rfl)

theorem resolveReputation_confidence (d : Detector) (domain : String) (randomScore : ℚ) :
    0 ≤ (resolveReputation d domain randomScore).confidence ∧
    (resolveReputation d domain randomScore).confidence ≤ 1 := by
  unfold resolveReputation
  split_ifs <;> norm_num

theorem checkDomainReputation_of_miss (d : Detector) (domain : String) (tCheck tStore : Int)
    (randomScore : ℚ) (hmiss : validCachedReputation d domain tCheck = none) :
    checkDomainReputation d domain tCheck tStore randomScore =
      (resolveReputation d domain randomScore,
        { d with domainCache := mapSet d.domainCache domain
                   { data := resolveReputation d domain randomScore, timestamp := tStore } }) := by
  unfold checkDomainReputation
  rw [hmiss]

theorem checkDomainReputation_of_hit (d : Detector) (domain : String) (tCheck tStore : Int)
    (randomScore : ℚ) (r : Reputation) (hhit : validCachedReputation d domain tCheck = some r) :
    checkDomainReputation d domain tCheck tStore randomScore = (r, d) := by
  unfold checkDomainReputation
  rw [hhit]

/-- C4, counterexample: a blacklisted domain whose reputation cache entry, ten minutes
old, says `legitimate` is reported `legitimate`. -/
theorem checkDomainReputation_stale_cache_wins :
    "new-phishing-site.com" ∈ staleDetector.phishingDomains ∧
    (checkDomainReputation staleDetector "new-phishing-site.com" 600000 600150 0.5).1.status =
      RepStatus.legitimate := by
  refine ⟨by decide, ?_⟩
  rw [checkDomainReputation_of_hit staleDetector "new-phishing-site.com" 600000 600150 0.5
    { status := RepStatus.legitimate, confidence := 0.85, source := "api" } rfl]

/-- C4, amended: for a blacklisted domain with no reputation cache entry younger than
one hour, `checkDomainReputation` returns the blacklist entry with status `phishing`,
whatever the whitelist and the allow-patterns say; a younger cache entry is returned
as it is. -/
theorem checkDomainReputation_blacklisted (d : Detector) (domain : String)
    (tCheck tStore : Int) (randomScore : ℚ) (hmem : domain ∈ d.phishingDomains) :
    (validCachedReputation d domain tCheck = none →
      (checkDomainReputation d domain tCheck tStore randomScore).1 =
        { status := RepStatus.phishing, confidence := 0.95, source := "blacklist" }) ∧
    (∀ r, validCachedReputation d domain tCheck = some r →
      (checkDomainReputation d domain tCheck tStore randomScore).1 = r) := by
  constructor
  · intro hmiss
    rw [checkDomainReputation_of_miss d domain tCheck tStore randomScore hmiss]
    exact (resolveReputation_cases d domain randomScore).1 hmem
  · intro r hhit
    rw [checkDomainReputation_of_hit d domain tCheck tStore randomScore r hhit]

theorem checkDomainReputation_blacklisted_witness :
    "www.google.com" ∈ conflictedDetector.phishingDomains ∧
    "www.google.com" ∈ conflictedDetector.legitimateDomains ∧
    legitimatePatterns.any (fun pattern => pattern.test "www.google.com") = true ∧
    validCachedReputation conflictedDetector "www.google.com" 0 = none ∧
    (checkDomainReputation conflictedDetector "www.google.com" 0 150 0.5).1 =
      { status := RepStatus.phishing, confidence := 0.95, source := "blacklist" } :=
  ⟨by decide, by decide, by decide, by decide,
    (checkDomainReputation_blacklisted conflictedDetector "www.google.com" 0 150 0.5
      (by decide)).1 (by decide)⟩

/-- C5: a fresh resolution (no valid cache entry) takes the first rule that applies:
blacklist, then whitelist, then allow-pattern, then the external source, whose answer
is one of three fixed entries; the confidence always lies in `[0, 1]`. -/
theorem checkDomainReputation_resolution_order (d : Detector) (domain : String)
    (tCheck tStore : Int) (randomScore : ℚ)
    (hmiss : validCachedReputation d domain tCheck = none) :
    (domain ∈ d.phishingDomains →
      (checkDomainReputation d domain tCheck tStore randomScore).1 =
        { status := RepStatus.phishing, confidence := 0.95, source := "blacklist" }) ∧
    (domain ∉ d.phishingDomains → domain ∈ d.legitimateDomains →
      (checkDomainReputation d domain tCheck tStore randomScore).1 =
        { status := RepStatus.legitimate, confidence := 0.98, source := "whitelist" }) ∧
    (domain ∉ d.phishingDomains → domain ∉ d.legitimateDomains →
      legitimatePatterns.any (fun pattern => pattern.test domain) = true →
      (checkDomainReputation d domain tCheck tStore randomScore).1 =
        { status := RepStatus.legitimate, confidence := 0.90, source := "pattern" }) ∧
    (domain ∉ d.phishingDomains → domain ∉ d.legitimateDomains →
      legitimatePatterns.any (fun pattern => pattern.test domain) = false →
      ((checkDomainReputation d domain tCheck tStore randomScore).1 =
          { status := RepStatus.legitimate, confidence := 0.85, source := "api" } ∨
        (checkDomainReputation d domain tCheck tStore randomScore).1 =
          { status := RepStatus.phishing, confidence := 0.75, source := "api" } ∨
        (checkDomainReputation d domain tCheck tStore randomScore).1 =
          { status := RepStatus.unknown, confidence := 0.5, source := "api" })) ∧
    0 ≤ (checkDomainReputation d domain tCheck tStore randomScore).1.confidence ∧
    (checkDomainReputation d domain tCheck tStore randomScore).1.confidence ≤ 1 := by
  rw [checkDomainReputation_of_miss d domain tCheck tStore randomScore hmiss]
  obtain ⟨h1, h2, h3, h4⟩ := resolveReputation_cases d domain randomScore
  obtain ⟨c0, c1⟩ := resolveReputation_confidence d domain randomScore
  exact ⟨h1, h2, h3, h4, c0, c1⟩

theorem checkDomainReputation_resolution_order_witness :
    validCachedReputation initialWorld.detector "www.wikipedia.org" 0 = none ∧
    "www.wikipedia.org" ∉ initialWorld.detector.phishingDomains ∧
    "www.wikipedia.org" ∉ initialWorld.detector.legitimateDomains ∧
    legitimatePatterns.any (fun pattern => pattern.test "www.wikipedia.org") = true ∧
    (checkDomainReputation initialWorld.detector "www.wikipedia.org" 0 150 0.5).1 =
      { status := RepStatus.legitimate, confidence := 0.90, source := "pattern" } :=
  ⟨by decide, by decide, by decide, by decide,
    (checkDomainReputation_resolution_order initialWorld.detector "www.wikipedia.org" 0 150 0.5
      (by decide)).2.2.1 (by decide) (by decide) (by decide)⟩

/-! ## Maps and sets -/

theorem mapHas_cons {α : Type} (e : String × α) (m : List (String × α)) (key : String) :
    mapHas (e :: m) key = (e.1 == key || mapHas m key) := by
  simp [mapHas]

theorem mapGet_of_not_has {α : Type} (m : List (String × α)) (key : String)
    (h : mapHas m key = false) : mapGet m key = none := by
  induction m with
  | nil => rfl
  | cons e rest ih =>
    rw [mapHas_cons, Bool.or_eq_false_iff] at h
    simp only [mapGet, List.find?_cons, h.1]
    exact ih h.2

theorem find_map_replace {α : Type} (key : String) (value : α) (m : List (String × α))
    (h : mapHas m key = true) :
    (m.map (fun e => if e.1 == key then (key, value) else e)).find? (fun e => e.1 == key) =
      some (key, value) := by
  induction m with
  | nil => simp [mapHas] at h
  | cons e rest ih =>
    rw [List.map_cons]
    by_cases he : (e.1 == key) = true
    · rw [if_pos he, List.find?_cons_of_pos]
      simp
    · have he2 : (e.1 == key) = false := by simpa using he
      rw [if_neg he]
      simp only [List.find?_cons, he2]
      apply ih
      rw [mapHas_cons, he2, Bool.false_or] at h
      exact h

theorem find_append_new {α : Type} (key : String) (value : α) (m : List (String × α))
    (h : mapHas m key = false) :
    (m ++ [(key, value)]).find? (fun e => e.1 == key) = some (key, value) := by
  induction m with
  | nil => simp
  | cons e rest ih =>
    rw [mapHas_cons, Bool.or_eq_false_iff] at h
    rw [List.cons_append]
    simp only [List.find?_cons, h.1]
    exact ih h.2

theorem find_mapSet_self {α : Type} (m : List (String × α)) (key : String) (value : α) :
    (mapSet m key value).find? (fun e => e.1 == key) = some (key, value) := by
  unfold mapSet
  by_cases h : mapHas m key = true
  · rw [if_pos h]
    exact find_map_replace key value m h
  · rw [if_neg h]
    exact find_append_new key value m (by simpa using h)

theorem mapGet_mapSet_self {α : Type} (m : List (String × α)) (key : String) (value : α) :
    mapGet (mapSet m key value) key = some value := by
  unfold mapGet
  rw [find_mapSet_self]
  rfl

theorem mapHas_mapSet_self {α : Type} (m : List (String × α)) (key : String) (value : α) :
    mapHas (mapSet m key value) key = true := by
  unfold mapHas
  rw [List.any_eq_true]
  have h := find_mapSet_self m key value
  exact ⟨(key, value), List.mem_of_find?_eq_some h, by simp⟩

theorem mem_foldl_setAdd_of_mem_init (xs init : List String) (x : String) (h : x ∈ init) :
    x ∈ xs.foldl setAdd init := by
  induction xs generalizing init with
  | nil => simpa using h
  | cons y rest ih =>
    rw [List.foldl_cons]
    apply ih
    unfold setAdd
    split_ifs
    · exact h
    · exact List.mem_append_left _ h

theorem mem_foldl_setAdd_of_mem (xs init : List String) (x : String) (h : x ∈ xs) :
    x ∈ xs.foldl setAdd init := by
  induction xs generalizing init with
  | nil => simp at h
  | cons y rest ih =>
    rw [List.foldl_cons]
    rcases List.mem_cons.mp h with rfl | hr
    · apply mem_foldl_setAdd_of_mem_init
      unfold setAdd
      split_ifs with hx
      · exact hx
      · simp
    · exact ih _ hr

theorem toLowerCase_eq_empty (s : String) : toLowerCase s = "" ↔ s = "" := by
  unfold toLowerCase
  constructor
  · intro h
    have h2 : (List.map Char.toLower s.toList) = [] := by
      have := congrArg String.toList h
      simpa using this
    have h3 : s.toList = [] := List.map_eq_nil_iff.mp h2
    exact String.ext (by simpa using h3)
  · intro h
    subst h
    rfl

/-! ## The analysis cache -/

theorem analyzeURL_of_unparsed (parseURL : URLParser) (w : World) (clock : Clock)
    (rnd : RandomDraws) (url : String) (h : extractDomain parseURL url = none) :
    analyzeURL parseURL w clock rnd url = (AnalyzeOutcome.error "Invalid URL", w) := by
  unfold analyzeURL
  rw [h]

theorem analyzeURL_of_empty (parseURL : URLParser) (w : World) (clock : Clock)
    (rnd : RandomDraws) (url : String) (h : extractDomain parseURL url = some "") :
    analyzeURL parseURL w clock rnd url = (AnalyzeOutcome.error "Invalid URL", w) := by
  unfold analyzeURL
  rw [h]
  simp

theorem analyzeURL_of_hit (parseURL : URLParser) (w : World) (clock : Clock)
    (rnd : RandomDraws) (url domain : String) (data : AnalysisResult)
    (hdom : extractDomain parseURL url = some domain) (hne : domain ≠ "")
    (hhit : validCachedAnalysis w.detector (domain ++ ":" ++ url) clock.analysisCheck =
      some data) :
    analyzeURL parseURL w clock rnd url = (AnalyzeOutcome.verdict data, w) := by
  unfold analyzeURL
  rw [hdom]
  simp only [hne, if_false]
  rw [hhit]

theorem analyzeURL_of_miss (parseURL : URLParser) (w : World) (clock : Clock)
    (rnd : RandomDraws) (url domain : String)
    (hdom : extractDomain parseURL url = some domain) (hne : domain ≠ "")
    (hmiss : validCachedAnalysis w.detector (domain ++ ":" ++ url) clock.analysisCheck = none) :
    analyzeURL parseURL w clock rnd url =
      (AnalyzeOutcome.verdict
          (calculateFinalScore (performAdvancedAnalysis parseURL w.detector url domain clock rnd).1
            clock.scored),
        { detector :=
            { (performAdvancedAnalysis parseURL w.detector url domain clock rnd).2 with
              analysisCache := mapSet
                (performAdvancedAnalysis parseURL w.detector url domain clock rnd).2.analysisCache
                (domain ++ ":" ++ url)
                { data := calculateFinalScore
                    (performAdvancedAnalysis parseURL w.detector url domain clock rnd).1
                    clock.scored
                  timestamp := clock.analysisStore } }
          storage := updateStatistics w.storage
            (calculateFinalScore (performAdvancedAnalysis parseURL w.detector url domain clock rnd).1
              clock.scored) clock.statsDefault clock.statsUpdate }) := by
  unfold analyzeURL
  rw [hdom]
  simp only [hne, if_false]
  rw [hmiss]

theorem validCachedAnalysis_after_set (d : Detector) (cache : List (String × CacheEntry AnalysisResult))
    (key : String) (data : AnalysisResult) (stored now : Int) :
    validCachedAnalysis { d with analysisCache := mapSet cache key { data := data, timestamp := stored } }
        key now =
      if now - stored < 10 * 60 * 1000 then some data else none := by
  unfold validCachedAnalysis
  simp only [mapHas_mapSet_self, if_true, mapGet_mapSet_self]

theorem analyzeURL_detector_only (parseURL : URLParser) (w1 w2 : World) (clock : Clock)
    (rnd : RandomDraws) (url : String) (h : w1.detector = w2.detector) :
    (analyzeURL parseURL w1 clock rnd url).1 = (analyzeURL parseURL w2 clock rnd url).1 ∧
    (analyzeURL parseURL w1 clock rnd url).2.detector =
      (analyzeURL parseURL w2 clock rnd url).2.detector := by
  cases hd : extractDomain parseURL url with
  | none =>
    rw [analyzeURL_of_unparsed parseURL w1 clock rnd url hd,
      analyzeURL_of_unparsed parseURL w2 clock rnd url hd]
    exact ⟨rfl, h⟩
  | some domain =>
    by_cases hne : domain = ""
    · subst hne
      rw [analyzeURL_of_empty parseURL w1 clock rnd url hd,
        analyzeURL_of_empty parseURL w2 clock rnd url hd]
      exact ⟨rfl, h⟩
    · cases hc : validCachedAnalysis w1.detector (domain ++ ":" ++ url) clock.analysisCheck with
      | some data =>
        rw [analyzeURL_of_hit parseURL w1 clock rnd url domain data hd hne hc,
          analyzeURL_of_hit parseURL w2 clock rnd url domain data hd hne (h ▸ hc)]
        exact ⟨rfl, h⟩
      | none =>
        rw [analyzeURL_of_miss parseURL w1 clock rnd url domain hd hne hc,
          analyzeURL_of_miss parseURL w2 clock rnd url domain hd hne (h ▸ hc)]
        refine ⟨?_, ?_⟩ <;> simp only [h]

/-! ## User actions -/

/-- C6, counterexample: with `legitimate` entries for `example.com` in both caches,
blocking the domain and analysing one of its URLs a minute later returns the cached
`legitimate` verdict; the reputation cache entry is still there after `blockSite` and
after `addToWhitelist`, and the detector's blacklist does not hold the domain. -/
theorem blockSite_keeps_cached_verdict :
    (analyzeURL exampleParser (blockSite cachedWorld "example.com") (clockAt 60000) midDraws
      "https://example.com/").1 = AnalyzeOutcome.verdict cachedVerdict ∧
    cachedVerdict.status = Status.legitimate ∧
    mapHas (blockSite cachedWorld "example.com").detector.domainCache "example.com" = true ∧
    mapHas (addToWhitelist cachedWorld "example.com").detector.domainCache "example.com" = true ∧
    "example.com" ∉ (blockSite cachedWorld "example.com").detector.phishingDomains := by
  refine ⟨?_, rfl, by decide, by decide, by decide⟩
  rw [analyzeURL_of_hit exampleParser (blockSite cachedWorld "example.com") (clockAt 60000)
    midDraws "https://example.com/" "example.com" cachedVerdict rfl (by decide) rfl]

/-- C6, amended: `blockSite` and `addToWhitelist` only put the domain on the stored
custom list; the detector (its blacklist, whitelist and both caches) is unchanged, so
an `analyzeURL` that follows resolves to the same outcome and leaves the same detector
as without the action; the stored list reaches the detector's set when
`initializeDatabase` next runs. -/
theorem blockSite_changes_storage_only (parseURL : URLParser) (w : World) (domain : String)
    (clock : Clock) (rnd : RandomDraws) (url : String) :
    (blockSite w domain).detector = w.detector ∧
    (addToWhitelist w domain).detector = w.detector ∧
    domain ∈ (blockSite w domain).storage.customBlacklist.getD [] ∧
    domain ∈ (addToWhitelist w domain).storage.customWhitelist.getD [] ∧
    (analyzeURL parseURL (blockSite w domain) clock rnd url).1 =
      (analyzeURL parseURL w clock rnd url).1 ∧
    (analyzeURL parseURL (blockSite w domain) clock rnd url).2.detector =
      (analyzeURL parseURL w clock rnd url).2.detector ∧
    domain ∈ (initializeDatabase (blockSite w domain).storage).phishingDomains ∧
    domain ∈ (initializeDatabase (addToWhitelist w domain).storage).legitimateDomains := by
  have hb : (blockSite w domain).detector = w.detector := by
    unfold blockSite
    simp only
    split_ifs <;> rfl
  have ha : (addToWhitelist w domain).detector = w.detector := by
    unfold addToWhitelist
    simp only
    split_ifs <;> rfl
  have hbs : domain ∈ (blockSite w domain).storage.customBlacklist.getD [] := by
    unfold blockSite
    simp only
    split_ifs with h
    · exact h
    · simp
  have has : domain ∈ (addToWhitelist w domain).storage.customWhitelist.getD [] := by
    unfold addToWhitelist
    simp only
    split_ifs with h
    · exact h
    · simp
  obtain ⟨h1, h2⟩ := analyzeURL_detector_only parseURL (blockSite w domain) w clock rnd url hb
  refine ⟨hb, ha, hbs, has, h1, h2, ?_, ?_⟩
  · exact mem_foldl_setAdd_of_mem _ _ _ hbs
  · exact mem_foldl_setAdd_of_mem _ _ _ has

/-! ## Analysis cache -/

/-! ## Invalid URLs -/

/-- C8, counterexample: `about:blank` parses (its hostname is empty), yet `analyzeURL`
resolves to the `Invalid URL` error. -/
theorem analyzeURL_error_on_parsed_url :
    exampleParser "about:blank" = some { protocol := "about:", hostname := "" } ∧
    (analyzeURL exampleParser initialWorld (clockAt 0) midDraws "about:blank").1 =
      AnalyzeOutcome.error "Invalid URL" := by
  refine ⟨rfl, ?_⟩
  rw [analyzeURL_of_empty exampleParser initialWorld (clockAt 0) midDraws "about:blank" rfl]

/-- C8, amended: `analyzeURL` resolves to the `Invalid URL` error exactly when the URL
fails to parse or parses with an empty hostname; the state is then unchanged; every URL
that parses with a non-empty hostname gets a verdict. -/
theorem analyzeURL_invalid_iff (parseURL : URLParser) (w : World) (clock : Clock)
    (rnd : RandomDraws) (url : String) :
    ((analyzeURL parseURL w clock rnd url).1 = AnalyzeOutcome.error "Invalid URL" ↔
      (parseURL url = none ∨ ∃ u, parseURL url = some u ∧ u.hostname = "")) ∧
    ((analyzeURL parseURL w clock rnd url).1 = AnalyzeOutcome.error "Invalid URL" →
      (analyzeURL parseURL w clock rnd url).2 = w) ∧
    (∀ u, parseURL url = some u → u.hostname ≠ "" →
      ∃ r, (analyzeURL parseURL w clock rnd url).1 = AnalyzeOutcome.verdict r) := by
  cases hp : parseURL url with
  | none =>
    have hd : extractDomain parseURL url = none := by
      unfold extractDomain; rw [hp]
    rw [analyzeURL_of_unparsed parseURL w clock rnd url hd]
    refine ⟨⟨fun _ => Or.inl rfl, fun _ => rfl⟩, fun _ => rfl, ?_⟩
    intro u hu; cases hu
  | some u =>
    have hd : extractDomain parseURL url = some (toLowerCase u.hostname) := by
      unfold extractDomain; rw [hp]
    by_cases hh : u.hostname = ""
    · have hd2 : extractDomain parseURL url = some "" := by
        rw [hd, (toLowerCase_eq_empty u.hostname).mpr hh]
      rw [analyzeURL_of_empty parseURL w clock rnd url hd2]
      refine ⟨⟨fun _ => Or.inr ⟨u, rfl, hh⟩, fun _ => rfl⟩, fun _ => rfl, ?_⟩
      intro u2 hu2 hne
      cases hu2
      exact absurd hh hne
    · have hne : toLowerCase u.hostname ≠ "" := fun h =>
        hh ((toLowerCase_eq_empty u.hostname).mp h)
      have hverdict : ∃ r, (analyzeURL parseURL w clock rnd url).1 = AnalyzeOutcome.verdict r := by
        cases hc : validCachedAnalysis w.detector (toLowerCase u.hostname ++ ":" ++ url)
            clock.analysisCheck with
        | some data =>
          rw [analyzeURL_of_hit parseURL w clock rnd url _ data hd hne hc]
          exact ⟨data, rfl⟩
        | none =>
          rw [analyzeURL_of_miss parseURL w clock rnd url _ hd hne hc]
          exact ⟨_, rfl⟩
      obtain ⟨r, hr⟩ := hverdict
      refine ⟨⟨?_, ?_⟩, ?_, ?_⟩
      · intro he; rw [hr] at he; cases he
      · rintro (h | ⟨u2, hu2, hempty⟩)
        · cases h
        · cases hu2; exact absurd hempty hh
      · intro he; rw [hr] at he; cases he
      · intro _ _ _; exact ⟨r, hr⟩

/-! ## Reasons -/

theorem accumulate_reasons (c : Checks) : (accumulate c).reasons = collectedReasons c := by
  have e1 : ∀ a, (stepReputation c a).reasons = a.reasons ++ reputationReasons c := by
    intro a
    unfold stepReputation reputationReasons
    cases hst : c.reputation.status <;> simp
  have e2 : ∀ a, (stepSSL c a).reasons = a.reasons ++ sslReasons c := by
    intro a
    unfold stepSSL sslReasons
    split_ifs <;> simp
  have e3 : ∀ a, (stepAge c a).reasons = a.reasons ++ ageReasons c := by
    intro a
    unfold stepAge ageReasons
    cases hst : c.domainAge.category <;> simp
  have e4 : ∀ a, (stepPatterns c a).reasons = a.reasons ++ patternReasons c := by
    intro a
    unfold stepPatterns patternReasons
    split_ifs <;> simp
  have e5 : ∀ a, (stepKeywords c a).reasons = a.reasons ++ keywordReasons c := by
    intro a
    unfold stepKeywords keywordReasons
    split_ifs <;> simp
  have e6 : ∀ a, (stepHomograph c a).reasons = a.reasons ++ homographReasons c := by
    intro a
    unfold stepHomograph homographReasons
    split_ifs <;> simp
  have e7 : ∀ a, (stepStructure c a).reasons = a.reasons ++ structureReasons c := by
    intro a
    unfold stepStructure structureReasons
    split_ifs <;> simp
  have e8 : ∀ a, (stepRedirects c a).reasons = a.reasons ++ redirectReasons c := by
    intro a
    unfold stepRedirects redirectReasons
    split_ifs <;> simp
  unfold accumulate collectedReasons
  rw [e8, e7, e6, e5, e4, e3, e2, e1]
  simp [List.append_assoc]

/-- C16: the returned `reasons` are the first `min(8, n)` of the `n` reasons collected
in the order reputation, TLS, age, patterns, keywords, homograph, structure,
redirects; never more than 8, and always a beginning of the collected sequence. -/
theorem calculateFinalScore_reasons_truncated (analysis : Analysis) (now : Int) :
    (calculateFinalScore analysis now).reasons = (collectedReasons analysis.checks).take 8 ∧
    (calculateFinalScore analysis now).reasons.length =
      min 8 (collectedReasons analysis.checks).length ∧
    (calculateFinalScore analysis now).reasons.length ≤ 8 ∧
    (calculateFinalScore analysis now).reasons <+: collectedReasons analysis.checks := by
  have h : (calculateFinalScore analysis now).reasons =
      (collectedReasons analysis.checks).take 8 := by
    show (accumulate analysis.checks).reasons.take 8 = _
    rw [accumulate_reasons]
  rw [h]
  refine ⟨rfl, ?_, ?_, ?_⟩
  · rw [List.length_take]
  · rw [List.length_take]; exact min_le_left _ _
  · exact List.take_prefix _ _

/-! ## Keyword and context extractor -/

theorem includesList_iff_infix (needle hay : List Char) :
    includesList needle hay = true ↔ needle <:+: hay := by
  induction hay with
  | nil =>
    simp [includesList, List.isEmpty_iff]
  | cons c rest ih =>
    rw [includesList, Bool.or_eq_true, ih, List.isPrefixOf_iff_prefix, List.infix_cons_iff]

theorem includes_iff_infix (hay needle : String) :
    includes hay needle = true ↔ needle.toList <:+: hay.toList :=
  includesList_iff_infix needle.toList hay.toList

theorem foldl_context_count (domain url : String) (context : List String) (n : Nat) :
    context.foldl (fun n ctx => if includes domain ctx || includes url ctx then n + 1 else n) n =
      n + (context.filter (fun ctx => occursIn ctx domain url)).length := by
  induction context generalizing n with
  | nil => simp
  | cons ctx rest ih =>
    rw [List.foldl_cons, ih]
    by_cases h : (includes domain ctx || includes url ctx) = true
    · simp [List.filter_cons, occursIn, h]; omega
    · simp [List.filter_cons, occursIn, h]

theorem contextMatches_eq_contextHits (domain url : String) (k : PhishingKeyword) :
    contextMatches domain url k.context = contextHits domain url k := by
  unfold contextMatches contextHits
  rw [foldl_context_count, Nat.zero_add]

theorem keywordStep_eq (domain url : String) (acc : KeywordCheck) (k : PhishingKeyword) :
    keywordStep domain url acc k =
      if contributes domain url k then
        { keywordScore := acc.keywordScore + specKeywordContribution domain url k
          matchedKeywords := acc.matchedKeywords ++
            [{ word := k.word, context := contextHits domain url k
               score := (k.weight : ℚ) * (1 + (contextHits domain url k : ℚ) * (1 / 2)) }] }
      else acc := by
  unfold keywordStep specKeywordContribution contributes
  rw [contextMatches_eq_contextHits]
  by_cases h1 : occursIn k.word domain url = true
  · have h1b : (includes domain k.word || includes url k.word) = true := h1
    by_cases h2 : 0 < contextHits domain url k
    · simp [h1, h1b, h2]
    · simp [h1, h1b, h2]
  · have h1b : ¬ (includes domain k.word || includes url k.word) = true := h1
    simp [h1, h1b]

theorem foldl_keywordStep (domain url : String) (table : List PhishingKeyword)
    (acc : KeywordCheck) :
    table.foldl (keywordStep domain url) acc =
      { keywordScore := acc.keywordScore +
          (table.map (specKeywordContribution domain url)).sum
        matchedKeywords := acc.matchedKeywords ++
          (table.filter (contributes domain url)).map (fun k =>
            { word := k.word, context := contextHits domain url k
              score := (k.weight : ℚ) * (1 + (contextHits domain url k : ℚ) * (1 / 2)) }) } := by
  induction table generalizing acc with
  | nil => simp
  | cons k rest ih =>
    rw [List.foldl_cons, ih, keywordStep_eq]
    by_cases h : contributes domain url k = true
    · simp [h, List.filter_cons, add_assoc]
    · have h0 : specKeywordContribution domain url k = 0 := by
        unfold specKeywordContribution; simp [h]
      simp [h, h0, List.filter_cons]

/-- C11: every keyword rule contributes 0 and no record when its word occurs in neither
string or when none of its context terms occurs, and otherwise
`weight * (1 + h * 0.5)` with `h ≥ 1` the number of its context terms that occur;
`keywordScore` is the sum of the contributions and `matchedKeywords` lists the
contributing rules in table order. -/
theorem checkPhishingKeywords_contributions (domain url : String) :
    (checkPhishingKeywords domain url).keywordScore =
      (phishingKeywords.map (specKeywordContribution domain url)).sum ∧
    (checkPhishingKeywords domain url).matchedKeywords =
      (phishingKeywords.filter (contributes domain url)).map (fun k =>
        { word := k.word, context := contextHits domain url k
          score := (k.weight : ℚ) * (1 + (contextHits domain url k : ℚ) * (1 / 2)) }) ∧
    (∀ k : PhishingKeyword, (includes domain k.word = false ∧ includes url k.word = false) →
      specKeywordContribution domain url k = 0 ∧ contributes domain url k = false) ∧
    (∀ k : PhishingKeyword,
      (∀ ctx ∈ k.context, includes domain ctx = false ∧ includes url ctx = false) →
      specKeywordContribution domain url k = 0 ∧ contributes domain url k = false) ∧
    (∀ k : PhishingKeyword, contributes domain url k = true →
      1 ≤ contextHits domain url k ∧
      contextHits domain url k =
        (k.context.filter (fun ctx => includes domain ctx || includes url ctx)).length ∧
      specKeywordContribution domain url k =
        (k.weight : ℚ) * (1 + (contextHits domain url k : ℚ) * (1 / 2))) := by
  refine ⟨?_, ?_, ?_, ?_, ?_⟩
  · unfold checkPhishingKeywords
    rw [foldl_keywordStep]; simp
  · unfold checkPhishingKeywords
    rw [foldl_keywordStep]; simp
  · intro k hk
    have hc : contributes domain url k = false := by
      simp [contributes, occursIn, hk.1, hk.2]
    exact ⟨by simp [specKeywordContribution, hc], hc⟩
  · intro k hk
    have hz : contextHits domain url k = 0 := by
      unfold contextHits
      rw [List.length_eq_zero, List.filter_eq_nil_iff]
      intro ctx hctx
      simp [occursIn, (hk ctx hctx).1, (hk ctx hctx).2]
    have hc : contributes domain url k = false := by
      simp [contributes, hz]
    exact ⟨by simp [specKeywordContribution, hc], hc⟩
  · intro k hk
    have hk2 := hk
    simp only [contributes, Bool.and_eq_true, decide_eq_true_eq] at hk2
    exact ⟨hk2.2, rfl, by simp [specKeywordContribution, hk]⟩

/-! ## Structural analyzer -/

theorem splitChar_ne_nil (sep : Char) (s : List Char) : splitChar sep s ≠ [] := by
  cases s with
  | nil => simp [splitChar]
  | cons c rest =>
    unfold splitChar
    split_ifs
    · simp
    · cases splitChar sep rest <;> simp

theorem splitChar_length (sep : Char) (s : List Char) :
    (splitChar sep s).length = s.count sep + 1 := by
  induction s with
  | nil => simp [splitChar]
  | cons c rest ih =>
    unfold splitChar
    by_cases h : c = sep
    · subst h
      simp [ih]
    · rw [if_neg h]
      have hne := splitChar_ne_nil sep rest
      cases hs : splitChar sep rest with
      | nil => exact absurd hs hne
      | cons p ps =>
        rw [hs] at ih
        simp only [List.length_cons] at ih ⊢
        rw [List.count_cons_of_ne (Ne.symm h)]
        exact ih

theorem splitChar_join (sep : Char) (s : List Char) :
    List.intercalate [sep] (splitChar sep s) = s := by
  induction s with
  | nil => simp [splitChar, List.intercalate]
  | cons c rest ih =>
    unfold splitChar
    by_cases h : c = sep
    · subst h
      rw [if_pos rfl]
      have hne := splitChar_ne_nil c rest
      cases hs : splitChar c rest with
      | nil => exact absurd hs hne
      | cons p ps =>
        rw [hs] at ih
        simp only [List.intercalate, List.intersperse, List.flatten] at ih ⊢
        simp [ih]
    · rw [if_neg h]
      have hne := splitChar_ne_nil sep rest
      cases hs : splitChar sep rest with
      | nil => exact absurd hs hne
      | cons p ps =>
        rw [hs] at ih
        cases ps with
        | nil =>
          simp only [List.intercalate, List.intersperse, List.flatten] at ih ⊢
          simpa using ih
        | cons q qs =>
          simp only [List.intercalate, List.intersperse, List.flatten] at ih ⊢
          simpa using ih

theorem splitChar_no_sep (sep : Char) (s : List Char) :
    ∀ label ∈ splitChar sep s, sep ∉ label := by
  induction s with
  | nil => simp [splitChar]
  | cons c rest ih =>
    unfold splitChar
    by_cases h : c = sep
    · rw [if_pos h]
      intro label hl
      rcases List.mem_cons.mp hl with rfl | hl
      · simp
      · exact ih label hl
    · rw [if_neg h]
      have hne := splitChar_ne_nil sep rest
      cases hs : splitChar sep rest with
      | nil => exact absurd hs hne
      | cons p ps =>
        rw [hs] at ih
        intro label hl
        rcases List.mem_cons.mp hl with rfl | hl
        · have := ih p (List.mem_cons_self _ _)
          simp only [List.mem_cons, not_or]
          exact ⟨Ne.symm h, this⟩
        · exact ih label (List.mem_cons_of_mem _ hl)

theorem getD_last_two (l : List (List Char)) (tld sld : List Char) (rest : List (List Char))
    (h : l.reverse = tld :: sld :: rest) :
    l.getD (l.length - 1) [] = tld ∧ l.getD (l.length - 2) [] = sld := by
  have hl : l = rest.reverse ++ [sld, tld] := by
    have := congrArg List.reverse h
    simpa using this
  subst hl
  have e1 : (rest.reverse ++ [sld, tld]).length - 1 = rest.reverse.length + 1 := by simp
  have e2 : (rest.reverse ++ [sld, tld]).length - 2 = rest.reverse.length + 0 := by simp
  constructor
  · rw [e1, List.getD_eq_getElem?_getD, List.getElem?_append_right (by omega)]
    simp
  · rw [e2, List.getD_eq_getElem?_getD, List.getElem?_append_right (by omega)]
    simp

theorem searchFrom_cls (cls : CharClass) (st : Bool) (s : List Char) :
    searchFrom false (Regex.cls cls) st s = s.any (fun c => cls.has c.toNat) := by
  induction s generalizing st with
  | nil => simp [searchFrom, matchK]
  | cons c rest ih =>
    simp [searchFrom, matchK, classMatches, ih]

theorem digit_has (c : Char) : CharClass.has digit c.toNat = c.isDigit := by
  simp [CharClass.has, digit, Char.isDigit, Char.toNat, UInt32.le_def, BitVec.le_def,
    UInt32.toNat]

theorem lower_has (c : Char) : CharClass.has lower c.toNat = c.isLower := by
  simp [CharClass.has, lower, Char.isLower, Char.toNat, UInt32.le_def, BitVec.le_def,
    UInt32.toNat]

theorem includesList_singleton (x : Char) (s : List Char) :
    includesList [x] s = s.any (fun c => c == x) := by
  induction s with
  | nil => simp [includesList]
  | cons c rest ih =>
    rw [includesList, ih]
    have hc : (x == c) = (c == x) := by
      rw [Bool.eq_iff_iff, beq_iff_eq, beq_iff_eq]
      exact eq_comm
    simp only [List.isPrefixOf, List.any_cons, Bool.and_true]
    rw [hc]

theorem analyzeDomainStructure_rules (domain : String) :
    analyzeDomainStructure domain =
      { structureScore := (if ruleSubdomains domain then 20 else 0) +
          (if ruleShortLabels domain then 15 else 0) + (if ruleMixed domain then 10 else 0)
        issues := (if ruleSubdomains domain then ["Excessive subdomains"] else []) ++
          (if ruleShortLabels domain then ["Suspicious domain structure"] else []) ++
          (if ruleMixed domain then ["Mixed character types with hyphens"] else []) } := by
  have hmixed : (RegExp.test ⟨Regex.cls digit, false⟩ domain &&
      RegExp.test ⟨Regex.cls lower, false⟩ domain && includes domain "-") = ruleMixed domain := by
    unfold RegExp.test ruleMixed includes
    simp only [searchFrom_cls]
    have hd : (fun c : Char => CharClass.has digit c.toNat) = Char.isDigit := funext digit_has
    have hl : (fun c : Char => CharClass.has lower c.toNat) = Char.isLower := funext lower_has
    rw [hd, hl]
    have : "-".toList = ['-'] := rfl
    rw [this, includesList_singleton]
  have hshort : ∀ parts : List (List Char), parts = dotLabels domain →
      (if parts.length ≥ 2 then
        decide (jsLength (parts.getD (parts.length - 1) []) = 2 ∧
          jsLength (parts.getD (parts.length - 2) []) < 3)
      else false) = ruleShortLabels domain := by
    intro parts hp
    unfold ruleShortLabels
    rw [← hp]
    rcases hr : parts.reverse with _ | ⟨tld, _ | ⟨sld, rest⟩⟩
    · have : parts = [] := by simpa using hr
      subst this; simp
    · have : parts = [tld] := by
        have := congrArg List.reverse hr
        simpa using this
      subst this; simp
    · obtain ⟨h1, h2⟩ := getD_last_two parts tld sld rest hr
      have hlen : parts.length ≥ 2 := by
        have := congrArg List.length hr
        simp at this
        omega
      rw [if_pos hlen, h1, h2]
      simp [Bool.decide_and]
  have hs := hshort (splitChar '.' domain.toList) rfl
  have hsub : ruleSubdomains domain = decide ((splitChar '.' domain.toList).length > 4) := rfl
  unfold analyzeDomainStructure
  simp only []
  rw [hmixed, hsub, ← hs]
  generalize splitChar '.' domain.toList = parts
  generalize ruleMixed domain = m
  by_cases h1 : parts.length > 4 <;> by_cases hlen : parts.length ≥ 2 <;>
    by_cases hc : (jsLength (parts.getD (parts.length - 1) []) = 2 ∧
      jsLength (parts.getD (parts.length - 2) []) < 3) <;>
    cases m <;>
    simp only [h1, hlen, hc, if_true, if_false, decide_True, decide_False, Bool.false_eq_true,
      zero_add, add_zero, List.nil_append, List.append_nil] <;> rfl

/-- C12: the structure score is 20 for more than four labels, plus 15 for a last label
of two code units after a label of fewer than three, plus 10 for a digit, a letter and
a hyphen; each rule that fires adds its own entry to `issues`, so the score is positive
iff `issues` is not empty.  The labels are the pieces between the dots. -/
theorem analyzeDomainStructure_score (domain : String) :
    (analyzeDomainStructure domain).structureScore =
      (if ruleSubdomains domain then 20 else 0) + (if ruleShortLabels domain then 15 else 0) +
        (if ruleMixed domain then 10 else 0) ∧
    (analyzeDomainStructure domain).issues =
      (if ruleSubdomains domain then ["Excessive subdomains"] else []) ++
        (if ruleShortLabels domain then ["Suspicious domain structure"] else []) ++
        (if ruleMixed domain then ["Mixed character types with hyphens"] else []) ∧
    (analyzeDomainStructure domain).issues.length =
      (if ruleSubdomains domain then 1 else 0) + (if ruleShortLabels domain then 1 else 0) +
        (if ruleMixed domain then 1 else 0) ∧
    (0 < (analyzeDomainStructure domain).structureScore ↔
      (analyzeDomainStructure domain).issues ≠ []) ∧
    (dotLabels domain).length = domain.toList.count '.' + 1 ∧
    List.intercalate ['.'] (dotLabels domain) = domain.toList ∧
    (∀ label ∈ dotLabels domain, '.' ∉ label) ∧
    (analyzeDomainStructure "a.b.c-1.d.x.co").structureScore = 45 := by
  rw [analyzeDomainStructure_rules]
  refine ⟨rfl, rfl, ?_, ?_, splitChar_length _ _, splitChar_join _ _, splitChar_no_sep _ _,
    by decide⟩
  · cases ruleSubdomains domain <;> cases ruleShortLabels domain <;> cases ruleMixed domain <;>
      rfl
  · cases ruleSubdomains domain <;> cases ruleShortLabels domain <;> cases ruleMixed domain <;>
      simp

/-! ## Whitelist monotonicity -/

theorem reputationTerm_ge (s : RepStatus) : -40 ≤ reputationTerm s := by
  cases s <;> norm_num [reputationTerm]

theorem mem_setAdd (s : List String) (x y : String) : y ∈ setAdd s x ↔ y ∈ s ∨ y = x := by
  unfold setAdd
  split_ifs with h
  · constructor
    · exact Or.inl
    · rintro (h1 | h1)
      · exact h1
      · rw [h1]; exact h
  · simp

theorem resolveReputation_whitelisted_le (d : Detector) (x domain : String) (randomScore : ℚ) :
    reputationTerm (resolveReputation (whitelisted d x) domain randomScore).status ≤
      reputationTerm (resolveReputation d domain randomScore).status := by
  by_cases hp : domain ∈ d.phishingDomains
  · have h1 := (resolveReputation_cases d domain randomScore).1 hp
    have h2 := (resolveReputation_cases (whitelisted d x) domain randomScore).1 hp
    rw [h1, h2]
  · by_cases hl : domain ∈ (whitelisted d x).legitimateDomains
    · have h2 := (resolveReputation_cases (whitelisted d x) domain randomScore).2.1 hp hl
      rw [h2]
      exact reputationTerm_ge _
    · have hl0 : domain ∉ d.legitimateDomains := fun h =>
        hl ((mem_setAdd d.legitimateDomains x domain).mpr (Or.inl h))
      have e : resolveReputation (whitelisted d x) domain randomScore =
          resolveReputation d domain randomScore := by
        unfold resolveReputation
        have hp2 : domain ∉ (whitelisted d x).phishingDomains := hp
        rw [if_neg hp2, if_neg hl, if_neg hp, if_neg hl0]
      rw [e]

theorem checkDomainReputation_whitelisted_le (d : Detector) (x domain : String)
    (tCheck tStore : Int) (randomScore : ℚ) :
    reputationTerm (checkDomainReputation (whitelisted d x) domain tCheck tStore
        randomScore).1.status ≤
      reputationTerm (checkDomainReputation d domain tCheck tStore randomScore).1.status := by
  have hv : validCachedReputation (whitelisted d x) domain tCheck =
      validCachedReputation d domain tCheck := rfl
  cases hc : validCachedReputation d domain tCheck with
  | some r =>
    rw [checkDomainReputation_of_hit d domain tCheck tStore randomScore r hc,
      checkDomainReputation_of_hit (whitelisted d x) domain tCheck tStore randomScore r
        (hv.trans hc)]
  | none =>
    rw [checkDomainReputation_of_miss d domain tCheck tStore randomScore hc,
      checkDomainReputation_of_miss (whitelisted d x) domain tCheck tStore randomScore
        (hv.trans hc)]
    exact resolveReputation_whitelisted_le d x domain randomScore

theorem performAdvancedAnalysis_riskScore (parseURL : URLParser) (d : Detector)
    (url domain : String) (clock : Clock) (rnd : RandomDraws) :
    (accumulate (performAdvancedAnalysis parseURL d url domain clock rnd).1.checks).riskScore =
      specRiskSum (performAdvancedAnalysis parseURL d url domain clock rnd).1.checks := by
  apply accumulate_riskScore
  · exact checkSuspiciousPatterns_totalWeight_nonneg url
  · exact checkPhishingKeywords_keywordScore_nonneg domain url
  · exact checkHomographAttacks_score_of_not_detected domain
  · exact analyzeDomainStructure_structureScore_nonneg domain
  · exact checkSSLCertificate_score parseURL url
  · exact checkURLRedirects_score parseURL url

theorem specRiskSum_reputationTerm (c : Checks) :
    specRiskSum c = reputationTerm c.reputation.status +
      specRiskSum { c with reputation := { status := RepStatus.unknown, confidence := 0.5,
                                           source := "api" } } := by
  unfold specRiskSum reputationTerm
  cases c.reputation.status <;> simp <;> ring

theorem performAdvancedAnalysis_whitelisted_le (parseURL : URLParser) (d : Detector)
    (x url domain : String) (clock : Clock) (rnd : RandomDraws) :
    (accumulate (performAdvancedAnalysis parseURL (whitelisted d x) url domain clock
        rnd).1.checks).riskScore ≤
      (accumulate (performAdvancedAnalysis parseURL d url domain clock rnd).1.checks).riskScore := by
  rw [performAdvancedAnalysis_riskScore, performAdvancedAnalysis_riskScore,
    specRiskSum_reputationTerm
      (performAdvancedAnalysis parseURL (whitelisted d x) url domain clock rnd).1.checks,
    specRiskSum_reputationTerm (performAdvancedAnalysis parseURL d url domain clock rnd).1.checks]
  have h := checkDomainReputation_whitelisted_le d x domain clock.reputationCheck
    clock.reputationStore rnd.reputation
  have e : ∀ dd : Detector,
      ({ (performAdvancedAnalysis parseURL dd url domain clock rnd).1.checks with
          reputation := { status := RepStatus.unknown, confidence := 0.5, source := "api" } } :
            Checks) =
      { (performAdvancedAnalysis parseURL d url domain clock rnd).1.checks with
          reputation := { status := RepStatus.unknown, confidence := 0.5, source := "api" } } :=
    fun _ => rfl
  rw [e (whitelisted d x)]
  exact add_le_add_right h _

theorem clampRisk_mono {x y : ℚ} (h : x ≤ y) : clampRisk x ≤ clampRisk y := by
  unfold clampRisk
  exact max_le_max (le_refl _) (min_le_min (le_refl _) h)

theorem mathRound_mono {x y : ℚ} (h : x ≤ y) : mathRound x ≤ mathRound y := by
  unfold mathRound
  exact_mod_cast Int.floor_mono (by linarith)

theorem calculateFinalScore_whitelisted_le (parseURL : URLParser) (d : Detector)
    (x url domain : String) (clock : Clock) (rnd : RandomDraws) (now : Int) :
    (calculateFinalScore (performAdvancedAnalysis parseURL (whitelisted d x) url domain clock
        rnd).1 now).riskScore ≤
      (calculateFinalScore (performAdvancedAnalysis parseURL d url domain clock rnd).1
        now).riskScore :=
  mathRound_mono (clampRisk_mono
    (performAdvancedAnalysis_whitelisted_le parseURL d x url domain clock rnd))

/-- C13: with everything else fixed (URL, clock readings, random readings, caches,
blacklist), adding a domain to `legitimateDomains` never raises the risk: neither the
clamped risk nor the returned `riskScore` of the analysis of any domain, nor the
`riskScore` that `analyzeURL` resolves to. -/
theorem whitelist_add_monotone (parseURL : URLParser) (w : World) (x url domain : String)
    (clock : Clock) (rnd : RandomDraws) (now : Int) :
    clampedRisk (performAdvancedAnalysis parseURL (whitelisted w.detector x) url domain clock
        rnd).1 ≤
      clampedRisk (performAdvancedAnalysis parseURL w.detector url domain clock rnd).1 ∧
    (calculateFinalScore (performAdvancedAnalysis parseURL (whitelisted w.detector x) url domain
        clock rnd).1 now).riskScore ≤
      (calculateFinalScore (performAdvancedAnalysis parseURL w.detector url domain clock rnd).1
        now).riskScore ∧
    (∀ r r2 : AnalysisResult,
      (analyzeURL parseURL w clock rnd url).1 = AnalyzeOutcome.verdict r →
      (analyzeURL parseURL { w with detector := whitelisted w.detector x } clock rnd url).1 =
        AnalyzeOutcome.verdict r2 →
      r2.riskScore ≤ r.riskScore) := by
  refine ⟨clampRisk_mono (performAdvancedAnalysis_whitelisted_le parseURL w.detector x url
    domain clock rnd), calculateFinalScore_whitelisted_le parseURL w.detector x url domain clock
    rnd now, ?_⟩
  intro r r2 h1 h2
  cases hd : extractDomain parseURL url with
  | none =>
    rw [analyzeURL_of_unparsed parseURL w clock rnd url hd] at h1
    cases h1
  | some dom =>
    by_cases hne : dom = ""
    · subst hne
      rw [analyzeURL_of_empty parseURL w clock rnd url hd] at h1
      cases h1
    · have hv : validCachedAnalysis (whitelisted w.detector x) (dom ++ ":" ++ url)
          clock.analysisCheck =
          validCachedAnalysis w.detector (dom ++ ":" ++ url) clock.analysisCheck := rfl
      cases hc : validCachedAnalysis w.detector (dom ++ ":" ++ url) clock.analysisCheck with
      | some data =>
        rw [analyzeURL_of_hit parseURL w clock rnd url dom data hd hne hc] at h1
        rw [analyzeURL_of_hit parseURL { w with detector := whitelisted w.detector x } clock rnd
          url dom data hd hne (hv.trans hc)] at h2
        cases h1; cases h2
        exact le_refl _
      | none =>
        rw [analyzeURL_of_miss parseURL w clock rnd url dom hd hne hc] at h1
        rw [analyzeURL_of_miss parseURL { w with detector := whitelisted w.detector x } clock rnd
          url dom hd hne (hv.trans hc)] at h2
        cases h1; cases h2
        exact calculateFinalScore_whitelisted_le parseURL w.detector x url dom clock rnd
          clock.scored

/-! ## Scenarios -/

theorem checkPhishingKeywords_of_no_contribution (domain url : String)
    (hempty : (phishingKeywords.filter (contributes domain url)).isEmpty = true) :
    checkPhishingKeywords domain url = { keywordScore := 0, matchedKeywords := [] } := by
  have h : phishingKeywords.filter (contributes domain url) = [] := List.isEmpty_iff.mp hempty
  unfold checkPhishingKeywords
  rw [foldl_keywordStep, h]
  have hz : (phishingKeywords.map (specKeywordContribution domain url)).sum = 0 := by
    apply List.sum_eq_zero
    intro q hq
    obtain ⟨k, hk, rfl⟩ := List.mem_map.mp hq
    have hc : contributes domain url k = false := by
      by_contra hcon
      have hmem : k ∈ phishingKeywords.filter (contributes domain url) :=
        List.mem_filter.mpr ⟨hk, by simpa using hcon⟩
      rw [h] at hmem
      cases hmem
    simp [specKeywordContribution, hc]
  rw [hz]
  simp

theorem mathRound_intCast (n : Int) : mathRound (n : ℚ) = (n : ℚ) := by
  unfold mathRound
  have : ⌊(n : ℚ) + 1 / 2⌋ = n := by
    rw [Int.floor_eq_iff]
    constructor <;> norm_num
  rw [this]

theorem ipScenario_checks (clock : Clock) :
    (performAdvancedAnalysis scenarioParser initialWorld.detector
      "http://192.168.1.1/secure-update" "192.168.1.1" clock neutralDraws).1.checks =
      { reputation := { status := RepStatus.unknown, confidence := 0.5, source := "api" }
        ssl := { hasSSL := false, score := 25, issues := ["No SSL certificate"] }
        domainAge := { days := 230, category := AgeCategory.recent }
        patterns :=
          { totalWeight := 75
            matchedPatterns := [{ description := "Fake security update", weight := 25 },
                                { description := "Direct IP access", weight := 50 }] }
        keywords := { keywordScore := 0, matchedKeywords := [] }
        homograph := { detected := false, score := 0, characters := [] }
        structure_ := { structureScore := 0, issues := [] }
        redirects := { hasSuspiciousRedirects := false, score := 0, redirectChain := [] } } := by
  have hrep : (checkDomainReputation initialWorld.detector "192.168.1.1" clock.reputationCheck
      clock.reputationStore neutralDraws.reputation).1 =
      { status := RepStatus.unknown, confidence := 0.5, source := "api" } := by
    rw [checkDomainReputation_of_miss initialWorld.detector "192.168.1.1" clock.reputationCheck
      clock.reputationStore neutralDraws.reputation rfl]
    unfold resolveReputation
    rw [if_neg (by decide), if_neg (by decide), if_neg (by decide)]
    norm_num [neutralDraws]
  have hssl : checkSSLCertificate scenarioParser "http://192.168.1.1/secure-update" =
      { hasSSL := false, score := 25, issues := ["No SSL certificate"] } := by decide
  have hage : calculateDomainAge "192.168.1.1" neutralDraws.age =
      { days := 230, category := AgeCategory.recent } := by
    unfold calculateDomainAge
    rw [if_neg (by decide), if_neg (by decide)]
    have hx : neutralDraws.age * 2000 = ((200 : ℕ) : ℚ) := by norm_num [neutralDraws]
    have hf : ⌊toDouble (neutralDraws.age * 2000)⌋ = 200 := by
      rw [hx, toDouble_natCast 200 (by norm_num)]
      exact Int.floor_natCast 200
    simp only [hf]
    rfl
  have hpat : checkSuspiciousPatterns "http://192.168.1.1/secure-update" =
      { totalWeight := 75
        matchedPatterns := [{ description := "Fake security update", weight := 25 },
                            { description := "Direct IP access", weight := 50 }] } := by decide
  have hkw : checkPhishingKeywords "192.168.1.1" "http://192.168.1.1/secure-update" =
      { keywordScore := 0, matchedKeywords := [] } :=
    checkPhishingKeywords_of_no_contribution _ _ (by decide)
  have hhom : checkHomographAttacks "192.168.1.1" =
      { detected := false, score := 0, characters := [] } := by decide
  have hstr : analyzeDomainStructure "192.168.1.1" = { structureScore := 0, issues := [] } := by
    decide
  have hred : checkURLRedirects scenarioParser "http://192.168.1.1/secure-update" =
      { hasSuspiciousRedirects := false, score := 0, redirectChain := [] } := by decide
  unfold performAdvancedAnalysis
  simp only [hrep, hssl, hage, hpat, hkw, hhom, hstr, hred]

theorem ipScenario_risk (clock : Clock) :
    clampedRisk (performAdvancedAnalysis scenarioParser initialWorld.detector
      "http://192.168.1.1/secure-update" "192.168.1.1" clock neutralDraws).1 = 75 := by
  unfold clampedRisk
  rw [performAdvancedAnalysis_riskScore, ipScenario_checks]
  norm_num [specRiskSum, clampRisk]

theorem verdictOf_of_ge_70 (r : ℚ) (h : 70 ≤ r) :
    (verdictOf r).1 = Status.phishing ∧ (verdictOf r).2.1 = Threat.high := by
  unfold verdictOf
  rw [if_pos h]
  exact ⟨rfl, rfl⟩

theorem verdictOf_of_lt_25 (r : ℚ) (h : r < 25) :
    (verdictOf r).1 = Status.legitimate ∧ (verdictOf r).2.1 = Threat.minimal := by
  unfold verdictOf
  rw [if_neg (by linarith), if_neg (by linarith), if_neg (by linarith)]
  exact ⟨rfl, rfl⟩

theorem ipScenario_result (clock : Clock) (now : Int) :
    (calculateFinalScore (performAdvancedAnalysis scenarioParser initialWorld.detector
      "http://192.168.1.1/secure-update" "192.168.1.1" clock neutralDraws).1 now).riskScore = 75 ∧
    (calculateFinalScore (performAdvancedAnalysis scenarioParser initialWorld.detector
      "http://192.168.1.1/secure-update" "192.168.1.1" clock neutralDraws).1 now).status =
        Status.phishing ∧
    (calculateFinalScore (performAdvancedAnalysis scenarioParser initialWorld.detector
      "http://192.168.1.1/secure-update" "192.168.1.1" clock neutralDraws).1 now).threat =
        Threat.high := by
  have hr := ipScenario_risk clock
  have h1 : (calculateFinalScore (performAdvancedAnalysis scenarioParser initialWorld.detector
      "http://192.168.1.1/secure-update" "192.168.1.1" clock neutralDraws).1 now).riskScore =
      mathRound (clampedRisk (performAdvancedAnalysis scenarioParser initialWorld.detector
        "http://192.168.1.1/secure-update" "192.168.1.1" clock neutralDraws).1) := rfl
  have h2 : (calculateFinalScore (performAdvancedAnalysis scenarioParser initialWorld.detector
      "http://192.168.1.1/secure-update" "192.168.1.1" clock neutralDraws).1 now).status =
      (verdictOf (clampedRisk (performAdvancedAnalysis scenarioParser initialWorld.detector
        "http://192.168.1.1/secure-update" "192.168.1.1" clock neutralDraws).1)).1 := rfl
  have h3 : (calculateFinalScore (performAdvancedAnalysis scenarioParser initialWorld.detector
      "http://192.168.1.1/secure-update" "192.168.1.1" clock neutralDraws).1 now).threat =
      (verdictOf (clampedRisk (performAdvancedAnalysis scenarioParser initialWorld.detector
        "http://192.168.1.1/secure-update" "192.168.1.1" clock neutralDraws).1)).2.1 := rfl
  rw [h1, h2, h3, hr]
  have hv := verdictOf_of_ge_70 75 (by norm_num)
  refine ⟨?_, hv.1, hv.2⟩
  have := mathRound_intCast 75
  simpa using this

/-- C14, counterexample: for `http://192.168.1.1/secure-update` with an unknown external
reputation and a `recent` age the returned risk score is 75, not 100. -/
theorem ipScenario_risk_not_100 :
    (calculateFinalScore (performAdvancedAnalysis scenarioParser initialWorld.detector
      "http://192.168.1.1/secure-update" "192.168.1.1" (clockAt 0) neutralDraws).1
        150).riskScore = 75 ∧
    (calculateFinalScore (performAdvancedAnalysis scenarioParser initialWorld.detector
      "http://192.168.1.1/secure-update" "192.168.1.1" (clockAt 0) neutralDraws).1
        150).riskScore ≠ 100 := by
  have h := (ipScenario_result (clockAt 0) 150).1
  refine ⟨h, ?_⟩
  rw [h]
  norm_num

/-- C14, amended: for `http://192.168.1.1/secure-update` (external reputation unknown,
age `recent`) the patterns `Fake security update` (25) and `Direct IP access` (50) both
match, their total 75 enters the risk capped at 50, the missing HTTPS adds 25, the
final risk score is 75, and the verdict is `phishing` with threat `high`. -/
theorem ipScenario_verdict (clock : Clock) (now : Int) :
    (performAdvancedAnalysis scenarioParser initialWorld.detector
      "http://192.168.1.1/secure-update" "192.168.1.1" clock neutralDraws).1.checks.patterns =
      { totalWeight := 75
        matchedPatterns := [{ description := "Fake security update", weight := 25 },
                            { description := "Direct IP access", weight := 50 }] } ∧
    (performAdvancedAnalysis scenarioParser initialWorld.detector
      "http://192.168.1.1/secure-update" "192.168.1.1" clock neutralDraws).1.checks.ssl =
      { hasSSL := false, score := 25, issues := ["No SSL certificate"] } ∧
    (performAdvancedAnalysis scenarioParser initialWorld.detector
      "http://192.168.1.1/secure-update" "192.168.1.1" clock
        neutralDraws).1.checks.reputation.status = RepStatus.unknown ∧
    (performAdvancedAnalysis scenarioParser initialWorld.detector
      "http://192.168.1.1/secure-update" "192.168.1.1" clock
        neutralDraws).1.checks.domainAge.category = AgeCategory.recent ∧
    clampedRisk (performAdvancedAnalysis scenarioParser initialWorld.detector
      "http://192.168.1.1/secure-update" "192.168.1.1" clock neutralDraws).1 = 25 + 50 ∧
    (calculateFinalScore (performAdvancedAnalysis scenarioParser initialWorld.detector
      "http://192.168.1.1/secure-update" "192.168.1.1" clock neutralDraws).1 now).riskScore = 75 ∧
    (calculateFinalScore (performAdvancedAnalysis scenarioParser initialWorld.detector
      "http://192.168.1.1/secure-update" "192.168.1.1" clock neutralDraws).1 now).status =
        Status.phishing ∧
    (calculateFinalScore (performAdvancedAnalysis scenarioParser initialWorld.detector
      "http://192.168.1.1/secure-update" "192.168.1.1" clock neutralDraws).1 now).threat =
        Threat.high ∧
    (analyzeURL scenarioParser initialWorld clock neutralDraws
      "http://192.168.1.1/secure-update").1 =
      AnalyzeOutcome.verdict (calculateFinalScore (performAdvancedAnalysis scenarioParser
        initialWorld.detector "http://192.168.1.1/secure-update" "192.168.1.1" clock
        neutralDraws).1 clock.scored) := by
  have hc := ipScenario_checks clock
  obtain ⟨r1, r2, r3⟩ := ipScenario_result clock now
  refine ⟨by rw [hc], by rw [hc], by rw [hc], by rw [hc], ?_, r1, r2, r3, ?_⟩
  · rw [ipScenario_risk]; norm_num
  · rw [analyzeURL_of_miss scenarioParser initialWorld clock neutralDraws
      "http://192.168.1.1/secure-update" "192.168.1.1" rfl (by decide) rfl]

theorem githubScenario_checks (clock : Clock) (rnd : RandomDraws) :
    (performAdvancedAnalysis scenarioParser initialWorld.detector
      "https://www.github.com" "www.github.com" clock rnd).1.checks =
      { reputation := { status := RepStatus.legitimate, confidence := 0.98, source := "whitelist" }
        ssl := { hasSSL := true, score := 0, issues := [] }
        domainAge := calculateDomainAge "www.github.com" rnd.age
        patterns := { totalWeight := 0, matchedPatterns := [] }
        keywords := { keywordScore := 0, matchedKeywords := [] }
        homograph := { detected := false, score := 0, characters := [] }
        structure_ := { structureScore := 0, issues := [] }
        redirects := { hasSuspiciousRedirects := false, score := 0, redirectChain := [] } } := by
  have hrep : (checkDomainReputation initialWorld.detector "www.github.com" clock.reputationCheck
      clock.reputationStore rnd.reputation).1 =
      { status := RepStatus.legitimate, confidence := 0.98, source := "whitelist" } := by
    rw [checkDomainReputation_of_miss initialWorld.detector "www.github.com"
      clock.reputationCheck clock.reputationStore rnd.reputation rfl]
    exact (resolveReputation_cases initialWorld.detector "www.github.com" rnd.reputation).2.1
      (by decide) (by decide)
  have hssl : checkSSLCertificate scenarioParser "https://www.github.com" =
      { hasSSL := true, score := 0, issues := [] } := by decide
  have hpat : checkSuspiciousPatterns "https://www.github.com" =
      { totalWeight := 0, matchedPatterns := [] } := by decide
  have hkw : checkPhishingKeywords "www.github.com" "https://www.github.com" =
      { keywordScore := 0, matchedKeywords := [] } :=
    checkPhishingKeywords_of_no_contribution _ _ (by decide)
  have hhom : checkHomographAttacks "www.github.com" =
      { detected := false, score := 0, characters := [] } := by decide
  have hstr : analyzeDomainStructure "www.github.com" = { structureScore := 0, issues := [] } := by
    decide
  have hred : checkURLRedirects scenarioParser "https://www.github.com" =
      { hasSuspiciousRedirects := false, score := 0, redirectChain := [] } := by decide
  unfold performAdvancedAnalysis
  simp only [hrep, hssl, hpat, hkw, hhom, hstr, hred]

theorem githubScenario_risk (clock : Clock) (rnd : RandomDraws) :
    clampedRisk (performAdvancedAnalysis scenarioParser initialWorld.detector
      "https://www.github.com" "www.github.com" clock rnd).1 = 0 := by
  unfold clampedRisk
  rw [performAdvancedAnalysis_riskScore, githubScenario_checks]
  unfold specRiskSum clampRisk
  cases (calculateDomainAge "www.github.com" rnd.age).category <;> norm_num

/-- C15: for `https://www.github.com` and the built-in whitelist the reputation is
`legitimate` from the whitelist, the URL has HTTPS, no pattern, keyword, homograph,
structure or redirect signal fires, and for every reading of the random source the
risk score is 0 and the status `legitimate`; `analyzeURL` resolves to this verdict. -/
theorem githubScenario_verdict (clock : Clock) (rnd : RandomDraws) (now : Int) :
    (performAdvancedAnalysis scenarioParser initialWorld.detector
      "https://www.github.com" "www.github.com" clock rnd).1.checks =
      { reputation := { status := RepStatus.legitimate, confidence := 0.98, source := "whitelist" }
        ssl := { hasSSL := true, score := 0, issues := [] }
        domainAge := calculateDomainAge "www.github.com" rnd.age
        patterns := { totalWeight := 0, matchedPatterns := [] }
        keywords := { keywordScore := 0, matchedKeywords := [] }
        homograph := { detected := false, score := 0, characters := [] }
        structure_ := { structureScore := 0, issues := [] }
        redirects := { hasSuspiciousRedirects := false, score := 0, redirectChain := [] } } ∧
    reputationTerm RepStatus.legitimate = -40 ∧
    (calculateFinalScore (performAdvancedAnalysis scenarioParser initialWorld.detector
      "https://www.github.com" "www.github.com" clock rnd).1 now).riskScore = 0 ∧
    (calculateFinalScore (performAdvancedAnalysis scenarioParser initialWorld.detector
      "https://www.github.com" "www.github.com" clock rnd).1 now).status = Status.legitimate ∧
    (analyzeURL scenarioParser initialWorld clock rnd "https://www.github.com").1 =
      AnalyzeOutcome.verdict (calculateFinalScore (performAdvancedAnalysis scenarioParser
        initialWorld.detector "https://www.github.com" "www.github.com" clock rnd).1
        clock.scored) := by
  have hr := githubScenario_risk clock rnd
  have h1 : (calculateFinalScore (performAdvancedAnalysis scenarioParser initialWorld.detector
      "https://www.github.com" "www.github.com" clock rnd).1 now).riskScore =
      mathRound (clampedRisk (performAdvancedAnalysis scenarioParser initialWorld.detector
        "https://www.github.com" "www.github.com" clock rnd).1) := rfl
  have h2 : (calculateFinalScore (performAdvancedAnalysis scenarioParser initialWorld.detector
      "https://www.github.com" "www.github.com" clock rnd).1 now).status =
      (verdictOf (clampedRisk (performAdvancedAnalysis scenarioParser initialWorld.detector
        "https://www.github.com" "www.github.com" clock rnd).1)).1 := rfl
  refine ⟨githubScenario_checks clock rnd, rfl, ?_, ?_, ?_⟩
  · rw [h1, hr]
    have := mathRound_intCast 0
    simpa using this
  · rw [h2, hr]
    exact (verdictOf_of_lt_25 0 (by norm_num)).1
  · rw [analyzeURL_of_miss scenarioParser initialWorld clock rnd
      "https://www.github.com" "www.github.com" rfl (by decide) rfl]

/-! ## Reputation cache -/

theorem mapHas_iff_mapGet {α : Type} (m : List (String × α)) (key : String) :
    mapHas m key = true ↔ ∃ v, mapGet m key = some v := by
  induction m with
  | nil => simp [mapHas, mapGet]
  | cons e rest ih =>
    rw [mapHas_cons]
    by_cases he : (e.1 == key) = true
    · simp only [he, Bool.true_or, true_iff]
      exact ⟨e.2, by simp [mapGet, List.find?_cons, he]⟩
    · have he2 : (e.1 == key) = false := by simpa using he
      rw [he2, Bool.false_or, ih]
      simp only [mapGet, List.find?_cons, he2]

theorem mapGet_mapSet_other {α : Type} (m : List (String × α)) (key other : String) (value : α)
    (h : other ≠ key) : mapGet (mapSet m key value) other = mapGet m other := by
  have hko : (key == other) = false := by
    rw [beq_eq_false_iff_ne]; exact Ne.symm h
  unfold mapSet
  split_ifs with hh
  · induction m with
    | nil => rfl
    | cons e rest ih =>
      by_cases he : (e.1 == key) = true
      · have hek : e.1 = key := by simpa using he
        have heo : (e.1 == other) = false := by rw [hek]; exact hko
        have ih2 : mapGet (List.map (fun e => if (e.1 == key) = true then (key, value) else e) rest)
            other = mapGet rest other := by
          by_cases hr : mapHas rest key = true
          · exact ih hr
          · have hid : List.map (fun e => if (e.1 == key) = true then (key, value) else e) rest
                = rest := by
              have hall : ∀ x ∈ rest, (x.1 == key) = false := by
                intro x hx
                by_contra hcon
                exact hr (by
                  unfold mapHas
                  rw [List.any_eq_true]
                  exact ⟨x, hx, by simpa using hcon⟩)
              calc List.map (fun e => if (e.1 == key) = true then (key, value) else e) rest
                  = List.map id rest := List.map_congr_left (fun x hx => by simp [hall x hx])
                _ = rest := List.map_id _
            rw [hid]
        simp only [mapGet, List.map_cons, List.find?_cons, he, if_true, hko, heo] at ih2 ⊢
        exact ih2
      · have he2 : (e.1 == key) = false := by simpa using he
        rw [mapHas_cons, he2, Bool.false_or] at hh
        have := ih hh
        simp only [mapGet, List.map_cons, List.find?_cons, he2] at this ⊢
        by_cases heo : (e.1 == other) = true
        · simp [heo]
        · have heo2 : (e.1 == other) = false := by simpa using heo
          simp only [heo2, Bool.false_eq_true, if_false]
          exact this
  · simp only [mapGet, List.find?_append, List.find?_cons, hko, List.find?_nil]
    simp

theorem mapSet_length {α : Type} (m : List (String × α)) (key : String) (value : α) :
    (mapSet m key value).length = if mapHas m key then m.length else m.length + 1 := by
  unfold mapSet
  split_ifs <;> simp

theorem validCachedReputation_eq_some (d : Detector) (domain : String) (now : Int)
    (r : Reputation) :
    validCachedReputation d domain now = some r ↔
      ∃ e, mapGet d.domainCache domain = some e ∧ now - e.timestamp < 60 * 60 * 1000 ∧
        e.data = r := by
  unfold validCachedReputation
  cases hg : mapGet d.domainCache domain with
  | none =>
    have hh : ¬ mapHas d.domainCache domain = true := by
      rw [mapHas_iff_mapGet]; rintro ⟨v, hv⟩; rw [hg] at hv; cases hv
    simp [hh]
  | some e =>
    have hh : mapHas d.domainCache domain = true := (mapHas_iff_mapGet _ _).mpr ⟨e, hg⟩
    simp only [hh, if_true]
    by_cases ht : now - e.timestamp < 60 * 60 * 1000
    · simp [ht]
    · simp [ht]

theorem validCachedReputation_eq_none (d : Detector) (domain : String) (now : Int) :
    validCachedReputation d domain now = none ↔
      ∀ e, mapGet d.domainCache domain = some e → ¬ now - e.timestamp < 60 * 60 * 1000 := by
  constructor
  · intro h e he hlt
    have := (validCachedReputation_eq_some d domain now e.data).mpr ⟨e, he, hlt, rfl⟩
    rw [h] at this
    cases this
  · intro h
    cases hv : validCachedReputation d domain now with
    | none => rfl
    | some r =>
      obtain ⟨e, he, hlt, _⟩ := (validCachedReputation_eq_some d domain now r).mp hv
      exact absurd hlt (h e he)

theorem validCachedReputation_after_set (d : Detector) (domain : String) (r : Reputation)
    (stored now : Int) :
    validCachedReputation
        { d with domainCache := mapSet d.domainCache domain { data := r, timestamp := stored } }
        domain now =
      if now - stored < 60 * 60 * 1000 then some r else none := by
  unfold validCachedReputation
  simp only [mapHas_mapSet_self, if_true, mapGet_mapSet_self]

/-- C17: `checkDomainReputation` returns the cached reputation and leaves the detector
as it is exactly when the cache holds an entry for the domain younger than one hour;
otherwise it resolves afresh, stores the result under the domain with the clock reading
of the store (replacing a stale entry, touching no other key), and a further call within
an hour of that reading returns the same reputation without another write. -/
theorem checkDomainReputation_cache (d : Detector) (domain : String) (tCheck tStore : Int)
    (randomScore : ℚ) :
    (∀ r, validCachedReputation d domain tCheck = some r ↔
      ∃ e, mapGet d.domainCache domain = some e ∧ tCheck - e.timestamp < 60 * 60 * 1000 ∧
        e.data = r) ∧
    (∀ e, mapGet d.domainCache domain = some e → tCheck - e.timestamp < 60 * 60 * 1000 →
      checkDomainReputation d domain tCheck tStore randomScore = (e.data, d)) ∧
    ((∀ e, mapGet d.domainCache domain = some e → ¬ tCheck - e.timestamp < 60 * 60 * 1000) →
      (checkDomainReputation d domain tCheck tStore randomScore).1 =
        resolveReputation d domain randomScore ∧
      mapGet (checkDomainReputation d domain tCheck tStore randomScore).2.domainCache domain =
        some { data := resolveReputation d domain randomScore, timestamp := tStore } ∧
      (∀ other, other ≠ domain →
        mapGet (checkDomainReputation d domain tCheck tStore randomScore).2.domainCache other =
          mapGet d.domainCache other) ∧
      (checkDomainReputation d domain tCheck tStore randomScore).2.domainCache.length =
        (if mapHas d.domainCache domain then d.domainCache.length
          else d.domainCache.length + 1) ∧
      (∀ (t2 s2 : Int) (r2 : ℚ), t2 - tStore < 60 * 60 * 1000 →
        checkDomainReputation (checkDomainReputation d domain tCheck tStore randomScore).2
            domain t2 s2 r2 =
          (resolveReputation d domain randomScore,
            (checkDomainReputation d domain tCheck tStore randomScore).2))) := by
  refine ⟨validCachedReputation_eq_some d domain tCheck, ?_, ?_⟩
  · intro e he hlt
    exact checkDomainReputation_of_hit d domain tCheck tStore randomScore e.data
      ((validCachedReputation_eq_some d domain tCheck e.data).mpr ⟨e, he, hlt, rfl⟩)
  · intro hstale
    have hmiss := (validCachedReputation_eq_none d domain tCheck).mpr hstale
    rw [checkDomainReputation_of_miss d domain tCheck tStore randomScore hmiss]
    refine ⟨rfl, mapGet_mapSet_self _ _ _, ?_, mapSet_length _ _ _, ?_⟩
    · intro other ho
      exact mapGet_mapSet_other _ _ _ _ ho
    · intro t2 s2 r2 hlt
      apply checkDomainReputation_of_hit
      simp only
      rw [validCachedReputation_after_set, if_pos hlt]

/-! ## Cache housekeeping -/

theorem mapDelete_filter {α : Type} (m : List (String × α)) (p : String × α → Bool)
    (key : String) : mapDelete (m.filter p) key = m.filter (fun e => p e && !(e.1 == key)) := by
  unfold mapDelete
  rw [List.filter_filter]
  congr 1
  funext e
  exact Bool.and_comm _ _

theorem foldl_sweep {α : Type} (entries m : List (String × CacheEntry α)) (now maxAge : Int)
    (p : String × CacheEntry α → Bool) :
    entries.foldl
        (fun acc e => if now - e.2.timestamp > maxAge then mapDelete acc e.1 else acc)
        (m.filter p) =
      m.filter (fun e => p e &&
        !(entries.any (fun o => decide (now - o.2.timestamp > maxAge) && (o.1 == e.1)))) := by
  induction entries generalizing p with
  | nil => simp
  | cons o rest ih =>
    rw [List.foldl_cons]
    by_cases hold : now - o.2.timestamp > maxAge
    · rw [if_pos hold, mapDelete_filter, ih]
      congr 1
      funext e
      have hc : (e.1 == o.1) = (o.1 == e.1) := by
        rw [Bool.eq_iff_iff, beq_iff_eq, beq_iff_eq]
        exact eq_comm
      simp only [List.any_cons, hold, decide_True, Bool.true_and, Bool.not_or, hc,
        Bool.and_assoc]
    · rw [if_neg hold, ih]
      congr 1
      funext e
      simp only [List.any_cons, hold, decide_False, Bool.false_and, Bool.false_or]

theorem sweep_eq_filter {α : Type} (m : List (String × CacheEntry α)) (now maxAge : Int)
    (hkeys : (m.map Prod.fst).Nodup) :
    sweep m now maxAge = m.filter (fun e => decide (now - e.2.timestamp ≤ maxAge)) := by
  unfold sweep
  have key := foldl_sweep m m now maxAge (fun _ => true)
  have hm : m.filter (fun _ => true) = m := by simp
  rw [hm] at key
  rw [key]
  apply List.filter_congr
  intro e he
  simp only [Bool.true_and]
  by_cases hold : now - e.2.timestamp > maxAge
  · have hany : (m.any (fun o => decide (now - o.2.timestamp > maxAge) && (o.1 == e.1))) = true := by
      rw [List.any_eq_true]
      exact ⟨e, he, by simp [hold]⟩
    rw [hany]
    simp [not_le.mpr hold]
  · have hany : (m.any (fun o => decide (now - o.2.timestamp > maxAge) && (o.1 == e.1))) = false := by
      rw [Bool.eq_false_iff]
      intro hcon
      rw [List.any_eq_true] at hcon
      obtain ⟨o, ho, hcond⟩ := hcon
      simp only [Bool.and_eq_true, decide_eq_true_eq, beq_iff_eq] at hcond
      have hoe : o = e := List.inj_on_of_nodup_map hkeys ho he hcond.2
      rw [hoe] at hcond
      exact hold hcond.1
    rw [hany]
    simp [not_lt.mp hold]

/-- C18: on maps with distinct keys, `cleanCache` keeps in each cache exactly the
entries that are not older than 24 hours, unchanged and in their order, and removes
every older one; the lists are untouched.  An entry aged between its own TTL and 24
hours stays. -/
theorem cleanCache_keeps_young (d : Detector) (now : Int)
    (hrep : (d.domainCache.map Prod.fst).Nodup)
    (hana : (d.analysisCache.map Prod.fst).Nodup) :
    (cleanCache d now).domainCache =
      d.domainCache.filter (fun e => decide (now - e.2.timestamp ≤ 24 * 60 * 60 * 1000)) ∧
    (cleanCache d now).analysisCache =
      d.analysisCache.filter (fun e => decide (now - e.2.timestamp ≤ 24 * 60 * 60 * 1000)) ∧
    (∀ e, e ∈ (cleanCache d now).domainCache ↔
      e ∈ d.domainCache ∧ now - e.2.timestamp ≤ 24 * 60 * 60 * 1000) ∧
    (∀ e, e ∈ (cleanCache d now).analysisCache ↔
      e ∈ d.analysisCache ∧ now - e.2.timestamp ≤ 24 * 60 * 60 * 1000) ∧
    List.Sublist (cleanCache d now).domainCache d.domainCache ∧
    List.Sublist (cleanCache d now).analysisCache d.analysisCache ∧
    (cleanCache d now).phishingDomains = d.phishingDomains ∧
    (cleanCache d now).legitimateDomains = d.legitimateDomains := by
  have h1 : (cleanCache d now).domainCache =
      d.domainCache.filter (fun e => decide (now - e.2.timestamp ≤ 24 * 60 * 60 * 1000)) :=
    sweep_eq_filter d.domainCache now (24 * 60 * 60 * 1000) hrep
  have h2 : (cleanCache d now).analysisCache =
      d.analysisCache.filter (fun e => decide (now - e.2.timestamp ≤ 24 * 60 * 60 * 1000)) :=
    sweep_eq_filter d.analysisCache now (24 * 60 * 60 * 1000) hana
  refine ⟨h1, h2, ?_, ?_, ?_, ?_, rfl, rfl⟩
  · intro e; rw [h1, List.mem_filter]; simp
  · intro e; rw [h2, List.mem_filter]; simp
  · rw [h1]; exact List.filter_sublist _
  · rw [h2]; exact List.filter_sublist _

theorem cleanCache_keeps_young_witness :
    (agedDetector.domainCache.map Prod.fst).Nodup ∧
    (agedDetector.analysisCache.map Prod.fst).Nodup ∧
    (cleanCache agedDetector (30 * 60 * 60 * 1000)).domainCache =
      agedDetector.domainCache.filter
        (fun e => decide (30 * 60 * 60 * 1000 - e.2.timestamp ≤ 24 * 60 * 60 * 1000)) ∧
    (cleanCache agedDetector (30 * 60 * 60 * 1000)).domainCache.map Prod.fst =
      ["two-hours.example", "fresh.example"] :=
  ⟨by decide, by decide,
    (cleanCache_keeps_young agedDetector (30 * 60 * 60 * 1000) (by decide) (by decide)).1,
    by decide⟩

/-! ## Threat-intelligence updater -/

theorem setAdd_of_mem (s : List String) (x : String) (h : x ∈ s) : setAdd s x = s := by
  unfold setAdd
  rw [if_pos h]

theorem mem_foldl_setAdd (xs s : List String) (y : String) :
    y ∈ xs.foldl setAdd s ↔ y ∈ s ∨ y ∈ xs := by
  induction xs generalizing s with
  | nil => simp
  | cons x rest ih =>
    rw [List.foldl_cons, ih, mem_setAdd, List.mem_cons]
    tauto

theorem prefix_foldl_setAdd (xs s : List String) : s <+: xs.foldl setAdd s := by
  induction xs generalizing s with
  | nil => exact List.prefix_refl _
  | cons x rest ih =>
    rw [List.foldl_cons]
    refine List.IsPrefix.trans ?_ (ih (setAdd s x))
    unfold setAdd
    split_ifs
    · exact List.prefix_refl _
    · exact List.prefix_append _ _

theorem foldl_setAdd_of_subset (xs s : List String) (h : ∀ x ∈ xs, x ∈ s) :
    xs.foldl setAdd s = s := by
  induction xs with
  | nil => rfl
  | cons x rest ih =>
    rw [List.foldl_cons, setAdd_of_mem s x (h x (List.mem_cons_self _ _))]
    exact ih (fun y hy => h y (List.mem_cons_of_mem _ hy))

theorem foldl_setAdd_idempotent (xs s : List String) :
    xs.foldl setAdd (xs.foldl setAdd s) = xs.foldl setAdd s :=
  foldl_setAdd_of_subset xs _ (fun x hx => (mem_foldl_setAdd xs s x).mpr (Or.inr hx))

theorem updateThreatIntelligence_success (d : Detector) (P L : List String) (now : Int) :
    updateThreatIntelligence d
        (FetchOutcome.batch (FetchedList.domains P) (FetchedList.domains L)) true now =
      { detector := { d with phishingDomains := P.foldl setAdd d.phishingDomains
                             legitimateDomains := L.foldl setAdd d.legitimateDomains }
        persisted := some { lastUpdate := now
                            phishingCount := (P.foldl setAdd d.phishingDomains).length
                            legitimateCount := (L.foldl setAdd d.legitimateDomains).length }
        caught := false } := by
  simp [updateThreatIntelligence, mergeInto]

/-- C19: a successful `updateThreatIntelligence` with fetched lists `P` and `L` leaves
`phishingDomains` holding exactly the old members and those of `P`, likewise
`legitimateDomains` with `L`; the old lists are kept as they were (a beginning of the
new ones), adding a member again changes nothing, a second run with the same lists
changes nothing, and the caches are untouched. -/
theorem updateThreatIntelligence_union (d : Detector) (P L : List String) (now now2 : Int) :
    (∀ x, x ∈ (updateThreatIntelligence d
        (FetchOutcome.batch (FetchedList.domains P) (FetchedList.domains L)) true
        now).detector.phishingDomains ↔ x ∈ d.phishingDomains ∨ x ∈ P) ∧
    (∀ x, x ∈ (updateThreatIntelligence d
        (FetchOutcome.batch (FetchedList.domains P) (FetchedList.domains L)) true
        now).detector.legitimateDomains ↔ x ∈ d.legitimateDomains ∨ x ∈ L) ∧
    d.phishingDomains <+: (updateThreatIntelligence d
        (FetchOutcome.batch (FetchedList.domains P) (FetchedList.domains L)) true
        now).detector.phishingDomains ∧
    d.legitimateDomains <+: (updateThreatIntelligence d
        (FetchOutcome.batch (FetchedList.domains P) (FetchedList.domains L)) true
        now).detector.legitimateDomains ∧
    (∀ (s : List String) (x : String), x ∈ s → setAdd s x = s) ∧
    (updateThreatIntelligence
        (updateThreatIntelligence d
          (FetchOutcome.batch (FetchedList.domains P) (FetchedList.domains L)) true now).detector
        (FetchOutcome.batch (FetchedList.domains P) (FetchedList.domains L)) true
        now2).detector =
      (updateThreatIntelligence d
        (FetchOutcome.batch (FetchedList.domains P) (FetchedList.domains L)) true now).detector ∧
    (updateThreatIntelligence d
        (FetchOutcome.batch (FetchedList.domains P) (FetchedList.domains L)) true
        now).detector.domainCache = d.domainCache ∧
    (updateThreatIntelligence d
        (FetchOutcome.batch (FetchedList.domains P) (FetchedList.domains L)) true
        now).detector.analysisCache = d.analysisCache ∧
    (updateThreatIntelligence d
        (FetchOutcome.batch (FetchedList.domains P) (FetchedList.domains L)) true
        now).caught = false ∧
    (updateThreatIntelligence d simulatedBatch true now).detector.phishingDomains =
      ["new-phishing-site.com", "another-scam.net"].foldl setAdd d.phishingDomains := by
  rw [updateThreatIntelligence_success, updateThreatIntelligence_success]
  refine ⟨?_, ?_, ?_, ?_, setAdd_of_mem, ?_, rfl, rfl, rfl, ?_⟩
  · intro x; exact mem_foldl_setAdd P d.phishingDomains x
  · intro x; exact mem_foldl_setAdd L d.legitimateDomains x
  · exact prefix_foldl_setAdd P d.phishingDomains
  · exact prefix_foldl_setAdd L d.legitimateDomains
  · simp only [foldl_setAdd_idempotent]
  · unfold simulatedBatch
    rw [updateThreatIntelligence_success]

/-- C20, counterexample: a batch whose phishing list is an array and whose legitimate
list has no `forEach` is caught, yet the phishing list has been merged while the
whitelist is as before. -/
theorem updateThreatIntelligence_partial_merge :
    (updateThreatIntelligence initialWorld.detector
      (FetchOutcome.batch (FetchedList.domains ["new-phishing-site.com"]) FetchedList.malformed)
      true 0).caught = true ∧
    "new-phishing-site.com" ∉ initialWorld.detector.phishingDomains ∧
    "new-phishing-site.com" ∈ (updateThreatIntelligence initialWorld.detector
      (FetchOutcome.batch (FetchedList.domains ["new-phishing-site.com"]) FetchedList.malformed)
      true 0).detector.phishingDomains ∧
    (updateThreatIntelligence initialWorld.detector
      (FetchOutcome.batch (FetchedList.domains ["new-phishing-site.com"]) FetchedList.malformed)
      true 0).detector.legitimateDomains = initialWorld.detector.legitimateDomains := by
  decide

/-- C20, amended: every failure of `updateThreatIntelligence` is caught.  A rejected
fetch or a malformed phishing list leaves both sets as before; a malformed legitimate
list leaves the phishing list merged and the whitelist as before; a failing write of
the summary leaves both lists merged.  No run removes a domain or touches a cache. -/
theorem updateThreatIntelligence_failures (d : Detector) (fetched : FetchOutcome)
    (persistOk : Bool) (P L : List String) (lg : FetchedList) (now : Int) :
    updateThreatIntelligence d FetchOutcome.rejected persistOk now =
      { detector := d, persisted := none, caught := true } ∧
    updateThreatIntelligence d (FetchOutcome.batch FetchedList.malformed lg) persistOk now =
      { detector := d, persisted := none, caught := true } ∧
    updateThreatIntelligence d
        (FetchOutcome.batch (FetchedList.domains P) FetchedList.malformed) persistOk now =
      { detector := { d with phishingDomains := P.foldl setAdd d.phishingDomains }
        persisted := none, caught := true } ∧
    updateThreatIntelligence d
        (FetchOutcome.batch FetchedList.absent FetchedList.malformed) persistOk now =
      { detector := d, persisted := none, caught := true } ∧
    updateThreatIntelligence d
        (FetchOutcome.batch (FetchedList.domains P) (FetchedList.domains L)) false now =
      { detector := { d with phishingDomains := P.foldl setAdd d.phishingDomains
                             legitimateDomains := L.foldl setAdd d.legitimateDomains }
        persisted := none, caught := true } ∧
    d.phishingDomains <+: (updateThreatIntelligence d fetched persistOk
      now).detector.phishingDomains ∧
    d.legitimateDomains <+: (updateThreatIntelligence d fetched persistOk
      now).detector.legitimateDomains ∧
    (updateThreatIntelligence d fetched persistOk now).detector.domainCache = d.domainCache ∧
    (updateThreatIntelligence d fetched persistOk now).detector.analysisCache =
      d.analysisCache := by
  refine ⟨rfl, rfl, rfl, rfl, ?_, ?_, ?_, ?_, ?_⟩
  · simp [updateThreatIntelligence, mergeInto]
  all_goals
    rcases fetched with _ | _ | ⟨ph, lgt⟩
    · first | exact List.prefix_refl _ | rfl
    · first | exact List.prefix_refl _ | rfl
    · rcases ph with _ | P2 | _ <;> rcases lgt with _ | L2 | _ <;> cases persistOk <;>
        first
        | rfl
        | exact List.prefix_refl _
        | exact prefix_foldl_setAdd _ _

/-! ## Statistics -/

/-! ## Statistics accumulator -/

theorem updateStatistics_stats (st : Storage) (result : AnalysisResult) (tDefault tUpdate : Int) :
    ∃ s2 : Stats,
      (updateStatistics st result tDefault tUpdate).stats = some s2 ∧
      s2.sitesAnalyzed = (st.stats.getD (defaultStats tDefault)).sitesAnalyzed + 1 ∧
      s2.threatsBlocked = (st.stats.getD (defaultStats tDefault)).threatsBlocked +
        (if result.status = Status.phishing then 1 else 0) ∧
      s2.legitimateSites = (st.stats.getD (defaultStats tDefault)).legitimateSites +
        (if result.status = Status.legitimate then 1 else 0) ∧
      s2.suspiciousSites = (st.stats.getD (defaultStats tDefault)).suspiciousSites +
        (if result.status = Status.suspicious ∨ result.status = Status.questionable
          then 1 else 0) ∧
      s2.totalRiskScore = (st.stats.getD (defaultStats tDefault)).totalRiskScore.map
        (fun t => t + result.riskScore) ∧
      s2.protectionRate =
        (if s2.sitesAnalyzed > 0 then
          some (((s2.threatsBlocked : ℚ) / (s2.sitesAnalyzed : ℚ)) * 100) else some 0) ∧
      s2.averageRiskScore =
        (if s2.sitesAnalyzed > 0 then
          s2.totalRiskScore.map (fun t => t / (s2.sitesAnalyzed : ℚ)) else some 0) ∧
      s2.lastUpdate = some tUpdate ∧
      s2.installDate = (st.stats.getD (defaultStats tDefault)).installDate := by
  unfold updateStatistics
  cases hs : result.status <;> simp

/-- C21, at the failing input: from the statistics object written at install, one
`updateStatistics` leaves `totalRiskScore` and `averageRiskScore` undefined (`NaN`),
whatever the result; from the fallback object both equal the result's risk score. -/
theorem updateStatistics_after_install (st : Storage) (result : AnalysisResult)
    (installDate tDefault tUpdate : Int) :
    (∃ s2 : Stats,
      (updateStatistics { st with stats := some (installStats installDate) } result tDefault
        tUpdate).stats = some s2 ∧
      s2.sitesAnalyzed = 1 ∧ s2.totalRiskScore = none ∧ s2.averageRiskScore = none) ∧
    (∃ s2 : Stats,
      (updateStatistics { st with stats := none } result tDefault tUpdate).stats = some s2 ∧
      s2.sitesAnalyzed = 1 ∧ s2.totalRiskScore = some result.riskScore ∧
      s2.averageRiskScore = some result.riskScore) := by
  constructor
  · obtain ⟨s2, h, a1, _, _, _, a5, _, a7, _⟩ :=
      updateStatistics_stats { st with stats := some (installStats installDate) } result
        tDefault tUpdate
    refine ⟨s2, h, ?_, ?_, ?_⟩
    · rw [a1]; rfl
    · rw [a5]; rfl
    · rw [a7, a5]
      split_ifs <;> first | rfl | (exfalso; simp_all [installStats])
  · obtain ⟨s2, h, a1, _, _, _, a5, _, a7, _⟩ :=
      updateStatistics_stats { st with stats := none } result tDefault tUpdate
    have e1 : s2.sitesAnalyzed = 1 := by rw [a1]; rfl
    have e5 : s2.totalRiskScore = some result.riskScore := by
      rw [a5]; simp [defaultStats]
    refine ⟨s2, h, e1, e5, ?_⟩
    rw [a7, e5, e1]
    simp

/-- C29: the counters satisfy `sitesAnalyzed = threatsBlocked + legitimateSites +
suspiciousSites` in the fallback object and in the object written at install, and
`updateStatistics` keeps the equation: a `phishing` result counts as a threat, a
`legitimate` one as legitimate, a `suspicious` or `questionable` one as suspicious. -/
theorem updateStatistics_invariant (st : Storage) (s : Stats) (result : AnalysisResult)
    (tDefault tUpdate : Int)
    (hinv : s.sitesAnalyzed = s.threatsBlocked + s.legitimateSites + s.suspiciousSites) :
    (∃ s2 : Stats,
      (updateStatistics { st with stats := some s } result tDefault tUpdate).stats = some s2 ∧
      s2.sitesAnalyzed = s2.threatsBlocked + s2.legitimateSites + s2.suspiciousSites ∧
      s2.threatsBlocked = s.threatsBlocked + (if result.status = Status.phishing then 1 else 0) ∧
      s2.legitimateSites =
        s.legitimateSites + (if result.status = Status.legitimate then 1 else 0) ∧
      s2.suspiciousSites = s.suspiciousSites +
        (if result.status = Status.suspicious ∨ result.status = Status.questionable
          then 1 else 0)) ∧
    (∃ s2 : Stats,
      (updateStatistics { st with stats := none } result tDefault tUpdate).stats = some s2 ∧
      s2.sitesAnalyzed = s2.threatsBlocked + s2.legitimateSites + s2.suspiciousSites) ∧
    (∀ t : Int, (defaultStats t).sitesAnalyzed =
      (defaultStats t).threatsBlocked + (defaultStats t).legitimateSites +
        (defaultStats t).suspiciousSites) ∧
    (∀ t : Int, (installStats t).sitesAnalyzed =
      (installStats t).threatsBlocked + (installStats t).legitimateSites +
        (installStats t).suspiciousSites) := by
  refine ⟨?_, ?_, fun _ => rfl, fun _ => rfl⟩
  · obtain ⟨s2, h, a1, a2, a3, a4, _⟩ :=
      updateStatistics_stats { st with stats := some s } result tDefault tUpdate
    simp only [Option.getD_some] at a1 a2 a3 a4
    refine ⟨s2, h, ?_, a2, a3, a4⟩
    rw [a1, a2, a3, a4, hinv]
    cases result.status <;> simp <;> ring
  · obtain ⟨s2, h, a1, a2, a3, a4, _⟩ :=
      updateStatistics_stats { st with stats := none } result tDefault tUpdate
    refine ⟨s2, h, ?_⟩
    rw [a1, a2, a3, a4]
    cases result.status <;> simp [defaultStats]

theorem updateStatistics_invariant_witness :
    (installStats 0).sitesAnalyzed =
      (installStats 0).threatsBlocked + (installStats 0).legitimateSites +
        (installStats 0).suspiciousSites ∧
    (∃ s2 : Stats,
      (updateStatistics { emptyStorage with stats := some (installStats 0) } cachedVerdict 0
        0).stats = some s2 ∧
      s2.sitesAnalyzed = s2.threatsBlocked + s2.legitimateSites + s2.suspiciousSites) :=
  ⟨rfl, by
    obtain ⟨s2, h, hi, _⟩ :=
      (updateStatistics_invariant emptyStorage (installStats 0) cachedVerdict 0 0 rfl).1
    exact ⟨s2, h, hi⟩⟩

/-! ## TLS check -/

/-- C24: `checkSSLCertificate` reports `hasSSL`, score 0 and no issue exactly for a URL
that parses with the scheme `https:`; a parsed URL with another scheme gets score 25 and
the issue `No SSL certificate`, an unparseable one score 25 and the issue `Invalid URL`.
Whenever `hasSSL` is false, `calculateFinalScore` adds 25 and one reason. -/
theorem checkSSLCertificate_cases (parseURL : URLParser) (url : String) (c : Checks) (a : Acc) :
    (checkSSLCertificate parseURL url = { hasSSL := true, score := 0, issues := [] } ↔
      ∃ u, parseURL url = some u ∧ u.protocol = "https:") ∧
    ((checkSSLCertificate parseURL url).hasSSL = true ↔
      ∃ u, parseURL url = some u ∧ u.protocol = "https:") ∧
    (∀ u, parseURL url = some u → u.protocol ≠ "https:" →
      checkSSLCertificate parseURL url =
        { hasSSL := false, score := 25, issues := ["No SSL certificate"] }) ∧
    (parseURL url = none →
      checkSSLCertificate parseURL url =
        { hasSSL := false, score := 25, issues := ["Invalid URL"] }) ∧
    ((checkSSLCertificate parseURL url).hasSSL = false →
      (stepSSL { c with ssl := checkSSLCertificate parseURL url } a).riskScore =
        a.riskScore + 25 ∧
      (stepSSL { c with ssl := checkSSLCertificate parseURL url } a).reasons.length =
        a.reasons.length + 1) ∧
    ((checkSSLCertificate parseURL url).hasSSL = true →
      stepSSL { c with ssl := checkSSLCertificate parseURL url } a = a) := by
  cases hp : parseURL url with
  | none =>
    have hv : checkSSLCertificate parseURL url =
        { hasSSL := false, score := 25, issues := ["Invalid URL"] } := by
      unfold checkSSLCertificate; rw [hp]
    rw [hv]
    refine ⟨?_, ?_, ?_, fun _ => rfl, ?_, ?_⟩
    · constructor
      · intro h; simp at h
      · rintro ⟨u, hu, _⟩; cases hu
    · constructor
      · intro h; simp at h
      · rintro ⟨u, hu, _⟩; cases hu
    · intro u hu; cases hu
    · intro _; simp [stepSSL]
    · intro h; simp at h
  | some u =>
    by_cases hs : u.protocol = "https:"
    · have hv : checkSSLCertificate parseURL url = { hasSSL := true, score := 0, issues := [] } := by
        unfold checkSSLCertificate; rw [hp]; simp [hs]
      rw [hv]
      refine ⟨?_, ?_, ?_, ?_, ?_, ?_⟩
      · exact ⟨fun _ => ⟨u, rfl, hs⟩, fun _ => rfl⟩
      · exact ⟨fun _ => ⟨u, rfl, hs⟩, fun _ => rfl⟩
      · intro u2 hu2 hne; cases hu2; exact absurd hs hne
      · intro h; cases h
      · intro h; simp at h
      · intro _; simp [stepSSL]
    · have hv : checkSSLCertificate parseURL url =
          { hasSSL := false, score := 25, issues := ["No SSL certificate"] } := by
        unfold checkSSLCertificate; rw [hp]; simp [hs]
      rw [hv]
      refine ⟨?_, ?_, ?_, ?_, ?_, ?_⟩
      · constructor
        · intro h; simp at h
        · rintro ⟨u2, hu2, h2⟩; cases hu2; exact absurd h2 hs
      · constructor
        · intro h; simp at h
        · rintro ⟨u2, hu2, h2⟩; cases hu2; exact absurd h2 hs
      · intro _ _ _; rfl
      · intro h; cases h
      · intro _; simp [stepSSL]
      · intro h; simp at h

/-! ## Analysis cache lifetime -/

theorem validCachedAnalysis_of_entry (d : Detector) (key : String)
    (entry : CacheEntry AnalysisResult) (now : Int)
    (h : mapGet d.analysisCache key = some entry) :
    validCachedAnalysis d key now =
      if now - entry.timestamp < 10 * 60 * 1000 then some entry.data else none := by
  unfold validCachedAnalysis
  rw [if_pos ((mapHas_iff_mapGet _ _).mpr ⟨entry, h⟩), h]

/-- C7, refuted as worded: the first call at 0 ms computes and stores its verdict
(time stamp 150), the second call at 540000 ms is served from the cache and completes;
the third call at 601000 ms, 61 s after the second one, finds the entry expired and
analyses again, so the statistics count two analyses. -/
theorem analyzeURL_hit_keeps_timestamp :
    analyzeURL exampleParser
        (analyzeURL exampleParser initialWorld (clockAt 0) midDraws "https://example.com/").2
        (clockAt 540000) midDraws "https://example.com/" =
      analyzeURL exampleParser initialWorld (clockAt 0) midDraws "https://example.com/" ∧
    (clockAt 601000).analysisCheck - (clockAt 540000).analysisStore < 10 * 60 * 1000 ∧
    validCachedAnalysis
        (analyzeURL exampleParser
          (analyzeURL exampleParser initialWorld (clockAt 0) midDraws "https://example.com/").2
          (clockAt 540000) midDraws "https://example.com/").2.detector
        ("example.com" ++ ":" ++ "https://example.com/") (clockAt 601000).analysisCheck = none ∧
    (∃ s2 s3 : Stats,
      (analyzeURL exampleParser
          (analyzeURL exampleParser initialWorld (clockAt 0) midDraws "https://example.com/").2
          (clockAt 540000) midDraws "https://example.com/").2.storage.stats = some s2 ∧
      s2.sitesAnalyzed = 1 ∧
      (analyzeURL exampleParser
          (analyzeURL exampleParser
            (analyzeURL exampleParser initialWorld (clockAt 0) midDraws "https://example.com/").2
            (clockAt 540000) midDraws "https://example.com/").2
          (clockAt 601000) midDraws "https://example.com/").2.storage.stats = some s3 ∧
      s3.sitesAnalyzed = 2) := by
  have hdom : extractDomain exampleParser "https://example.com/" = some "example.com" := rfl
  have hne : ("example.com" : String) ≠ "" := by decide
  have hfirst := analyzeURL_of_miss exampleParser initialWorld (clockAt 0) midDraws
    "https://example.com/" "example.com" hdom hne rfl
  have hvalid : ∀ now : Int, validCachedAnalysis
      (analyzeURL exampleParser initialWorld (clockAt 0) midDraws
        "https://example.com/").2.detector
      ("example.com" ++ ":" ++ "https://example.com/") now =
      if now - (clockAt 0).analysisStore < 10 * 60 * 1000 then
        some (calculateFinalScore (performAdvancedAnalysis exampleParser initialWorld.detector
          "https://example.com/" "example.com" (clockAt 0) midDraws).1 (clockAt 0).scored)
      else none := by
    intro now
    rw [hfirst]
    exact validCachedAnalysis_after_set _ _ _ _ _ _
  have hsecond : analyzeURL exampleParser
        (analyzeURL exampleParser initialWorld (clockAt 0) midDraws "https://example.com/").2
        (clockAt 540000) midDraws "https://example.com/" =
      analyzeURL exampleParser initialWorld (clockAt 0) midDraws "https://example.com/" := by
    have hv := hvalid (clockAt 540000).analysisCheck
    rw [if_pos (by decide)] at hv
    rw [analyzeURL_of_hit exampleParser _ (clockAt 540000) midDraws "https://example.com/"
      "example.com" _ hdom hne hv]
    rw [hfirst]
  have hv3 := hvalid (clockAt 601000).analysisCheck
  rw [if_neg (by decide)] at hv3
  refine ⟨hsecond, by decide, ?_, ?_⟩
  · rw [hsecond]; exact hv3
  · rw [hsecond]
    have hthird := analyzeURL_of_miss exampleParser
      (analyzeURL exampleParser initialWorld (clockAt 0) midDraws "https://example.com/").2
      (clockAt 601000) midDraws "https://example.com/" "example.com" hdom hne hv3
    rw [hthird]
    simp only
    have hst : (analyzeURL exampleParser initialWorld (clockAt 0) midDraws
        "https://example.com/").2.storage =
        updateStatistics initialWorld.storage
          (calculateFinalScore (performAdvancedAnalysis exampleParser initialWorld.detector
            "https://example.com/" "example.com" (clockAt 0) midDraws).1 (clockAt 0).scored)
          (clockAt 0).statsDefault (clockAt 0).statsUpdate := by
      rw [hfirst]
    obtain ⟨s2, hs2, hn2, _⟩ := updateStatistics_stats initialWorld.storage
      (calculateFinalScore (performAdvancedAnalysis exampleParser initialWorld.detector
        "https://example.com/" "example.com" (clockAt 0) midDraws).1 (clockAt 0).scored)
      (clockAt 0).statsDefault (clockAt 0).statsUpdate
    rw [← hst] at hs2
    obtain ⟨s3, hs3, hn3, _⟩ := updateStatistics_stats
      (analyzeURL exampleParser initialWorld (clockAt 0) midDraws "https://example.com/").2.storage
      (calculateFinalScore (performAdvancedAnalysis exampleParser
        (analyzeURL exampleParser initialWorld (clockAt 0) midDraws
          "https://example.com/").2.detector
        "https://example.com/" "example.com" (clockAt 601000) midDraws).1 (clockAt 601000).scored)
      (clockAt 601000).statsDefault (clockAt 601000).statsUpdate
    refine ⟨s2, s3, hs2, ?_, hs3, ?_⟩
    · rw [hn2]; rfl
    · rw [hn3, hs2]
      simp only [Option.getD_some]
      rw [hn2]; rfl

/-- C7, amended: the ten minutes run from the time the entry was stored.  When a call
of `analyzeURL` finds no valid entry, it computes its verdict and stores it at
`t0 = clock.analysisStore`; a later call whose cache check reads `t1` with
`t1 - t0 < 10 min` resolves to the same verdict and leaves the whole state (both caches,
the lists, the statistics) as it was, and with `t1 - t0 ≥ 10 min` the entry is not valid,
the verdict is computed again, stored with the new time stamp and counted.  When a call
is served from an entry stored at `entry.timestamp`, it leaves the state and the time
stamp as they were, so a later call is served exactly when it is within ten minutes of
`entry.timestamp`, however recent the call in between. -/
theorem analyzeURL_cache_ttl (parseURL : URLParser) (w : World) (clock clock2 : Clock)
    (rnd rnd2 : RandomDraws) (url domain : String)
    (hdom : extractDomain parseURL url = some domain) (hne : domain ≠ "") :
    (validCachedAnalysis w.detector (domain ++ ":" ++ url) clock.analysisCheck = none →
      (clock2.analysisCheck - clock.analysisStore < 10 * 60 * 1000 →
        analyzeURL parseURL (analyzeURL parseURL w clock rnd url).2 clock2 rnd2 url =
          analyzeURL parseURL w clock rnd url) ∧
      (clock2.analysisCheck - clock.analysisStore ≥ 10 * 60 * 1000 →
        validCachedAnalysis (analyzeURL parseURL w clock rnd url).2.detector
          (domain ++ ":" ++ url) clock2.analysisCheck = none ∧
        (analyzeURL parseURL (analyzeURL parseURL w clock rnd url).2 clock2 rnd2 url).1 =
          AnalyzeOutcome.verdict (calculateFinalScore
            (performAdvancedAnalysis parseURL (analyzeURL parseURL w clock rnd url).2.detector
              url domain clock2 rnd2).1 clock2.scored) ∧
        mapGet (analyzeURL parseURL (analyzeURL parseURL w clock rnd url).2
            clock2 rnd2 url).2.detector.analysisCache (domain ++ ":" ++ url) =
          some { data := calculateFinalScore
                   (performAdvancedAnalysis parseURL
                     (analyzeURL parseURL w clock rnd url).2.detector
                     url domain clock2 rnd2).1 clock2.scored
                 timestamp := clock2.analysisStore } ∧
        (analyzeURL parseURL (analyzeURL parseURL w clock rnd url).2 clock2 rnd2
            url).2.storage =
          updateStatistics (analyzeURL parseURL w clock rnd url).2.storage
            (calculateFinalScore
              (performAdvancedAnalysis parseURL (analyzeURL parseURL w clock rnd url).2.detector
                url domain clock2 rnd2).1 clock2.scored)
            clock2.statsDefault clock2.statsUpdate)) ∧
    (∀ entry : CacheEntry AnalysisResult,
      mapGet w.detector.analysisCache (domain ++ ":" ++ url) = some entry →
      clock.analysisCheck - entry.timestamp < 10 * 60 * 1000 →
        analyzeURL parseURL w clock rnd url = (AnalyzeOutcome.verdict entry.data, w) ∧
        (clock2.analysisCheck - entry.timestamp < 10 * 60 * 1000 →
          analyzeURL parseURL (analyzeURL parseURL w clock rnd url).2 clock2 rnd2 url =
            (AnalyzeOutcome.verdict entry.data, w)) ∧
        (clock2.analysisCheck - entry.timestamp ≥ 10 * 60 * 1000 →
          validCachedAnalysis (analyzeURL parseURL w clock rnd url).2.detector
            (domain ++ ":" ++ url) clock2.analysisCheck = none ∧
          (analyzeURL parseURL (analyzeURL parseURL w clock rnd url).2 clock2 rnd2 url).1 =
            AnalyzeOutcome.verdict (calculateFinalScore
              (performAdvancedAnalysis parseURL w.detector url domain clock2 rnd2).1
              clock2.scored) ∧
          (analyzeURL parseURL (analyzeURL parseURL w clock rnd url).2 clock2 rnd2
              url).2.storage =
            updateStatistics w.storage
              (calculateFinalScore
                (performAdvancedAnalysis parseURL w.detector url domain clock2 rnd2).1
                clock2.scored)
              clock2.statsDefault clock2.statsUpdate)) := by
  constructor
  · intro hmiss
    have hfirst := analyzeURL_of_miss parseURL w clock rnd url domain hdom hne hmiss
    have hvalid : validCachedAnalysis (analyzeURL parseURL w clock rnd url).2.detector
        (domain ++ ":" ++ url) clock2.analysisCheck =
        if clock2.analysisCheck - clock.analysisStore < 10 * 60 * 1000 then
          some (calculateFinalScore
            (performAdvancedAnalysis parseURL w.detector url domain clock rnd).1 clock.scored)
        else none := by
      rw [hfirst]
      exact validCachedAnalysis_after_set _ _ _ _ _ _
    constructor
    · intro hlt
      rw [if_pos hlt] at hvalid
      rw [analyzeURL_of_hit parseURL (analyzeURL parseURL w clock rnd url).2 clock2 rnd2 url
        domain _ hdom hne hvalid]
      rw [hfirst]
    · intro hge
      rw [if_neg (not_lt.mpr hge)] at hvalid
      have hsecond := analyzeURL_of_miss parseURL (analyzeURL parseURL w clock rnd url).2 clock2
        rnd2 url domain hdom hne hvalid
      refine ⟨hvalid, ?_, ?_, ?_⟩
      · rw [hsecond]
      · rw [hsecond]
        exact mapGet_mapSet_self _ _ _
      · rw [hsecond]
  · intro entry hentry hlt
    have hv1 := validCachedAnalysis_of_entry w.detector _ entry clock.analysisCheck hentry
    rw [if_pos hlt] at hv1
    have h1 := analyzeURL_of_hit parseURL w clock rnd url domain entry.data hdom hne hv1
    refine ⟨h1, ?_, ?_⟩
    · intro hlt2
      have hv2 := validCachedAnalysis_of_entry w.detector _ entry clock2.analysisCheck hentry
      rw [if_pos hlt2] at hv2
      rw [h1]
      exact analyzeURL_of_hit parseURL w clock2 rnd2 url domain entry.data hdom hne hv2
    · intro hge
      have hv2 := validCachedAnalysis_of_entry w.detector _ entry clock2.analysisCheck hentry
      rw [if_neg (not_lt.mpr hge)] at hv2
      have h2 := analyzeURL_of_miss parseURL w clock2 rnd2 url domain hdom hne hv2
      rw [h1]
      refine ⟨hv2, ?_, ?_⟩
      · rw [h2]
      · rw [h2]

theorem analyzeURL_cache_ttl_witness :
    extractDomain exampleParser "https://example.com/" = some "example.com" ∧
    ("example.com" : String) ≠ "" ∧
    validCachedAnalysis initialWorld.detector ("example.com" ++ ":" ++ "https://example.com/")
      (clockAt 0).analysisCheck = none ∧
    (clockAt 599999).analysisCheck - (clockAt 0).analysisStore < 10 * 60 * 1000 ∧
    analyzeURL exampleParser
        (analyzeURL exampleParser initialWorld (clockAt 0) midDraws "https://example.com/").2
        (clockAt 599999) midDraws "https://example.com/" =
      analyzeURL exampleParser initialWorld (clockAt 0) midDraws "https://example.com/" :=
  ⟨rfl, by decide, rfl, by decide,
    ((analyzeURL_cache_ttl exampleParser initialWorld (clockAt 0) (clockAt 599999) midDraws
      midDraws "https://example.com/" "example.com" rfl (by decide)).1 rfl).1 (by decide)⟩

/-! ## Risk score and rounding -/

theorem alertScenario_checks (clock : Clock) :
    (performAdvancedAnalysis alertParser initialWorld.detector
      "http://security.example/alert" "security.example" clock neutralDraws).1.checks =
      { reputation := { status := RepStatus.unknown, confidence := 0.5, source := "api" }
        ssl := { hasSSL := false, score := 25, issues := ["No SSL certificate"] }
        domainAge := { days := 230, category := AgeCategory.recent }
        patterns := { totalWeight := 0, matchedPatterns := [] }
        keywords := { keywordScore := 75 / 2
                      matchedKeywords := [{ word := "security", context := 1, score := 75 / 2 }] }
        homograph := { detected := false, score := 0, characters := [] }
        structure_ := { structureScore := 0, issues := [] }
        redirects := { hasSuspiciousRedirects := false, score := 0, redirectChain := [] } } := by
  have hrep : (checkDomainReputation initialWorld.detector "security.example"
      clock.reputationCheck clock.reputationStore neutralDraws.reputation).1 =
      { status := RepStatus.unknown, confidence := 0.5, source := "api" } := by
    rw [checkDomainReputation_of_miss initialWorld.detector "security.example"
      clock.reputationCheck clock.reputationStore neutralDraws.reputation rfl]
    unfold resolveReputation
    rw [if_neg (by decide), if_neg (by decide), if_neg (by decide)]
    norm_num [neutralDraws]
  have hssl : checkSSLCertificate alertParser "http://security.example/alert" =
      { hasSSL := false, score := 25, issues := ["No SSL certificate"] } := by decide
  have hage : calculateDomainAge "security.example" neutralDraws.age =
      { days := 230, category := AgeCategory.recent } := by
    unfold calculateDomainAge
    rw [if_neg (by decide), if_neg (by decide)]
    have hx : neutralDraws.age * 2000 = ((200 : ℕ) : ℚ) := by norm_num [neutralDraws]
    have hf : ⌊toDouble (neutralDraws.age * 2000)⌋ = 200 := by
      rw [hx, toDouble_natCast 200 (by norm_num)]
      exact Int.floor_natCast 200
    simp only [hf]
    rfl
  have hpat : checkSuspiciousPatterns "http://security.example/alert" =
      { totalWeight := 0, matchedPatterns := [] } := by decide
  have hkw : checkPhishingKeywords "security.example" "http://security.example/alert" =
      { keywordScore := 75 / 2
        matchedKeywords := [{ word := "security", context := 1, score := 75 / 2 }] } := by
    unfold checkPhishingKeywords
    rw [foldl_keywordStep]
    have h1 : contributes "security.example" "http://security.example/alert"
        { word := "paypal", context := ["secure", "verify", "suspended"], weight := 40 } = false := by
      decide
    have h2 : contributes "security.example" "http://security.example/alert"
        { word := "amazon", context := ["account", "suspended", "verify"], weight := 35 } = false := by
      decide
    have h3 : contributes "security.example" "http://security.example/alert"
        { word := "apple", context := ["id", "locked", "verify"], weight := 35 } = false := by
      decide
    have h4 : contributes "security.example" "http://security.example/alert"
        { word := "microsoft", context := ["account", "security", "verify"], weight := 30 } = false := by
      decide
    have h5 : contributes "security.example" "http://security.example/alert"
        { word := "google", context := ["account", "suspended", "verify"], weight := 30 } = false := by
      decide
    have h6 : contributes "security.example" "http://security.example/alert"
        { word := "bank", context := ["account", "suspended", "verify"], weight := 45 } = false := by
      decide
    have h7 : contributes "security.example" "http://security.example/alert"
        { word := "security", context := ["alert", "warning", "breach"], weight := 25 } = true := by
      decide
    have h8 : contextHits "security.example" "http://security.example/alert"
        { word := "security", context := ["alert", "warning", "breach"], weight := 25 } = 1 := by
      decide
    simp only [phishingKeywords, List.map_cons, List.map_nil, List.filter_cons, List.filter_nil,
      specKeywordContribution, h1, h2, h3, h4, h5, h6, h7, h8, if_true, if_false,
      List.sum_cons, List.sum_nil, List.nil_append, Bool.false_eq_true]
    norm_num
  have hhom : checkHomographAttacks "security.example" =
      { detected := false, score := 0, characters := [] } := by decide
  have hstr : analyzeDomainStructure "security.example" =
      { structureScore := 0, issues := [] } := by
    decide
  have hred : checkURLRedirects alertParser "http://security.example/alert" =
      { hasSuspiciousRedirects := false, score := 0, redirectChain := [] } := by decide
  unfold performAdvancedAnalysis
  simp only [hrep, hssl, hage, hpat, hkw, hhom, hstr, hred]

theorem mathRound_near (x : ℚ) : |mathRound x - x| ≤ 1 / 2 := by
  unfold mathRound
  have h1 := Int.floor_le (x + 1 / 2)
  have h2 := Int.lt_floor_add_one (x + 1 / 2)
  rw [abs_le]
  constructor <;> linarith

/-- C2, refuted as worded: for `http://security.example/alert` (no HTTPS, the keyword
`security` with the context term `alert`, unknown reputation, `recent` age) the clamped
sum of the terms is 62.5, but the risk score that `calculateFinalScore` returns is 63. -/
theorem calculateFinalScore_riskScore_rounded :
    max 0 (min 100 (specRiskSum (performAdvancedAnalysis alertParser initialWorld.detector
      "http://security.example/alert" "security.example" (clockAt 0)
        neutralDraws).1.checks)) = 125 / 2 ∧
    (calculateFinalScore (performAdvancedAnalysis alertParser initialWorld.detector
      "http://security.example/alert" "security.example" (clockAt 0) neutralDraws).1
        150).riskScore = 63 := by
  have hs : max 0 (min 100 (specRiskSum (performAdvancedAnalysis alertParser
      initialWorld.detector "http://security.example/alert" "security.example" (clockAt 0)
        neutralDraws).1.checks)) = 125 / 2 := by
    rw [alertScenario_checks]
    norm_num [specRiskSum]
  refine ⟨hs, ?_⟩
  have h1 : (calculateFinalScore (performAdvancedAnalysis alertParser initialWorld.detector
      "http://security.example/alert" "security.example" (clockAt 0) neutralDraws).1
        150).riskScore =
      mathRound (clampedRisk (performAdvancedAnalysis alertParser initialWorld.detector
        "http://security.example/alert" "security.example" (clockAt 0) neutralDraws).1) := rfl
  rw [h1, clampedRisk_eq_spec, hs]
  unfold mathRound
  norm_num

/-- C2, amended: for the signal outputs that `performAdvancedAnalysis` assembles from
the extractors, the local risk of `calculateFinalScore` after line 545 is the clamp to
`[0, 100]` of the sum of the eight terms of the specification, the status is chosen
from this local, and the returned `riskScore` is `Math.round` of it, an integer that
differs from the clamp by at most one half. -/
theorem calculateFinalScore_riskScore_eq_spec (parseURL : URLParser) (d : Detector)
    (url domain : String) (clock : Clock) (rnd : RandomDraws) (now : Int) :
    clampedRisk (performAdvancedAnalysis parseURL d url domain clock rnd).1 =
      max 0 (min 100
        (specRiskSum (performAdvancedAnalysis parseURL d url domain clock rnd).1.checks)) ∧
    (calculateFinalScore (performAdvancedAnalysis parseURL d url domain clock rnd).1
        now).riskScore =
      mathRound (max 0 (min 100
        (specRiskSum (performAdvancedAnalysis parseURL d url domain clock rnd).1.checks))) ∧
    (calculateFinalScore (performAdvancedAnalysis parseURL d url domain clock rnd).1
        now).status =
      (verdictOf (max 0 (min 100
        (specRiskSum (performAdvancedAnalysis parseURL d url domain clock rnd).1.checks)))).1 ∧
    |(calculateFinalScore (performAdvancedAnalysis parseURL d url domain clock rnd).1
        now).riskScore -
      max 0 (min 100
        (specRiskSum (performAdvancedAnalysis parseURL d url domain clock rnd).1.checks))| ≤
      1 / 2 := by
  have hc := clampedRisk_eq_spec parseURL d url domain clock rnd
  have h1 : (calculateFinalScore (performAdvancedAnalysis parseURL d url domain clock rnd).1
      now).riskScore =
      mathRound (clampedRisk (performAdvancedAnalysis parseURL d url domain clock rnd).1) := rfl
  have h2 : (calculateFinalScore (performAdvancedAnalysis parseURL d url domain clock rnd).1
      now).status =
      (verdictOf (clampedRisk (performAdvancedAnalysis parseURL d url domain clock rnd).1)).1 :=
    rfl
  rw [h1, h2, hc]
  exact ⟨rfl, rfl, rfl, mathRound_near _⟩

/-! ## Confidence -/

theorem accumulate_confidence (c : Checks) :
    (accumulate c).confidence =
      if c.reputation.status = RepStatus.unknown then 1 / 2
      else max (1 / 2) c.reputation.confidence := by
  have e1 : (stepReputation c { riskScore := 0, confidence := 1 / 2, reasons := [] }).confidence =
      if c.reputation.status = RepStatus.unknown then 1 / 2
      else max (1 / 2) c.reputation.confidence := by
    unfold stepReputation
    cases hst : c.reputation.status <;> simp
  have e2 : ∀ a, (stepSSL c a).confidence = a.confidence := by
    intro a; unfold stepSSL; split_ifs <;> rfl
  have e3 : ∀ a, (stepAge c a).confidence = a.confidence := by
    intro a; unfold stepAge; split_ifs <;> rfl
  have e4 : ∀ a, (stepPatterns c a).confidence = a.confidence := by
    intro a; unfold stepPatterns; split_ifs <;> rfl
  have e5 : ∀ a, (stepKeywords c a).confidence = a.confidence := by
    intro a; unfold stepKeywords; split_ifs <;> rfl
  have e6 : ∀ a, (stepHomograph c a).confidence = a.confidence := by
    intro a; unfold stepHomograph; split_ifs <;> rfl
  have e7 : ∀ a, (stepStructure c a).confidence = a.confidence := by
    intro a; unfold stepStructure; split_ifs <;> rfl
  have e8 : ∀ a, (stepRedirects c a).confidence = a.confidence := by
    intro a; unfold stepRedirects; split_ifs <;> rfl
  unfold accumulate
  rw [e8, e7, e6, e5, e4, e3, e2, e1]

theorem mathRound_toDouble_percent (c : ℚ) (hlo : 1 / 2 ≤ c) (hhi : c ≤ 1) :
    ∃ n : Int, mathRound (toDouble (c * 100)) = (n : ℚ) ∧ 50 ≤ n ∧ n ≤ 100 := by
  have hu : ulpExponent (c * 100) ≤ 0 := by
    have := ulpExponent_le (c * 100) 7
      (by rw [abs_of_nonneg (by linarith)]; norm_num; linarith) (by norm_num)
    omega
  have h1 := le_toDouble (c * 100) 50 0 hu (by norm_num; linarith)
  have h2 := toDouble_le (c * 100) 100 0 hu (by norm_num; linarith)
  norm_num at h1 h2
  refine ⟨⌊toDouble (c * 100) + 1 / 2⌋, rfl, ?_, ?_⟩
  · apply Int.le_floor.mpr
    push_cast
    linarith
  · have : ⌊toDouble (c * 100) + 1 / 2⌋ < 101 := by
      apply Int.floor_lt.mpr
      push_cast
      linarith
    omega

theorem mathRound_toDouble_rounded :
    mathRound (toDouble ((6079859496950169 / 9007199254740992 : ℚ) * 100)) = 68 := by
  have h3 : toDouble ((6079859496950169 / 9007199254740992 : ℚ) * 100) = 135 / 2 := by
    apply toDouble_eq_of_below _ _ 6 (135 * 2 ^ 45) (by norm_num)
    · rw [abs_of_nonneg (by norm_num)]; norm_num
    · rw [abs_of_nonneg (by norm_num)]; norm_num
    · norm_num
    · norm_num
    · norm_num
  rw [h3]
  unfold mathRound
  norm_num

/-- C22: for a reputation confidence of at most 1 (in particular one in `[0, 1]`) the
local `confidence` ends as 0.5 for an unknown reputation and as
`max(0.5, reputation.confidence)` otherwise; the returned confidence is `Math.round` of
the binary64 product of this value and 100, an integer between 50 and 100: 50 for
unknown, and 95, 98, 90 for a blacklist, whitelist, allow-pattern entry, whether its
confidence is read as the decimal or as the binary64 number nearest to it.  The
product is rounded before `Math.round`: the binary64 confidence `0.6749999999999999`
is returned as 68. -/
theorem calculateFinalScore_confidence (analysis : Analysis) (now : Int)
    (h1 : analysis.checks.reputation.confidence ≤ 1) :
    (accumulate analysis.checks).confidence =
      (if analysis.checks.reputation.status = RepStatus.unknown then 1 / 2
        else max (1 / 2) analysis.checks.reputation.confidence) ∧
    (calculateFinalScore analysis now).confidence =
      mathRound (toDouble ((accumulate analysis.checks).confidence * 100)) ∧
    (∃ n : Int, (calculateFinalScore analysis now).confidence = (n : ℚ) ∧ 50 ≤ n ∧ n ≤ 100) ∧
    (analysis.checks.reputation.status = RepStatus.unknown →
      (calculateFinalScore analysis now).confidence = 50) ∧
    (analysis.checks.reputation.status ≠ RepStatus.unknown →
      |analysis.checks.reputation.confidence - 0.95| ≤ 1 / 1000 →
      (calculateFinalScore analysis now).confidence = 95) ∧
    (analysis.checks.reputation.status ≠ RepStatus.unknown →
      |analysis.checks.reputation.confidence - 0.98| ≤ 1 / 1000 →
      (calculateFinalScore analysis now).confidence = 98) ∧
    (analysis.checks.reputation.status ≠ RepStatus.unknown →
      |analysis.checks.reputation.confidence - 0.90| ≤ 1 / 1000 →
      (calculateFinalScore analysis now).confidence = 90) ∧
    (analysis.checks.reputation.status ≠ RepStatus.unknown →
      analysis.checks.reputation.confidence = 6079859496950169 / 9007199254740992 →
      (calculateFinalScore analysis now).confidence = 68 ∧
      (accumulate analysis.checks).confidence * 100 < 67.5) := by
  have hc := accumulate_confidence analysis.checks
  have hr : (calculateFinalScore analysis now).confidence =
      mathRound (toDouble ((accumulate analysis.checks).confidence * 100)) := rfl
  have hlo : (1 : ℚ) / 2 ≤ (accumulate analysis.checks).confidence := by
    rw [hc]; split_ifs
    · exact le_refl _
    · exact le_max_left _ _
  have hhi : (accumulate analysis.checks).confidence ≤ 1 := by
    rw [hc]; split_ifs
    · norm_num
    · exact max_le (by norm_num) h1
  have near : ∀ (v : ℚ) (n : Int), 1 ≤ n → n ≤ 100 → v * 100 = n → (1 : ℚ) / 2 ≤ v - 1 / 1000 →
      analysis.checks.reputation.status ≠ RepStatus.unknown →
      |analysis.checks.reputation.confidence - v| ≤ 1 / 1000 →
      (calculateFinalScore analysis now).confidence = n := by
    intro v n hn1 hn2 hv hvl hs hd
    obtain ⟨dl, dr⟩ := abs_le.mp hd
    rw [hr, hc, if_neg hs, max_eq_right (by linarith)]
    apply mathRound_toDouble_near _ n hn1 hn2
    rw [abs_le]
    constructor <;> linarith
  refine ⟨hc, hr, ?_, ?_, near 0.95 95 (by norm_num) (by norm_num) (by norm_num) (by norm_num),
    near 0.98 98 (by norm_num) (by norm_num) (by norm_num) (by norm_num),
    near 0.90 90 (by norm_num) (by norm_num) (by norm_num) (by norm_num), ?_⟩
  · rw [hr]
    exact mathRound_toDouble_percent _ hlo hhi
  · intro hs
    rw [hr, hc, if_pos hs]
    have := mathRound_toDouble_near ((1 / 2 : ℚ) * 100) 50 (by norm_num) (by norm_num)
      (by norm_num)
    simpa using this
  · intro hs hv
    have hcv : (accumulate analysis.checks).confidence =
        6079859496950169 / 9007199254740992 := by
      rw [hc, if_neg hs, hv, max_eq_right (by norm_num)]
    rw [hr, hcv]
    exact ⟨mathRound_toDouble_rounded, by norm_num⟩

theorem calculateFinalScore_confidence_witness :
    roundedConfidenceAnalysis.checks.reputation.confidence ≤ 1 ∧
    (calculateFinalScore roundedConfidenceAnalysis 0).confidence = 68 :=
  ⟨by norm_num [roundedConfidenceAnalysis],
    ((calculateFinalScore_confidence roundedConfidenceAnalysis 0
      (by norm_num [roundedConfidenceAnalysis])).2.2.2.2.2.2.2 (by decide) rfl).1⟩

/-! ## Domain age -/

theorem floor_toDouble_scaled (rand : ℚ) (hd : isDouble rand = true) (h0 : 0 ≤ rand)
    (h1 : rand < 1) :
    0 ≤ ⌊toDouble (rand * 30)⌋ ∧ ⌊toDouble (rand * 30)⌋ < 30 ∧
    0 ≤ ⌊toDouble (rand * 2000)⌋ ∧ ⌊toDouble (rand * 2000)⌋ < 2000 := by
  have hr := isDouble_lt_one rand hd h0 h1
  have ha : toDouble (rand * 30) < ((30 * 2 ^ 48 : Int) : ℚ) * 2 ^ (-48 : Int) := by
    apply toDouble_lt
    · have := ulpExponent_le (rand * 30) 5
        (by rw [abs_of_nonneg (by positivity)]; norm_num; linarith) (by norm_num)
      omega
    · norm_num at hr ⊢
      linarith
  have hb : toDouble (rand * 2000) < ((2000 * 2 ^ 42 : Int) : ℚ) * 2 ^ (-42 : Int) := by
    apply toDouble_lt
    · have := ulpExponent_le (rand * 2000) 11
        (by rw [abs_of_nonneg (by positivity)]; norm_num; linarith) (by norm_num)
      omega
    · norm_num at hr ⊢
      linarith
  norm_num at ha hb
  refine ⟨Int.floor_nonneg.mpr (toDouble_nonneg _ (by positivity)), Int.floor_lt.mpr (by exact_mod_cast ha),
    Int.floor_nonneg.mpr (toDouble_nonneg _ (by positivity)), Int.floor_lt.mpr (by exact_mod_cast hb)⟩

theorem calculateDomainAge_rounded_product :
    (calculateDomainAge "example.com" (131730289100587 / 2251799813685248)).days = 147 := by
  have h3 : toDouble ((131730289100587 / 2251799813685248 : ℚ) * 2000) = 117 := by
    apply toDouble_eq_of_tie _ _ 6 (117 * 2 ^ 46) (by norm_num)
    · rw [abs_of_nonneg (by norm_num)]; norm_num
    · rw [abs_of_nonneg (by norm_num)]; norm_num
    · norm_num
    · norm_num
    · norm_num
  unfold calculateDomainAge
  rw [if_neg (by decide), if_neg (by decide)]
  simp only [h3]
  norm_num

theorem isDouble_example : isDouble (131730289100587 / 2251799813685248) = true := by
  unfold isDouble
  rw [beq_iff_eq]
  apply toDouble_eq_self _ 131730289100587 (-51)
  · have := ulpExponent_le (131730289100587 / 2251799813685248) 1
      (by rw [abs_of_nonneg (by norm_num)]; norm_num) (by norm_num)
    omega
  · norm_num

/-- C28: for a reading of the random source, a binary64 number in `[0, 1)`, the days
are never negative and the category is the one the thresholds 30, 90 and 365 give for
the days (the label `formatDomainAge` prints agrees with it); outside the two
hard-coded lists the days are at least 30, so `very_new` comes exactly for the five new
domains, and the six old domains get `established` with 3000 to 4999 days.  The days
are the floor of the binary64 product: the reading `0.058499999999999996` gives 147
days although the exact product is below 117 (a tie, rounded to the even 117). -/
theorem calculateDomainAge_consistent (domain : String) (rand : ℚ)
    (hd : isDouble rand = true) (h0 : 0 ≤ rand) (h1 : rand < 1) :
    0 ≤ (calculateDomainAge domain rand).days ∧
    ((calculateDomainAge domain rand).category = AgeCategory.very_new ↔
      (calculateDomainAge domain rand).days < 30) ∧
    ((calculateDomainAge domain rand).category = AgeCategory.new ↔
      30 ≤ (calculateDomainAge domain rand).days ∧ (calculateDomainAge domain rand).days < 90) ∧
    ((calculateDomainAge domain rand).category = AgeCategory.recent ↔
      90 ≤ (calculateDomainAge domain rand).days ∧ (calculateDomainAge domain rand).days < 365) ∧
    ((calculateDomainAge domain rand).category = AgeCategory.established ↔
      365 ≤ (calculateDomainAge domain rand).days) ∧
    (domain ∉ newDomains → 30 ≤ (calculateDomainAge domain rand).days) ∧
    ((calculateDomainAge domain rand).category = AgeCategory.very_new ↔ domain ∈ newDomains) ∧
    (domain ∈ oldDomains →
      (calculateDomainAge domain rand).category = AgeCategory.established ∧
      3000 ≤ (calculateDomainAge domain rand).days ∧
      (calculateDomainAge domain rand).days < 5000) ∧
    newDomains.length = 5 ∧ oldDomains.length = 6 ∧
    (∃ front, formatDomainAge (calculateDomainAge domain rand).days
        (calculateDomainAge domain rand).category =
      front ++ ageLabel (calculateDomainAge domain rand).category) ∧
    ((calculateDomainAge "example.com" (131730289100587 / 2251799813685248)).days = 147 ∧
      (131730289100587 / 2251799813685248 : ℚ) * 2000 < 117) := by
  have hfmt : ∀ (days : Int) (cat : AgeCategory),
      (cat = AgeCategory.very_new ↔ days < 30) →
      (cat = AgeCategory.new ↔ 30 ≤ days ∧ days < 90) →
      (cat = AgeCategory.recent ↔ 90 ≤ days ∧ days < 365) →
      (cat = AgeCategory.established ↔ 365 ≤ days) →
      ∃ front, formatDomainAge days cat = front ++ ageLabel cat := by
    intro days cat c1 c2 c3 c4
    unfold formatDomainAge
    by_cases d1 : days < 30
    · rw [if_pos d1, c1.mpr d1]
      exact ⟨intToString days ++ " days ", by simp [ageLabel, String.append_assoc]⟩
    · rw [if_neg d1]
      by_cases d2 : days < 90
      · rw [if_pos d2, c2.mpr ⟨by omega, d2⟩]
        exact ⟨intToString ⌊(days : ℚ) / 30⌋ ++ " months ", by simp [ageLabel, String.append_assoc]⟩
      · rw [if_neg d2]
        by_cases d3 : days < 365
        · rw [if_pos d3, c3.mpr ⟨by omega, d3⟩]
          exact ⟨intToString ⌊(days : ℚ) / 30⌋ ++ " months ",
            by simp [ageLabel, String.append_assoc]⟩
        · rw [if_neg d3, c4.mpr (by omega)]
          exact ⟨intToString ⌊(days : ℚ) / 365⌋ ++ " years ",
            by simp [ageLabel, String.append_assoc]⟩
  suffices hmain :
      0 ≤ (calculateDomainAge domain rand).days ∧
      ((calculateDomainAge domain rand).category = AgeCategory.very_new ↔
        (calculateDomainAge domain rand).days < 30) ∧
      ((calculateDomainAge domain rand).category = AgeCategory.new ↔
        30 ≤ (calculateDomainAge domain rand).days ∧
          (calculateDomainAge domain rand).days < 90) ∧
      ((calculateDomainAge domain rand).category = AgeCategory.recent ↔
        90 ≤ (calculateDomainAge domain rand).days ∧
          (calculateDomainAge domain rand).days < 365) ∧
      ((calculateDomainAge domain rand).category = AgeCategory.established ↔
        365 ≤ (calculateDomainAge domain rand).days) ∧
      (domain ∉ newDomains → 30 ≤ (calculateDomainAge domain rand).days) ∧
      ((calculateDomainAge domain rand).category = AgeCategory.very_new ↔
        domain ∈ newDomains) ∧
      (domain ∈ oldDomains →
        (calculateDomainAge domain rand).category = AgeCategory.established ∧
        3000 ≤ (calculateDomainAge domain rand).days ∧
        (calculateDomainAge domain rand).days < 5000) ∧
      newDomains.length = 5 ∧ oldDomains.length = 6 by
    obtain ⟨m0, m1, m2, m3, m4, m5, m6, m7, m8, m9⟩ := hmain
    exact ⟨m0, m1, m2, m3, m4, m5, m6, m7, m8, m9, hfmt _ _ m1 m2 m3 m4,
      calculateDomainAge_rounded_product, by norm_num⟩
  have hdisj : ∀ x, x ∈ oldDomains → x ∉ newDomains := by
    intro x hx hn
    simp only [oldDomains, List.mem_cons, List.mem_singleton, List.not_mem_nil, or_false] at hx
    rcases hx with h | h | h | h | h | h <;> subst h <;> revert hn <;> decide
  obtain ⟨a0b, a1b, b0b, b1b⟩ := floor_toDouble_scaled rand hd h0 h1
  by_cases hn : domain ∈ newDomains
  · have hv : calculateDomainAge domain rand =
        { days := ⌊toDouble (rand * 30)⌋, category := AgeCategory.very_new } := by
      unfold calculateDomainAge; rw [if_pos hn]
    rw [hv]
    refine ⟨a0b, ?_, ?_, ?_, ?_, ?_, ?_, ?_, rfl, rfl⟩
    · exact ⟨fun _ => a1b, fun _ => rfl⟩
    · constructor
      · intro h; cases h
      · rintro ⟨h, _⟩; simp only at h; omega
    · constructor
      · intro h; cases h
      · rintro ⟨h, _⟩; simp only at h; omega
    · constructor
      · intro h; cases h
      · intro h; simp only at h; omega
    · intro h; exact absurd hn h
    · exact ⟨fun _ => hn, fun _ => rfl⟩
    · intro ho; exact absurd hn (hdisj domain ho)
  · by_cases ho : domain ∈ oldDomains
    · have hv : calculateDomainAge domain rand =
          { days := 3000 + ⌊toDouble (rand * 2000)⌋, category := AgeCategory.established } := by
        unfold calculateDomainAge; rw [if_neg hn, if_pos ho]
      rw [hv]
      refine ⟨by simp only; omega, ?_, ?_, ?_, ?_, ?_, ?_, ?_, rfl, rfl⟩
      · constructor
        · intro h; cases h
        · intro h; simp only at h; omega
      · constructor
        · intro h; cases h
        · rintro ⟨_, h⟩; simp only at h; omega
      · constructor
        · intro h; cases h
        · rintro ⟨_, h⟩; simp only at h; omega
      · exact ⟨fun _ => by simp only; omega, fun _ => rfl⟩
      · intro _; simp only; omega
      · constructor
        · intro h; cases h
        · intro h; exact absurd h hn
      · intro _; exact ⟨rfl, by simp only; omega, by simp only; omega⟩
    · have hv : calculateDomainAge domain rand =
          { days := ⌊toDouble (rand * 2000)⌋ + 30
            category :=
              if ⌊toDouble (rand * 2000)⌋ + 30 < 30 then AgeCategory.very_new
              else if ⌊toDouble (rand * 2000)⌋ + 30 < 90 then AgeCategory.new
              else if ⌊toDouble (rand * 2000)⌋ + 30 < 365 then AgeCategory.recent
              else AgeCategory.established } := by
        unfold calculateDomainAge; rw [if_neg hn, if_neg ho]
      rw [hv]
      simp only
      have hnot : ¬ ⌊toDouble (rand * 2000)⌋ + 30 < 30 := by omega
      rw [if_neg hnot]
      refine ⟨by omega, ?_, ?_, ?_, ?_, ?_, ?_, ?_, rfl, rfl⟩
      · constructor
        · intro h; split_ifs at h
        · intro h; omega
      · constructor
        · intro h; split_ifs at h with h2 h3
          exact ⟨by omega, h2⟩
        · rintro ⟨_, h⟩; rw [if_pos h]
      · constructor
        · intro h; split_ifs at h with h2 h3
          exact ⟨by omega, h3⟩
        · rintro ⟨h2, h3⟩; rw [if_neg (by omega), if_pos h3]
      · constructor
        · intro h; split_ifs at h with h2 h3
          omega
        · intro h; rw [if_neg (by omega), if_neg (by omega)]
      · intro _; omega
      · constructor
        · intro h; split_ifs at h
        · intro h; exact absurd h hn
      · intro h; exact absurd h ho

theorem calculateDomainAge_consistent_witness :
    isDouble (131730289100587 / 2251799813685248) = true ∧
    (0 : ℚ) ≤ 131730289100587 / 2251799813685248 ∧
    (131730289100587 / 2251799813685248 : ℚ) < 1 ∧
    ((calculateDomainAge "example.com" (131730289100587 / 2251799813685248)).category =
        AgeCategory.recent ↔
      90 ≤ (calculateDomainAge "example.com" (131730289100587 / 2251799813685248)).days ∧
        (calculateDomainAge "example.com" (131730289100587 / 2251799813685248)).days < 365) :=
  ⟨isDouble_example, by norm_num, by norm_num,
    (calculateDomainAge_consistent "example.com" (131730289100587 / 2251799813685248)
      isDouble_example (by norm_num) (by norm_num)).2.2.2.1⟩

/-! ## Risk levels of the overlay -/

/-! ## Rounding and the verdict thresholds -/

theorem isStepOfRisk_of_int (n : Int) (h : 5 ∣ n) : isStepOfRisk (n : ℚ) := by
  obtain ⟨m, rfl⟩ := h
  exact ⟨2 * m, by push_cast; ring⟩

theorem isStepOfRisk_add {x y : ℚ} (hx : isStepOfRisk x) (hy : isStepOfRisk y) :
    isStepOfRisk (x + y) := by
  obtain ⟨a, rfl⟩ := hx
  obtain ⟨b, rfl⟩ := hy
  exact ⟨a + b, by push_cast; ring⟩

theorem isStepOfRisk_min {x y : ℚ} (hx : isStepOfRisk x) (hy : isStepOfRisk y) :
    isStepOfRisk (min x y) := by
  rcases min_choice x y with h | h <;> rw [h] <;> assumption

theorem isStepOfRisk_max {x y : ℚ} (hx : isStepOfRisk x) (hy : isStepOfRisk y) :
    isStepOfRisk (max x y) := by
  rcases max_choice x y with h | h <;> rw [h] <;> assumption

theorem isStepOfRisk_sum (l : List ℚ) (h : ∀ x ∈ l, isStepOfRisk x) : isStepOfRisk l.sum := by
  induction l with
  | nil => exact ⟨0, by simp⟩
  | cons a rest ih =>
    rw [List.sum_cons]
    exact isStepOfRisk_add (h a (List.mem_cons_self _ _))
      (ih (fun x hx => h x (List.mem_cons_of_mem _ hx)))

theorem suspiciousPatterns_weight_dvd : ∀ p ∈ suspiciousPatterns, (5 : Int) ∣ p.weight := by
  intro p hp
  simp only [suspiciousPatterns, List.mem_cons, List.mem_singleton, List.not_mem_nil,
    or_false] at hp
  rcases hp with h | h | h | h | h | h | h | h | h | h | h | h | h | h | h | h | h | h | h |
    h | h | h <;> subst h <;> decide

theorem phishingKeywords_weight_dvd : ∀ k ∈ phishingKeywords, (5 : Int) ∣ k.weight := by
  intro k hk
  simp only [phishingKeywords, List.mem_cons, List.mem_singleton, List.not_mem_nil,
    or_false] at hk
  rcases hk with h | h | h | h | h | h | h <;> subst h <;> decide

theorem checkSuspiciousPatterns_totalWeight_dvd (url : String) :
    (5 : Int) ∣ (checkSuspiciousPatterns url).totalWeight := by
  unfold checkSuspiciousPatterns checkPatternsIn
  rw [foldl_patternStep]
  simp only [zero_add]
  apply List.dvd_sum
  intro w hw
  obtain ⟨p, hp, rfl⟩ := List.mem_map.mp hw
  exact suspiciousPatterns_weight_dvd p (List.mem_of_mem_filter hp)

theorem checkPhishingKeywords_keywordScore_step (domain url : String) :
    isStepOfRisk (checkPhishingKeywords domain url).keywordScore := by
  unfold checkPhishingKeywords
  rw [foldl_keywordStep]
  simp only [zero_add]
  apply isStepOfRisk_sum
  intro q hq
  obtain ⟨k, hk, rfl⟩ := List.mem_map.mp hq
  unfold specKeywordContribution
  split_ifs
  · obtain ⟨m, hm⟩ := phishingKeywords_weight_dvd k hk
    refine ⟨m * (2 + (contextHits domain url k : Int)), ?_⟩
    rw [hm]
    push_cast
    ring
  · exact ⟨0, by simp⟩

theorem checkHomographAttacks_score_dvd (domain : String) :
    (5 : Int) ∣ (checkHomographAttacks domain).score := by
  unfold checkHomographAttacks
  cases matchGlobalUnits true suspiciousChars domain with
  | none => exact dvd_zero _
  | some ms => exact ⟨(ms.length : Int) * 3, by simp only; ring⟩

theorem analyzeDomainStructure_score_dvd (domain : String) :
    (5 : Int) ∣ (analyzeDomainStructure domain).structureScore := by
  rw [analyzeDomainStructure_rules]
  cases ruleSubdomains domain <;> cases ruleShortLabels domain <;> cases ruleMixed domain <;>
    decide

theorem specRiskSum_step (parseURL : URLParser) (d : Detector) (url domain : String)
    (clock : Clock) (rnd : RandomDraws) :
    isStepOfRisk (specRiskSum (performAdvancedAnalysis parseURL d url domain clock rnd).1.checks) := by
  unfold specRiskSum
  refine isStepOfRisk_add (isStepOfRisk_add (isStepOfRisk_add (isStepOfRisk_add
    (isStepOfRisk_add (isStepOfRisk_add (isStepOfRisk_add ?_ ?_) ?_) ?_) ?_) ?_) ?_) ?_
  · cases (performAdvancedAnalysis parseURL d url domain clock rnd).1.checks.reputation.status
    · exact ⟨28, by norm_num⟩
    · exact ⟨-16, by norm_num⟩
    · exact ⟨0, by norm_num⟩
  · split_ifs
    · exact ⟨10, by norm_num⟩
    · exact ⟨0, by norm_num⟩
  · cases (performAdvancedAnalysis parseURL d url domain clock rnd).1.checks.domainAge.category
    · exact ⟨14, by norm_num⟩
    · exact ⟨8, by norm_num⟩
    · exact ⟨0, by norm_num⟩
    · exact ⟨-4, by norm_num⟩
  · apply isStepOfRisk_of_int
    have h := checkSuspiciousPatterns_totalWeight_dvd url
    show (5 : Int) ∣ min (checkSuspiciousPatterns url).totalWeight 50
    rcases min_choice (checkSuspiciousPatterns url).totalWeight 50 with hm | hm <;> rw [hm]
    · exact h
    · decide
  · exact isStepOfRisk_min (checkPhishingKeywords_keywordScore_step domain url)
      ⟨16, by norm_num⟩
  · exact isStepOfRisk_of_int _ (checkHomographAttacks_score_dvd domain)
  · exact isStepOfRisk_of_int _ (analyzeDomainStructure_score_dvd domain)
  · split_ifs
    · exact ⟨8, by norm_num⟩
    · exact ⟨0, by norm_num⟩

theorem clampedRisk_step (parseURL : URLParser) (d : Detector) (url domain : String)
    (clock : Clock) (rnd : RandomDraws) :
    isStepOfRisk (clampedRisk (performAdvancedAnalysis parseURL d url domain clock rnd).1) := by
  unfold clampedRisk clampRisk
  rw [performAdvancedAnalysis_riskScore]
  exact isStepOfRisk_max ⟨0, by norm_num⟩
    (isStepOfRisk_min ⟨40, by norm_num⟩ (specRiskSum_step parseURL d url domain clock rnd))

theorem mathRound_threshold (r : ℚ) (hr : isStepOfRisk r) (j : Int) :
    ((5 * j : Int) : ℚ) ≤ mathRound r ↔ ((5 * j : Int) : ℚ) ≤ r := by
  obtain ⟨k, rfl⟩ := hr
  unfold mathRound
  rw [Int.cast_le, Int.le_floor]
  constructor
  · intro h
    have h2 : ((10 * j : Int) : ℚ) ≤ ((5 * k + 1 : Int) : ℚ) := by
      push_cast at h ⊢
      linarith
    have h3 : 10 * j ≤ 5 * k + 1 := by exact_mod_cast h2
    have h4 : 10 * j ≤ 5 * k := by omega
    have h5 : ((10 * j : Int) : ℚ) ≤ ((5 * k : Int) : ℚ) := by exact_mod_cast h4
    push_cast at h5 ⊢
    linarith
  · intro h
    linarith

theorem getRiskLevel_agrees (r : ℚ) (hr : isStepOfRisk r) :
    (getRiskLevel (mathRound r) = RiskLevel.critical ↔ (verdictOf r).1 = Status.phishing) ∧
    (getRiskLevel (mathRound r) = RiskLevel.high ↔ (verdictOf r).1 = Status.suspicious) ∧
    (getRiskLevel (mathRound r) = RiskLevel.medium ↔ (verdictOf r).1 = Status.questionable) ∧
    (getRiskLevel (mathRound r) = RiskLevel.low ↔ (verdictOf r).1 = Status.legitimate) := by
  have t70 : (70 : ℚ) ≤ mathRound r ↔ (70 : ℚ) ≤ r := by
    have := mathRound_threshold r hr 14
    norm_num at this
    exact this
  have t45 : (45 : ℚ) ≤ mathRound r ↔ (45 : ℚ) ≤ r := by
    have := mathRound_threshold r hr 9
    norm_num at this
    exact this
  have t25 : (25 : ℚ) ≤ mathRound r ↔ (25 : ℚ) ≤ r := by
    have := mathRound_threshold r hr 5
    norm_num at this
    exact this
  unfold getRiskLevel verdictOf
  by_cases h1 : (70 : ℚ) ≤ r
  · rw [if_pos (t70.mpr h1), if_pos h1]
    simp
  · rw [if_neg (fun h => h1 (t70.mp h)), if_neg h1]
    by_cases h2 : (45 : ℚ) ≤ r
    · rw [if_pos (t45.mpr h2), if_pos h2]
      simp
    · rw [if_neg (fun h => h2 (t45.mp h)), if_neg h2]
      by_cases h3 : (25 : ℚ) ≤ r
      · rw [if_pos (t25.mpr h3), if_pos h3]
        simp
      · rw [if_neg (fun h => h3 (t25.mp h)), if_neg h3]
        simp

theorem oddKeywordAnalysis_risk : clampedRisk oddKeywordAnalysis = 49 / 2 := by
  unfold clampedRisk
  rw [accumulate_riskScore oddKeywordAnalysis.checks (by decide)
    (by norm_num [oddKeywordAnalysis]) (fun _ => rfl) (by decide) (fun h => by cases h)
    (fun h => by cases h)]
  norm_num [specRiskSum, clampRisk, oddKeywordAnalysis]

theorem isStepOfRisk_ne_half (r : ℚ) (hr : isStepOfRisk r) (n : Int) (hn : ¬ (5 : Int) ∣ n) :
    r ≠ (n : ℚ) / 2 := by
  intro hcon
  obtain ⟨k, hk⟩ := hr
  rw [hk] at hcon
  have h2 : ((5 * k : Int) : ℚ) = ((n : Int) : ℚ) := by
    push_cast
    linarith
  have h3 : 5 * k = n := by exact_mod_cast h2
  exact hn ⟨k, h3.symm⟩

/-- C25: for every analysis that `performAdvancedAnalysis` assembles, the risk before
rounding is an integer multiple of 2.5 (so it is none of 24.5, 44.5, 69.5), and the
level `getRiskLevel` gives for the returned rounded `riskScore` is critical, high,
medium or low exactly when the status is phishing, suspicious, questionable or
legitimate.  For an analysis with keyword score 24.5, which no extractor produces, the
status is legitimate while the level of the rounded score 25 is medium. -/
theorem getRiskLevel_matches_status (parseURL : URLParser) (d : Detector) (url domain : String)
    (clock : Clock) (rnd : RandomDraws) (now : Int) :
    (∃ k : Int,
      (accumulate (performAdvancedAnalysis parseURL d url domain clock rnd).1.checks).riskScore =
        (k : ℚ) * (5 / 2)) ∧
    (∃ k : Int, clampedRisk (performAdvancedAnalysis parseURL d url domain clock rnd).1 =
      (k : ℚ) * (5 / 2)) ∧
    clampedRisk (performAdvancedAnalysis parseURL d url domain clock rnd).1 ≠ 24.5 ∧
    clampedRisk (performAdvancedAnalysis parseURL d url domain clock rnd).1 ≠ 44.5 ∧
    clampedRisk (performAdvancedAnalysis parseURL d url domain clock rnd).1 ≠ 69.5 ∧
    (getRiskLevel (calculateFinalScore (performAdvancedAnalysis parseURL d url domain clock
        rnd).1 now).riskScore = RiskLevel.critical ↔
      (calculateFinalScore (performAdvancedAnalysis parseURL d url domain clock rnd).1
        now).status = Status.phishing) ∧
    (getRiskLevel (calculateFinalScore (performAdvancedAnalysis parseURL d url domain clock
        rnd).1 now).riskScore = RiskLevel.high ↔
      (calculateFinalScore (performAdvancedAnalysis parseURL d url domain clock rnd).1
        now).status = Status.suspicious) ∧
    (getRiskLevel (calculateFinalScore (performAdvancedAnalysis parseURL d url domain clock
        rnd).1 now).riskScore = RiskLevel.medium ↔
      (calculateFinalScore (performAdvancedAnalysis parseURL d url domain clock rnd).1
        now).status = Status.questionable) ∧
    (getRiskLevel (calculateFinalScore (performAdvancedAnalysis parseURL d url domain clock
        rnd).1 now).riskScore = RiskLevel.low ↔
      (calculateFinalScore (performAdvancedAnalysis parseURL d url domain clock rnd).1
        now).status = Status.legitimate) ∧
    ((calculateFinalScore oddKeywordAnalysis now).status = Status.legitimate ∧
      (calculateFinalScore oddKeywordAnalysis now).riskScore = 25 ∧
      getRiskLevel (calculateFinalScore oddKeywordAnalysis now).riskScore =
        RiskLevel.medium) := by
  have hraw : isStepOfRisk (accumulate
      (performAdvancedAnalysis parseURL d url domain clock rnd).1.checks).riskScore := by
    rw [performAdvancedAnalysis_riskScore]
    exact specRiskSum_step parseURL d url domain clock rnd
  have hstep := clampedRisk_step parseURL d url domain clock rnd
  obtain ⟨g1, g2, g3, g4⟩ := getRiskLevel_agrees _ hstep
  have hodd := oddKeywordAnalysis_risk
  have hs : (calculateFinalScore oddKeywordAnalysis now).status =
      (verdictOf (clampedRisk oddKeywordAnalysis)).1 := rfl
  have hrs : (calculateFinalScore oddKeywordAnalysis now).riskScore =
      mathRound (clampedRisk oddKeywordAnalysis) := rfl
  have hround : mathRound (49 / 2) = 25 := by
    unfold mathRound
    have : ⌊(49 : ℚ) / 2 + 1 / 2⌋ = 25 := by
      rw [Int.floor_eq_iff]; norm_num
    rw [this]; norm_num
  refine ⟨hraw, hstep, ?_, ?_, ?_, g1, g2, g3, g4, ?_, ?_, ?_⟩
  · have := isStepOfRisk_ne_half _ hstep 49 (by decide)
    norm_num at this ⊢
    exact this
  · have := isStepOfRisk_ne_half _ hstep 89 (by decide)
    norm_num at this ⊢
    exact this
  · have := isStepOfRisk_ne_half _ hstep 139 (by decide)
    norm_num at this ⊢
    exact this
  · rw [hs, hodd]
    exact (verdictOf_of_lt_25 _ (by norm_num)).1
  · rw [hrs, hodd, hround]
  · rw [hrs, hodd, hround]
    norm_num [getRiskLevel]

/-! ## Regular expression lemmas -/

theorem plainCode_cases (p : Nat) (hp : plainCode p = true) :
    (97 ≤ p ∧ p ≤ 122) ∨ (p ≤ 57 ∧ 45 ≤ p) := by
  unfold plainCode at hp
  rw [Bool.or_eq_true, Bool.or_eq_true, Bool.or_eq_true] at hp
  rcases hp with ((h | h) | h) | h
  · exact Or.inl (of_decide_eq_true h)
  · have := of_decide_eq_true h; exact Or.inr (by omega)
  · have := of_decide_eq_true h; exact Or.inr (by omega)
  · have := of_decide_eq_true h; exact Or.inr (by omega)

theorem ite_cases_prop (P : Nat → Prop) (c : Prop) [Decidable c] (a b : Nat)
    (ha : c → P a) (hb : ¬ c → P b) : P (if c then a else b) := by
  split_ifs with h
  · exact ha h
  · exact hb h

theorem canonicalize_eq_small (n q : Nat) (hq : q < 128) :
    canonicalize n = q ↔ (97 ≤ n ∧ n ≤ 122 ∧ q + 32 = n) ∨ (¬ (97 ≤ n ∧ n ≤ 122) ∧ n = q) := by
  unfold canonicalize
  repeat
    refine ite_cases_prop
      (fun x => x = q ↔ (97 ≤ n ∧ n ≤ 122 ∧ q + 32 = n) ∨ (¬ (97 ≤ n ∧ n ≤ 122) ∧ n = q))
      _ _ _ (fun h => by beta_reduce; omega) (fun h => ?_)
    beta_reduce
  omega

theorem canonicalize_plain (p n : Nat) (hp : plainCode p = true) :
    (canonicalize p == canonicalize n) = (lowerCode n == p) := by
  rw [Bool.eq_iff_iff, beq_iff_eq, beq_iff_eq]
  rcases plainCode_cases p hp with h | h
  · have hcp : canonicalize p = p - 32 :=
      (canonicalize_eq_small p (p - 32) (by omega)).mpr (Or.inl ⟨h.1, h.2, by omega⟩)
    rw [hcp, eq_comm, canonicalize_eq_small n (p - 32) (by omega)]
    unfold lowerCode
    split_ifs <;> omega
  · have hcp : canonicalize p = p :=
      (canonicalize_eq_small p p (by omega)).mpr (Or.inr ⟨by omega, rfl⟩)
    rw [hcp, eq_comm, canonicalize_eq_small n p (by omega)]
    unfold lowerCode
    split_ifs <;> omega

theorem classMatches_chr (c x : Char) (hp : plainCode c.toNat = true) :
    classMatches true [(c.toNat, c.toNat)] x = (lowerCode x.toNat == c.toNat) := by
  simp [classMatches, CharClass.hasCanonical, List.range_succ,
    canonicalize_plain c.toNat x.toNat hp]

theorem classMatches_lower (x : Char) :
    classMatches true lower x = isLowerCode (lowerCode x.toNat) := by
  unfold classMatches CharClass.hasCanonical lower isLowerCode
  simp only [if_true, List.any_cons, List.any_nil, Bool.or_false]
  rw [Bool.eq_iff_iff, List.any_eq_true, decide_eq_true_eq]
  constructor
  · rintro ⟨k, hk, hcan⟩
    rw [List.mem_range] at hk
    have hplain : plainCode (97 + k) = true := by
      unfold plainCode
      simp only [Bool.or_eq_true, decide_eq_true_eq]
      exact Or.inl (Or.inl (Or.inl ⟨by omega, by omega⟩))
    rw [canonicalize_plain (97 + k) x.toNat hplain, beq_iff_eq] at hcan
    omega
  · intro h
    refine ⟨lowerCode x.toNat - 97, by rw [List.mem_range]; omega, ?_⟩
    have hplain : plainCode (97 + (lowerCode x.toNat - 97)) = true := by
      unfold plainCode
      simp only [Bool.or_eq_true, decide_eq_true_eq]
      exact Or.inl (Or.inl (Or.inl ⟨by omega, by omega⟩))
    rw [canonicalize_plain _ x.toNat hplain, beq_iff_eq]
    omega

theorem matchK_chr (c : Char) (hp : plainCode c.toNat = true) (st : Bool) (s : List Char)
    (k : Bool → List Char → Bool) :
    matchK true (Regex.chr c) st s k =
      match s with
      | [] => false
      | x :: rest => (lowerCode x.toNat == c.toNat) && k false rest := by
  cases s with
  | nil => rfl
  | cons x rest =>
    show (classMatches true [(c.toNat, c.toNat)] x && k false rest) = _
    rw [classMatches_chr c x hp]

theorem matchK_litList (l : List Char) (hp : ∀ c ∈ l, plainCode c.toNat = true) (st : Bool)
    (s : List Char) (k : Bool → List Char → Bool) :
    matchK true (l.foldr (fun c r => Regex.seq (Regex.chr c) r) Regex.eps) st s k =
      ((l.map Char.toNat).isPrefixOf (lowered s) && k (st && l.isEmpty) (s.drop l.length)) := by
  induction l generalizing st s with
  | nil => simp [matchK]
  | cons c rest ih =>
    have hc := hp c (List.mem_cons_self _ _)
    have hrest : ∀ d ∈ rest, plainCode d.toNat = true :=
      fun d hd => hp d (List.mem_cons_of_mem _ hd)
    rw [List.foldr_cons]
    show matchK true (Regex.chr c) st s
      (fun st2 s2 => matchK true (rest.foldr (fun c r => Regex.seq (Regex.chr c) r) Regex.eps)
        st2 s2 k) = _
    rw [matchK_chr c hc]
    cases s with
    | nil => simp [lowered, List.isPrefixOf]
    | cons x xs =>
      simp only [ih hrest]
      have hb : (lowerCode x.toNat == c.toNat) = (c.toNat == lowerCode x.toNat) := by
        rw [Bool.eq_iff_iff, beq_iff_eq, beq_iff_eq]
        exact eq_comm
      simp [lowered, List.isPrefixOf, hb, Bool.and_assoc]

theorem matchK_lit (w : String) (hp : ∀ c ∈ w.toList, plainCode c.toNat = true) (st : Bool)
    (s : List Char) (k : Bool → List Char → Bool) :
    matchK true (Regex.lit w) st s k =
      ((codes w).isPrefixOf (lowered s) && k (st && w.toList.isEmpty) (s.drop w.toList.length)) :=
  matchK_litList w.toList hp st s k

theorem searchFrom_bol_false (ic : Bool) (r : Regex) (s : List Char) :
    searchFrom ic (Regex.seq Regex.bol r) false s = false := by
  induction s with
  | nil => simp [searchFrom, matchK]
  | cons c rest ih => simp [searchFrom, matchK, ih]

theorem searchFrom_bol_true (ic : Bool) (r : Regex) (s : List Char) :
    searchFrom ic (Regex.seq Regex.bol r) true s = matchK ic r true s (fun _ _ => true) := by
  cases s with
  | nil => simp [searchFrom, matchK]
  | cons c rest => simp [searchFrom, matchK, searchFrom_bol_false]

theorem searchFrom_iff (ic : Bool) (re : Regex) (st : Bool) (s : List Char) :
    searchFrom ic re st s = true ↔
      ∃ front back, s = front ++ back ∧
        matchK ic re (st && front.isEmpty) back (fun _ _ => true) = true := by
  induction s generalizing st with
  | nil =>
    simp only [searchFrom]
    constructor
    · intro h; exact ⟨[], [], rfl, by simpa using h⟩
    · rintro ⟨front, back, hs, hm⟩
      have hf : front = [] := by
        cases front with
        | nil => rfl
        | cons a b => simp at hs
      have hb : back = [] := by
        subst hf; simpa using hs.symm
      subst hf; subst hb
      simpa using hm
  | cons c rest ih =>
    simp only [searchFrom, Bool.or_eq_true]
    rw [ih]
    constructor
    · rintro (h | ⟨front, back, hs, hm⟩)
      · exact ⟨[], c :: rest, rfl, by simpa using h⟩
      · exact ⟨c :: front, back, by rw [hs]; rfl, by simpa using hm⟩
    · rintro ⟨front, back, hs, hm⟩
      cases front with
      | nil =>
        left
        have : back = c :: rest := by simpa using hs.symm
        subst this
        simpa using hm
      | cons a front2 =>
        right
        have h1 : rest = front2 ++ back := by
          have := hs
          simp only [List.cons_append, List.cons.injEq] at this
          exact this.2
        exact ⟨front2, back, h1, by simpa using hm⟩

theorem repK_two_letters (st : Bool) (s : List Char) (k : Bool → List Char → Bool) :
    repK true lower 2 (some 2) st s k =
      match s with
      | x :: y :: rest =>
        isLowerCode (lowerCode x.toNat) && isLowerCode (lowerCode y.toNat) && k false rest
      | _ => false := by
  rcases s with _ | ⟨x, _ | ⟨y, rest⟩⟩
  · simp [repK]
  · simp [repK]
  · cases rest with
    | nil => simp [repK, classMatches_lower, Bool.and_assoc]
    | cons z zs => simp [repK, classMatches_lower, Bool.and_assoc]

/-! ## Top-level-domain patterns -/

theorem lowered_append (a b : List Char) : lowered (a ++ b) = lowered a ++ lowered b := by
  simp [lowered]

theorem lowered_drop (n : Nat) (s : List Char) : lowered (s.drop n) = (lowered s).drop n := by
  simp [lowered, List.map_drop]

theorem lowered_length (s : List Char) : (lowered s).length = s.length := by
  simp [lowered]

theorem isPrefixOf_and_drop_empty (w : List Nat) (s : List Char) :
    (w.isPrefixOf (lowered s) && (s.drop w.length).isEmpty) = decide (lowered s = w) := by
  rw [Bool.eq_iff_iff, Bool.and_eq_true, List.isPrefixOf_iff_prefix, List.isEmpty_iff,
    decide_eq_true_eq, List.drop_eq_nil_iff]
  constructor
  · rintro ⟨⟨t, ht⟩, hlen⟩
    have hl : (lowered s).length = w.length + t.length := by rw [← ht, List.length_append]
    rw [lowered_length] at hl
    have : t = [] := List.length_eq_zero.mp (by omega)
    rw [← ht, this, List.append_nil]
  · intro h
    refine ⟨⟨[], by rw [h, List.append_nil]⟩, ?_⟩
    rw [← lowered_length s, h]

theorem matchK_tldEnd (tld : String) (hp : ∀ c ∈ tld.toList, plainCode c.toNat = true)
    (st : Bool) (s : List Char) :
    matchK true (tldEnd tld) st s (fun _ _ => true) = decide (lowered s = 46 :: codes tld) := by
  show matchK true (Regex.chr '.') st s
    (fun st2 s2 => matchK true (Regex.lit tld) st2 s2
      (fun st3 s3 => s3.isEmpty && true)) = _
  rw [matchK_chr '.' (by decide)]
  cases s with
  | nil => simp [lowered]
  | cons x rest =>
    simp only [matchK_lit tld hp, Bool.and_true]
    have h := isPrefixOf_and_drop_empty (codes tld) rest
    have hl : (codes tld).length = tld.toList.length := by simp [codes]
    rw [hl] at h
    rw [h]
    rw [Bool.eq_iff_iff]
    simp only [Bool.and_eq_true, beq_iff_eq, decide_eq_true_eq, lowered, List.map_cons,
      List.cons.injEq]
    rfl

theorem test_tldEnd (tld ending url : String)
    (hp : ∀ c ∈ tld.toList, plainCode c.toNat = true) (he : codes ending = 46 :: codes tld) :
    RegExp.test ⟨tldEnd tld, true⟩ url = endsWithFolded url ending := by
  unfold RegExp.test endsWithFolded
  rw [Bool.eq_iff_iff, searchFrom_iff, List.isSuffixOf_iff_suffix, he]
  constructor
  · rintro ⟨front, back, hs, hm⟩
    rw [matchK_tldEnd tld hp, decide_eq_true_eq] at hm
    exact ⟨lowered front, by rw [hs, lowered_append, hm]⟩
  · rintro ⟨t, ht⟩
    refine ⟨url.toList.take t.length, url.toList.drop t.length, (List.take_append_drop _ _).symm, ?_⟩
    rw [matchK_tldEnd tld hp, decide_eq_true_eq, lowered_drop, ← ht]
    simp

theorem suspiciousPatterns_descriptions_nodup :
    (suspiciousPatterns.map (fun p => p.description)).Nodup := by
  decide

theorem reported_iff (url : String) (e : SuspiciousPattern) (he : e ∈ suspiciousPatterns) :
    ({ description := e.description, weight := e.weight } : MatchedPattern) ∈
        (checkSuspiciousPatterns url).matchedPatterns ↔
      e.pattern.test url = true := by
  have hm : (checkSuspiciousPatterns url).matchedPatterns =
      (suspiciousPatterns.filter (fun p => p.pattern.test url)).map
        (fun p => { description := p.description, weight := p.weight }) := by
    unfold checkSuspiciousPatterns checkPatternsIn
    rw [foldl_patternStep]; simp
  rw [hm, List.mem_map]
  constructor
  · rintro ⟨x, hx, hfe⟩
    obtain ⟨hxm, hxt⟩ := List.mem_filter.mp hx
    have hd : x.description = e.description := by
      have := congrArg MatchedPattern.description hfe
      exact this
    have hxe : x = e := List.inj_on_of_nodup_map suspiciousPatterns_descriptions_nodup hxm he hd
    rw [← hxe]
    exact hxt
  · intro ht
    exact ⟨e, List.mem_filter.mpr ⟨he, ht⟩, rfl⟩

theorem endsWithFolded_last (url ending : String) (c : Nat) (rest : List Nat)
    (he : (codes ending).reverse = c :: rest) (h : endsWithFolded url ending = true) :
    (lowered url.toList).getLast? = some c := by
  unfold endsWithFolded at h
  rw [List.isSuffixOf_iff_suffix] at h
  obtain ⟨t, ht⟩ := h
  have hc : codes ending = rest.reverse ++ [c] := by
    have := congrArg List.reverse he
    simpa using this
  rw [← ht, hc, ← List.append_assoc, List.getLast?_append]
  simp

/-! ## Allow-patterns -/

theorem isPrefixOf_append_split (a b l : List Nat) :
    (a ++ b).isPrefixOf l = (a.isPrefixOf l && b.isPrefixOf (l.drop a.length)) := by
  induction a generalizing l with
  | nil => simp
  | cons x a ih =>
    cases l with
    | nil => simp [List.isPrefixOf]
    | cons y l => simp [List.isPrefixOf, ih, Bool.and_assoc]

theorem repK_two_letters_end (st : Bool) (t : List Char) :
    repK true lower 2 (some 2) st t (fun _ s3 => s3.isEmpty && true) =
      twoLetters (lowered t) := by
  rw [repK_two_letters]
  rcases t with _ | ⟨x, _ | ⟨y, _ | ⟨z, rest⟩⟩⟩ <;> simp [twoLetters, lowered]

theorem dotThen_eq (t : List Nat) (f : List Nat → Bool) :
    ([46].isPrefixOf t && f (t.drop 1)) = dotThen f t := by
  cases t with
  | nil => simp [List.isPrefixOf, dotThen]
  | cons x r =>
    have e : ((46 : Nat) == x) = (x == 46) := BEq.comm
    simp [List.isPrefixOf, dotThen, e]

theorem matchK_lit_end (tld : String) (hp : ∀ c ∈ tld.toList, plainCode c.toNat = true)
    (st : Bool) (s : List Char) :
    matchK true (Regex.lit tld) st s (fun _ s3 => s3.isEmpty && true) =
      (lowered s == codes tld) := by
  rw [matchK_lit tld hp]
  simp only [Bool.and_true]
  have h := isPrefixOf_and_drop_empty (codes tld) s
  have hl : (codes tld).length = tld.toList.length := by simp [codes]
  rw [hl] at h
  rw [h, Bool.eq_iff_iff]
  simp

theorem matchK_co_end (st : Bool) (s : List Char) :
    matchK true (Regex.seq (Regex.lit "co.") (Regex.rep lower 2 (some 2))) st s
        (fun _ s3 => s3.isEmpty && true) =
      ((codes "co.").isPrefixOf (lowered s) && twoLetters ((lowered s).drop 3)) := by
  show matchK true (Regex.lit "co.") st s
    (fun st2 s2 => repK true lower 2 (some 2) st2 s2 (fun _ s3 => s3.isEmpty && true)) = _
  rw [matchK_lit "co." (by decide)]
  simp only [repK_two_letters_end]
  rw [lowered_drop]
  rfl

theorem matchK_rep_end (st : Bool) (s : List Char) :
    matchK true (Regex.rep lower 2 (some 2)) st s (fun _ s3 => s3.isEmpty && true) =
      twoLetters (lowered s) := by
  show repK true lower 2 (some 2) st s (fun _ s3 => s3.isEmpty && true) = _
  rw [repK_two_letters_end]

theorem decidesRule_lit (tld : String) (hp : ∀ c ∈ tld.toList, plainCode c.toNat = true) :
    decidesRule (Regex.lit tld) (SuffixRule.only tld) := by
  intro st s
  exact matchK_lit_end tld hp st s

theorem decidesRule_narrow : decidesRule suffixNarrow SuffixRule.comOrCo := by
  intro st s
  show (matchK true (Regex.lit "com") st s (fun _ s3 => s3.isEmpty && true) ||
    matchK true (Regex.seq (Regex.lit "co.") (Regex.rep lower 2 (some 2))) st s
      (fun _ s3 => s3.isEmpty && true)) = _
  rw [matchK_lit_end "com" (by decide), matchK_co_end]
  rfl

theorem decidesRule_wide : decidesRule suffixWide SuffixRule.comOrCoOrCountry := by
  intro st s
  show (matchK true (Regex.lit "com") st s (fun _ s3 => s3.isEmpty && true) ||
    (matchK true (Regex.seq (Regex.lit "co.") (Regex.rep lower 2 (some 2))) st s
      (fun _ s3 => s3.isEmpty && true) ||
     matchK true (Regex.rep lower 2 (some 2)) st s (fun _ s3 => s3.isEmpty && true))) = _
  rw [matchK_lit_end "com" (by decide), matchK_co_end, matchK_rep_end, ← Bool.or_assoc]
  rfl

theorem brandMatches_split (lead : String) (brand : String × SuffixRule) (l : List Nat) :
    brandMatches lead brand l =
      ((codes lead).isPrefixOf l && ((codes brand.1).isPrefixOf (l.drop (codes lead).length) &&
        dotThen (suffixAllowed brand.2)
          ((l.drop (codes lead).length).drop (codes brand.1).length))) := by
  unfold brandMatches
  rw [isPrefixOf_append_split, isPrefixOf_append_split, Bool.and_assoc, Bool.and_assoc]
  have e1 : l.drop (codes lead ++ codes brand.1).length =
      (l.drop (codes lead).length).drop (codes brand.1).length := by
    simp [List.drop_drop, Nat.add_comm]
  have e2 : l.drop (codes lead ++ codes brand.1 ++ codes ".").length =
      ((l.drop (codes lead).length).drop (codes brand.1).length).drop 1 := by
    have h1 : (codes ".").length = 1 := rfl
    simp [List.drop_drop, h1, Nat.add_comm, Nat.add_left_comm]
  have h46 : codes "." = [46] := rfl
  rw [e1, e2, h46, dotThen_eq]

theorem matchK_brand (name : String) (suffix : Regex) (rule : SuffixRule)
    (hp : ∀ c ∈ name.toList, plainCode c.toNat = true) (hs : decidesRule suffix rule)
    (st : Bool) (s : List Char) :
    matchK true (Regex.seq (Regex.lit name)
        (Regex.seq (Regex.chr '.') (Regex.seq suffix Regex.eol))) st s (fun _ _ => true) =
      ((codes name).isPrefixOf (lowered s) &&
        dotThen (suffixAllowed rule) ((lowered s).drop (codes name).length)) := by
  show matchK true (Regex.lit name) st s (fun st2 s2 =>
    matchK true (Regex.chr '.') st2 s2 (fun st3 s3 =>
      matchK true suffix st3 s3 (fun st4 s4 =>
        matchK true Regex.eol st4 s4 (fun _ _ => true)))) = _
  rw [matchK_lit name hp]
  congr 1
  rw [matchK_chr '.' (by decide)]
  have hl : (codes name).length = name.toList.length := by simp [codes]
  rw [hl, ← lowered_drop]
  cases s.drop name.toList.length with
  | nil => rfl
  | cons x rest =>
    simp only [hs false rest]
    rfl

theorem allowPattern_test (name : String) (suffix : Regex) (rule : SuffixRule)
    (hp : ∀ c ∈ name.toList, plainCode c.toNat = true) (hs : decidesRule suffix rule)
    (domain : String) :
    (allowPattern name suffix).test domain =
      (brandMatches "" (name, rule) (lowered domain.toList) ||
        brandMatches "www." (name, rule) (lowered domain.toList)) := by
  unfold allowPattern RegExp.test
  simp only
  rw [searchFrom_bol_true]
  show (matchK true (Regex.lit "www.") true domain.toList (fun st2 s2 =>
      matchK true (Regex.seq (Regex.lit name)
        (Regex.seq (Regex.chr '.') (Regex.seq suffix Regex.eol))) st2 s2 (fun _ _ => true)) ||
    matchK true (Regex.seq (Regex.lit name)
        (Regex.seq (Regex.chr '.') (Regex.seq suffix Regex.eol))) true domain.toList
        (fun _ _ => true)) = _
  rw [matchK_lit "www." (by decide)]
  simp only [matchK_brand name suffix rule hp hs]
  rw [Bool.or_comm, brandMatches_split, brandMatches_split, lowered_drop]
  have h0 : codes "" = [] := rfl
  have h4 : (codes "www.").length = "www.".toList.length := rfl
  simp only [h0, List.length_nil, List.drop_zero, h4]
  simp [List.isPrefixOf]

theorem legitimatePatterns_eq_specAllowed (domain : String) :
    legitimatePatterns.any (fun p => p.test domain) = specAllowed domain := by
  unfold legitimatePatterns specAllowed allowList
  simp only [List.any_cons, List.any_nil]
  rw [allowPattern_test "google" suffixWide SuffixRule.comOrCoOrCountry (by decide)
        decidesRule_wide,
    allowPattern_test "github" (Regex.lit "com") (SuffixRule.only "com") (by decide)
        (decidesRule_lit "com" (by decide)),
    allowPattern_test "stackoverflow" (Regex.lit "com") (SuffixRule.only "com") (by decide)
        (decidesRule_lit "com" (by decide)),
    allowPattern_test "microsoft" suffixNarrow SuffixRule.comOrCo (by decide)
        decidesRule_narrow,
    allowPattern_test "amazon" suffixWide SuffixRule.comOrCoOrCountry (by decide)
        decidesRule_wide,
    allowPattern_test "facebook" (Regex.lit "com") (SuffixRule.only "com") (by decide)
        (decidesRule_lit "com" (by decide)),
    allowPattern_test "twitter" (Regex.lit "com") (SuffixRule.only "com") (by decide)
        (decidesRule_lit "com" (by decide)),
    allowPattern_test "linkedin" (Regex.lit "com") (SuffixRule.only "com") (by decide)
        (decidesRule_lit "com" (by decide)),
    allowPattern_test "youtube" (Regex.lit "com") (SuffixRule.only "com") (by decide)
        (decidesRule_lit "com" (by decide)),
    allowPattern_test "wikipedia" (Regex.lit "org") (SuffixRule.only "org") (by decide)
        (decidesRule_lit "org" (by decide))]

theorem brandMatches_iff (lead : String) (brand : String × SuffixRule) (l : List Nat) :
    brandMatches lead brand l = true ↔
      ∃ rest, l = codes lead ++ codes brand.1 ++ codes "." ++ rest ∧
        suffixAllowed brand.2 rest = true := by
  unfold brandMatches
  rw [Bool.and_eq_true, List.isPrefixOf_iff_prefix]
  constructor
  · rintro ⟨⟨t, ht⟩, h⟩
    refine ⟨t, ht.symm, ?_⟩
    rw [← ht, List.drop_left] at h
    exact h
  · rintro ⟨rest, hl, h⟩
    refine ⟨⟨rest, hl.symm⟩, ?_⟩
    rw [hl, List.drop_left]
    exact h

/-- C23: an allow-pattern matches a domain exactly when the whole string, with its ASCII
letters lower-cased, is an optional "www.", a listed brand name, a dot and one of the
suffixes of that brand; domains that differ only in letter case match alike; and
"google.com.evil.com", "evilgoogle.com" and "login.github.com" match no pattern. -/
theorem legitimatePatterns_anchored (domain : String) :
    (legitimatePatterns.any (fun p => p.test domain) = specAllowed domain) ∧
    (legitimatePatterns.any (fun p => p.test domain) = true ↔
      ∃ brand ∈ allowList, ∃ lead ∈ ["", "www."], ∃ rest,
        lowered domain.toList = codes lead ++ codes brand.1 ++ codes "." ++ rest ∧
          suffixAllowed brand.2 rest = true) ∧
    (∀ other : String, lowered other.toList = lowered domain.toList →
      legitimatePatterns.any (fun p => p.test other) =
        legitimatePatterns.any (fun p => p.test domain)) ∧
    legitimatePatterns.any (fun p => p.test "google.com.evil.com") = false ∧
    legitimatePatterns.any (fun p => p.test "evilgoogle.com") = false ∧
    legitimatePatterns.any (fun p => p.test "login.github.com") = false ∧
    legitimatePatterns.any (fun p => p.test "www.google.co.uk") = true ∧
    legitimatePatterns.any (fun p => p.test "GitHub.COM") = true := by
  refine ⟨legitimatePatterns_eq_specAllowed domain, ?_, ?_, by decide, by decide, by decide,
    by decide, by decide⟩
  · rw [legitimatePatterns_eq_specAllowed]
    unfold specAllowed
    rw [List.any_eq_true]
    constructor
    · rintro ⟨brand, hb, h⟩
      rw [Bool.or_eq_true] at h
      rcases h with h | h
      · exact ⟨brand, hb, "", by simp, (brandMatches_iff _ _ _).mp h⟩
      · exact ⟨brand, hb, "www.", by simp, (brandMatches_iff _ _ _).mp h⟩
    · rintro ⟨brand, hb, lead, hlead, hrest⟩
      refine ⟨brand, hb, ?_⟩
      rw [Bool.or_eq_true]
      simp only [List.mem_cons, List.mem_singleton, List.not_mem_nil, or_false] at hlead
      rcases hlead with rfl | rfl
      · exact Or.inl ((brandMatches_iff _ _ _).mpr hrest)
      · exact Or.inr ((brandMatches_iff _ _ _).mpr hrest)
  · intro other h
    rw [legitimatePatterns_eq_specAllowed, legitimatePatterns_eq_specAllowed]
    unfold specAllowed
    rw [h]

/-! ## Top-level-domain entries of the pattern table -/

/-- C26, refuted as worded: the URL "http://evil.com/a.tk" has a path after the host, yet
the ".tk" entry is reported, because the path itself ends with ".tk". -/
theorem checkSuspiciousPatterns_tld_in_path :
    ({ description := "High-risk TLD (.tk)", weight := 40 } : MatchedPattern) ∈
      (checkSuspiciousPatterns "http://evil.com/a.tk").matchedPatterns := by
  decide

/-- C26, amended: a top-level-domain entry is reported exactly when the whole URL string
ends with its suffix, letter case ignored; so no such entry is reported for a URL whose
last character is a slash, nor for "http://evil.tk/login", while a path that itself ends
with the suffix is reported. -/
theorem checkSuspiciousPatterns_tld_iff_suffix (url : String) :
    ((({ description := "High-risk TLD (.tk)", weight := 40 } : MatchedPattern) ∈
        (checkSuspiciousPatterns url).matchedPatterns ↔ endsWithFolded url ".tk" = true) ∧
     (({ description := "High-risk TLD (.ml)", weight := 40 } : MatchedPattern) ∈
        (checkSuspiciousPatterns url).matchedPatterns ↔ endsWithFolded url ".ml" = true) ∧
     (({ description := "High-risk TLD (.ga)", weight := 40 } : MatchedPattern) ∈
        (checkSuspiciousPatterns url).matchedPatterns ↔ endsWithFolded url ".ga" = true) ∧
     (({ description := "High-risk TLD (.cf)", weight := 40 } : MatchedPattern) ∈
        (checkSuspiciousPatterns url).matchedPatterns ↔ endsWithFolded url ".cf" = true) ∧
     (({ description := "Suspicious TLD (.pw)", weight := 35 } : MatchedPattern) ∈
        (checkSuspiciousPatterns url).matchedPatterns ↔ endsWithFolded url ".pw" = true)) ∧
    (url.toList.getLast? = some '/' →
      ∀ m ∈ (checkSuspiciousPatterns url).matchedPatterns,
        m.description ≠ "High-risk TLD (.tk)" ∧ m.description ≠ "High-risk TLD (.ml)" ∧
        m.description ≠ "High-risk TLD (.ga)" ∧ m.description ≠ "High-risk TLD (.cf)" ∧
        m.description ≠ "Suspicious TLD (.pw)") ∧
    (∀ m ∈ (checkSuspiciousPatterns "http://evil.tk/login").matchedPatterns,
        m.description ≠ "High-risk TLD (.tk)" ∧ m.description ≠ "High-risk TLD (.ml)" ∧
        m.description ≠ "High-risk TLD (.ga)" ∧ m.description ≠ "High-risk TLD (.cf)" ∧
        m.description ≠ "Suspicious TLD (.pw)") := by
  have key : ∀ (tld ending : String) (w : Int) (d : String),
      ({ pattern := ⟨tldEnd tld, true⟩, weight := w, description := d } : SuspiciousPattern) ∈
        suspiciousPatterns →
      (∀ c ∈ tld.toList, plainCode c.toNat = true) → codes ending = 46 :: codes tld →
      (({ description := d, weight := w } : MatchedPattern) ∈
        (checkSuspiciousPatterns url).matchedPatterns ↔ endsWithFolded url ending = true) := by
    intro tld ending w d hmem hp he
    rw [← test_tldEnd tld ending url hp he]
    exact reported_iff url _ hmem
  have htk := key "tk" ".tk" 40 "High-risk TLD (.tk)" (by simp [suspiciousPatterns])
    (by decide) (by decide)
  have hml := key "ml" ".ml" 40 "High-risk TLD (.ml)" (by simp [suspiciousPatterns])
    (by decide) (by decide)
  have hga := key "ga" ".ga" 40 "High-risk TLD (.ga)" (by simp [suspiciousPatterns])
    (by decide) (by decide)
  have hcf := key "cf" ".cf" 40 "High-risk TLD (.cf)" (by simp [suspiciousPatterns])
    (by decide) (by decide)
  have hpw := key "pw" ".pw" 35 "Suspicious TLD (.pw)" (by simp [suspiciousPatterns])
    (by decide) (by decide)
  refine ⟨⟨htk, hml, hga, hcf, hpw⟩, ?_, by decide⟩
  intro hlast m hm
  have hlow : (lowered url.toList).getLast? = some 47 := by
    unfold lowered
    rw [List.getLast?_map, hlast]
    rfl
  have hmm : (checkSuspiciousPatterns url).matchedPatterns =
      (suspiciousPatterns.filter (fun p => p.pattern.test url)).map
        (fun p => { description := p.description, weight := p.weight }) := by
    unfold checkSuspiciousPatterns checkPatternsIn
    rw [foldl_patternStep]; simp
  have no : ∀ (ending : String) (c : Nat) (rest : List Nat),
      (codes ending).reverse = c :: rest → c ≠ 47 → endsWithFolded url ending ≠ true := by
    intro ending c rest he hc h
    have := endsWithFolded_last url ending c rest he h
    rw [hlow] at this
    exact hc (Option.some.inj this).symm
  rw [hmm, List.mem_map] at hm
  obtain ⟨x, hx, rfl⟩ := hm
  obtain ⟨hxm, hxt⟩ := List.mem_filter.mp hx
  have un : ∀ (e : SuspiciousPattern), e ∈ suspiciousPatterns → x.description = e.description →
      e.pattern.test url = true := by
    intro e he hd
    have := List.inj_on_of_nodup_map suspiciousPatterns_descriptions_nodup hxm he hd
    rw [← this]; exact hxt
  refine ⟨fun h => ?_, fun h => ?_, fun h => ?_, fun h => ?_, fun h => ?_⟩
  · have := un { pattern := ⟨tldEnd "tk", true⟩, weight := 40, description := "High-risk TLD (.tk)" }
      (by simp [suspiciousPatterns]) h
    rw [test_tldEnd "tk" ".tk" url (by decide) (by decide)] at this
    exact no ".tk" 107 [116, 46] (by decide) (by decide) this
  · have := un { pattern := ⟨tldEnd "ml", true⟩, weight := 40, description := "High-risk TLD (.ml)" }
      (by simp [suspiciousPatterns]) h
    rw [test_tldEnd "ml" ".ml" url (by decide) (by decide)] at this
    exact no ".ml" 108 [109, 46] (by decide) (by decide) this
  · have := un { pattern := ⟨tldEnd "ga", true⟩, weight := 40, description := "High-risk TLD (.ga)" }
      (by simp [suspiciousPatterns]) h
    rw [test_tldEnd "ga" ".ga" url (by decide) (by decide)] at this
    exact no ".ga" 97 [103, 46] (by decide) (by decide) this
  · have := un { pattern := ⟨tldEnd "cf", true⟩, weight := 40, description := "High-risk TLD (.cf)" }
      (by simp [suspiciousPatterns]) h
    rw [test_tldEnd "cf" ".cf" url (by decide) (by decide)] at this
    exact no ".cf" 102 [99, 46] (by decide) (by decide) this
  · have := un { pattern := ⟨tldEnd "pw", true⟩, weight := 35, description := "Suspicious TLD (.pw)" }
      (by simp [suspiciousPatterns]) h
    rw [test_tldEnd "pw" ".pw" url (by decide) (by decide)] at this
    exact no ".pw" 119 [112, 46] (by decide) (by decide) this

/-! ## Redirect check -/

theorem matchK_shortener_of_tco (st : Bool) (s : List Char)
    (h : (codes "t.co").isPrefixOf (lowered s) = true) :
    matchK true shortener st s (fun _ _ => true) = true := by
  have h3 : matchK true (Regex.lit "t.co") st s (fun _ _ => true) = true := by
    rw [matchK_lit "t.co" (by decide), h]
    rfl
  show (matchK true (Regex.lit "bit.ly") st s (fun _ _ => true) ||
    (matchK true (Regex.lit "tinyurl") st s (fun _ _ => true) ||
      (matchK true (Regex.lit "t.co") st s (fun _ _ => true) ||
        matchK true (Regex.alt (Regex.lit "goo.gl")
          (Regex.alt (Regex.lit "ow.ly") (Regex.lit "short.link"))) st s (fun _ _ => true)))) = true
  rw [h3]
  simp

theorem test_shortener_of_tco (url : String) (h : codes "t.co" <:+: lowered url.toList) :
    RegExp.test ⟨shortener, true⟩ url = true := by
  unfold RegExp.test
  rw [searchFrom_iff]
  obtain ⟨a, b, hab⟩ := h
  refine ⟨url.toList.take a.length, url.toList.drop a.length, (List.take_append_drop _ _).symm, ?_⟩
  apply matchK_shortener_of_tco
  rw [List.isPrefixOf_iff_prefix, lowered_drop, ← hab]
  exact ⟨b, by simp⟩

theorem checkURLRedirects_flag_iff (parseURL : URLParser) (url : String) :
    (checkURLRedirects parseURL url).hasSuspiciousRedirects = true ↔
      ∃ d, extractDomain parseURL url = some d ∧
        ("bit.ly".toList <:+: d.toList ∨ "tinyurl.com".toList <:+: d.toList ∨
          "t.co".toList <:+: d.toList) := by
  unfold checkURLRedirects
  simp only
  cases hd : extractDomain parseURL url with
  | none => simp [suspiciousRedirects]
  | some d =>
    simp only [suspiciousRedirects, List.any_cons, List.any_nil, Bool.or_false]
    have e1 := includes_iff_infix d "bit.ly"
    have e2 := includes_iff_infix d "tinyurl.com"
    have e3 := includes_iff_infix d "t.co"
    constructor
    · intro h
      refine ⟨d, rfl, ?_⟩
      split_ifs at h with hc
      rw [Bool.or_eq_true, Bool.or_eq_true] at hc
      rcases hc with hc | hc | hc
      · exact Or.inl (e1.mp hc)
      · exact Or.inr (Or.inl (e2.mp hc))
      · exact Or.inr (Or.inr (e3.mp hc))
    · rintro ⟨d2, hd2, h⟩
      cases hd2
      have hc : (includes d "bit.ly" || (includes d "tinyurl.com" || includes d "t.co")) = true := by
        rw [Bool.or_eq_true, Bool.or_eq_true]
        rcases h with h | h | h
        · exact Or.inl (e1.mpr h)
        · exact Or.inr (Or.inl (e2.mpr h))
        · exact Or.inr (Or.inr (e3.mpr h))
      rw [if_pos hc]

theorem checkURLRedirects_score_of_clear (parseURL : URLParser) (url : String)
    (h : (checkURLRedirects parseURL url).hasSuspiciousRedirects = false) :
    (checkURLRedirects parseURL url).score = 0 := by
  unfold checkURLRedirects at h ⊢
  simp only at h ⊢
  split_ifs at h ⊢ with hc
  rfl

theorem microsoftScenario_checks (clock : Clock) (rnd : RandomDraws) :
    (performAdvancedAnalysis microsoftParser initialWorld.detector
      "https://www.microsoft.com/account" "www.microsoft.com" clock rnd).1.checks =
      { reputation := { status := RepStatus.legitimate, confidence := 0.98, source := "whitelist" }
        ssl := { hasSSL := true, score := 0, issues := [] }
        domainAge := calculateDomainAge "www.microsoft.com" rnd.age
        patterns := { totalWeight := 15
                      matchedPatterns := [{ description := "URL shortener", weight := 15 }] }
        keywords := { keywordScore := 45
                      matchedKeywords := [{ word := "microsoft", context := 1, score := 45 }] }
        homograph := { detected := false, score := 0, characters := [] }
        structure_ := { structureScore := 0, issues := [] }
        redirects := { hasSuspiciousRedirects := true, score := 20
                       redirectChain := ["original-url.com", "bit.ly/xyz",
                                         "suspicious-site.com"] } } := by
  have hrep : (checkDomainReputation initialWorld.detector "www.microsoft.com"
      clock.reputationCheck clock.reputationStore rnd.reputation).1 =
      { status := RepStatus.legitimate, confidence := 0.98, source := "whitelist" } := by
    rw [checkDomainReputation_of_miss initialWorld.detector "www.microsoft.com"
      clock.reputationCheck clock.reputationStore rnd.reputation rfl]
    exact (resolveReputation_cases initialWorld.detector "www.microsoft.com" rnd.reputation).2.1
      (by decide) (by decide)
  have hssl : checkSSLCertificate microsoftParser "https://www.microsoft.com/account" =
      { hasSSL := true, score := 0, issues := [] } := by decide
  have hpat : checkSuspiciousPatterns "https://www.microsoft.com/account" =
      { totalWeight := 15
        matchedPatterns := [{ description := "URL shortener", weight := 15 }] } := by decide
  have hkw : checkPhishingKeywords "www.microsoft.com" "https://www.microsoft.com/account" =
      { keywordScore := 45
        matchedKeywords := [{ word := "microsoft", context := 1, score := 45 }] } := by
    unfold checkPhishingKeywords
    rw [foldl_keywordStep]
    have hc : ∀ k, contributes "www.microsoft.com" "https://www.microsoft.com/account" k =
        (occursIn k.word "www.microsoft.com" "https://www.microsoft.com/account" &&
          decide (0 < contextHits "www.microsoft.com" "https://www.microsoft.com/account" k)) :=
      fun _ => rfl
    have h1 : contributes "www.microsoft.com" "https://www.microsoft.com/account"
        { word := "paypal", context := ["secure", "verify", "suspended"], weight := 40 } = false := by
      decide
    have h2 : contributes "www.microsoft.com" "https://www.microsoft.com/account"
        { word := "amazon", context := ["account", "suspended", "verify"], weight := 35 } = false := by
      decide
    have h3 : contributes "www.microsoft.com" "https://www.microsoft.com/account"
        { word := "apple", context := ["id", "locked", "verify"], weight := 35 } = false := by
      decide
    have h4 : contributes "www.microsoft.com" "https://www.microsoft.com/account"
        { word := "microsoft", context := ["account", "security", "verify"], weight := 30 } = true := by
      decide
    have h5 : contributes "www.microsoft.com" "https://www.microsoft.com/account"
        { word := "google", context := ["account", "suspended", "verify"], weight := 30 } = false := by
      decide
    have h6 : contributes "www.microsoft.com" "https://www.microsoft.com/account"
        { word := "bank", context := ["account", "suspended", "verify"], weight := 45 } = false := by
      decide
    have h7 : contributes "www.microsoft.com" "https://www.microsoft.com/account"
        { word := "security", context := ["alert", "warning", "breach"], weight := 25 } = false := by
      decide
    have h8 : contextHits "www.microsoft.com" "https://www.microsoft.com/account"
        { word := "microsoft", context := ["account", "security", "verify"], weight := 30 } = 1 := by
      decide
    simp only [phishingKeywords, List.map_cons, List.map_nil, List.filter_cons, List.filter_nil,
      specKeywordContribution, h1, h2, h3, h4, h5, h6, h7, h8, if_true, if_false,
      List.sum_cons, List.sum_nil, List.nil_append, Bool.false_eq_true]
    norm_num
  have hhom : checkHomographAttacks "www.microsoft.com" =
      { detected := false, score := 0, characters := [] } := by decide
  have hstr : analyzeDomainStructure "www.microsoft.com" =
      { structureScore := 0, issues := [] } := by
    decide
  have hred : checkURLRedirects microsoftParser "https://www.microsoft.com/account" =
      { hasSuspiciousRedirects := true, score := 20
        redirectChain := ["original-url.com", "bit.ly/xyz", "suspicious-site.com"] } := by decide
  unfold performAdvancedAnalysis
  simp only [hrep, hssl, hpat, hkw, hhom, hstr, hred]

theorem microsoftScenario_risk (clock : Clock) (rnd : RandomDraws) :
    25 ≤ clampedRisk (performAdvancedAnalysis microsoftParser initialWorld.detector
      "https://www.microsoft.com/account" "www.microsoft.com" clock rnd).1 := by
  unfold clampedRisk
  rw [performAdvancedAnalysis_riskScore, microsoftScenario_checks]
  unfold specRiskSum clampRisk
  cases (calculateDomainAge "www.microsoft.com" rnd.age).category <;> norm_num

/-- C27, refuted as worded: the URL "https://www.microsof%74.com/account" is on the host
www.microsoft.com (the platform decodes the percent-encoded letter in the host) and is
flagged by the redirect check, but the pattern table, which reads the URL string,
reports no pattern for it. -/
theorem checkURLRedirects_encoded_host :
    extractDomain encodedHostParser "https://www.microsof%74.com/account" =
      some "www.microsoft.com" ∧
    (checkURLRedirects encodedHostParser
      "https://www.microsof%74.com/account").hasSuspiciousRedirects = true ∧
    (checkSuspiciousPatterns "https://www.microsof%74.com/account").matchedPatterns = [] := by
  decide

/-- C27, amended: the redirect check flags a url, with score 20, exactly when its
extracted host name contains "bit.ly", "tinyurl.com" or "t.co" as a substring; so every
URL on the host www.microsoft.com is flagged, and every URL whose text contains that
host name (in any letter case) also matches the pattern "URL shortener" with weight 15;
"https://www.microsoft.com/account" on the built-in lists gets, for every reading of the
clock and of the random source, a risk score of at least 25 and a status other than
legitimate. -/
theorem checkURLRedirects_substring (parseURL : URLParser) (url : String) :
    ((checkURLRedirects parseURL url).hasSuspiciousRedirects = true ↔
      ∃ d, extractDomain parseURL url = some d ∧
        ("bit.ly".toList <:+: d.toList ∨ "tinyurl.com".toList <:+: d.toList ∨
          "t.co".toList <:+: d.toList)) ∧
    ((checkURLRedirects parseURL url).hasSuspiciousRedirects = true →
      (checkURLRedirects parseURL url).score = 20) ∧
    ((checkURLRedirects parseURL url).hasSuspiciousRedirects = false →
      (checkURLRedirects parseURL url).score = 0) ∧
    (extractDomain parseURL url = some "www.microsoft.com" →
      (checkURLRedirects parseURL url).hasSuspiciousRedirects = true ∧
      (checkURLRedirects parseURL url).score = 20) ∧
    (codes "www.microsoft.com" <:+: lowered url.toList →
      ({ description := "URL shortener", weight := 15 } : MatchedPattern) ∈
        (checkSuspiciousPatterns url).matchedPatterns) ∧
    (∀ (clock : Clock) (rnd : RandomDraws) (now : Int),
      "www.microsoft.com" ∈ initialWorld.detector.legitimateDomains ∧
      extractDomain microsoftParser "https://www.microsoft.com/account" =
        some "www.microsoft.com" ∧
      (performAdvancedAnalysis microsoftParser initialWorld.detector
        "https://www.microsoft.com/account" "www.microsoft.com" clock
          rnd).1.checks.reputation.status = RepStatus.legitimate ∧
      (performAdvancedAnalysis microsoftParser initialWorld.detector
        "https://www.microsoft.com/account" "www.microsoft.com" clock
          rnd).1.checks.patterns =
        { totalWeight := 15
          matchedPatterns := [{ description := "URL shortener", weight := 15 }] } ∧
      (performAdvancedAnalysis microsoftParser initialWorld.detector
        "https://www.microsoft.com/account" "www.microsoft.com" clock
          rnd).1.checks.redirects.hasSuspiciousRedirects = true ∧
      25 ≤ (calculateFinalScore (performAdvancedAnalysis microsoftParser initialWorld.detector
        "https://www.microsoft.com/account" "www.microsoft.com" clock rnd).1 now).riskScore ∧
      (calculateFinalScore (performAdvancedAnalysis microsoftParser initialWorld.detector
        "https://www.microsoft.com/account" "www.microsoft.com" clock rnd).1 now).status ≠
          Status.legitimate) := by
  have hflag := checkURLRedirects_flag_iff parseURL url
  refine ⟨hflag, checkURLRedirects_score parseURL url,
    checkURLRedirects_score_of_clear parseURL url, ?_, ?_, ?_⟩
  · intro hd
    have hf : (checkURLRedirects parseURL url).hasSuspiciousRedirects = true :=
      hflag.mpr ⟨"www.microsoft.com", hd, Or.inr (Or.inr
        ⟨"www.microsof".toList, "m".toList, by decide⟩)⟩
    exact ⟨hf, checkURLRedirects_score parseURL url hf⟩
  · intro hu
    have ht : codes "t.co" <:+: lowered url.toList :=
      List.IsInfix.trans ⟨codes "www.microsof", codes "m", by decide⟩ hu
    exact (reported_iff url
      { pattern := ⟨shortener, true⟩, weight := 15, description := "URL shortener" }
      (by simp [suspiciousPatterns])).mpr (test_shortener_of_tco url ht)
  · intro clock rnd now
    have hc := microsoftScenario_checks clock rnd
    have hr := microsoftScenario_risk clock rnd
    refine ⟨by decide, by decide, by rw [hc], by rw [hc], by rw [hc], ?_, ?_⟩
    · have h1 : (calculateFinalScore (performAdvancedAnalysis microsoftParser
          initialWorld.detector "https://www.microsoft.com/account" "www.microsoft.com" clock
          rnd).1 now).riskScore =
          mathRound (clampedRisk (performAdvancedAnalysis microsoftParser initialWorld.detector
            "https://www.microsoft.com/account" "www.microsoft.com" clock rnd).1) := rfl
      rw [h1]
      have := mathRound_mono hr
      rw [show ((25 : ℚ)) = ((25 : Int) : ℚ) by norm_num, mathRound_intCast] at this
      simpa using this
    · have h2 : (calculateFinalScore (performAdvancedAnalysis microsoftParser
          initialWorld.detector "https://www.microsoft.com/account" "www.microsoft.com" clock
          rnd).1 now).status =
          (verdictOf (clampedRisk (performAdvancedAnalysis microsoftParser initialWorld.detector
            "https://www.microsoft.com/account" "www.microsoft.com" clock rnd).1)).1 := rfl
      rw [h2]
      intro hl
      have := (verdictOf_status _).2.2.2.1 hl
      linarith

/-! ## Domain validation on the options page -/

theorem alnum_has (c : Char) : CharClass.has alnum c.toNat = c.isAlphanum := by
  simp only [CharClass.has, alnum, Char.isAlphanum, Char.isAlpha, Char.isUpper, Char.isLower,
    Char.isDigit, Char.toNat, UInt32.le_def, BitVec.le_def, UInt32.toNat, List.any_cons,
    List.any_nil, Bool.or_false]
  rw [Bool.eq_iff_iff]
  simp only [Bool.or_eq_true, Bool.and_eq_true, decide_eq_true_eq]
  constructor
  · rintro (h | h | h)
    · exact Or.inl (Or.inr h)
    · exact Or.inl (Or.inl h)
    · exact Or.inr h
  · rintro ((h | h) | h)
    · exact Or.inr (Or.inl h)
    · exact Or.inl h
    · exact Or.inr (Or.inr h)

theorem char_eq_of_toNat (c d : Char) (h : c.toNat = d.toNat) : c = d := by
  apply Char.ext
  apply UInt32.ext
  exact h

theorem alnumHyphen_has (c : Char) :
    CharClass.has alnumHyphen c.toNat = (c.isAlphanum || c == '-') := by
  have h1 : CharClass.has alnumHyphen c.toNat =
      (CharClass.has alnum c.toNat || decide (c.toNat = 45)) := by
    simp only [CharClass.has, alnum, alnumHyphen, List.any_cons, List.any_nil, Bool.or_false]
    rw [Bool.eq_iff_iff]
    simp only [Bool.or_eq_true, Bool.and_eq_true, decide_eq_true_eq]
    constructor
    · rintro (h | h | h | h)
      · exact Or.inl (Or.inl h)
      · exact Or.inl (Or.inr (Or.inl h))
      · exact Or.inl (Or.inr (Or.inr h))
      · exact Or.inr (by omega)
    · rintro ((h | h | h) | h)
      · exact Or.inl h
      · exact Or.inr (Or.inl h)
      · exact Or.inr (Or.inr (Or.inl h))
      · exact Or.inr (Or.inr (Or.inr (by omega)))
  rw [h1, alnum_has]
  congr 1
  rw [Bool.eq_iff_iff, decide_eq_true_eq, beq_iff_eq]
  constructor
  · intro h; exact char_eq_of_toNat c '-' h
  · intro h; rw [h]; rfl

theorem dot_has (c : Char) : classMatches false [('.'.toNat, '.'.toNat)] c = (c == '.') := by
  unfold classMatches CharClass.has
  simp only [List.any_cons, List.any_nil, Bool.or_false, Bool.false_eq_true, if_false]
  rw [Bool.eq_iff_iff, Bool.and_eq_true, decide_eq_true_eq, decide_eq_true_eq, beq_iff_eq]
  constructor
  · intro h; exact char_eq_of_toNat c '.' (by omega)
  · intro h; rw [h]; exact ⟨le_refl _, le_refl _⟩

theorem repK_iff (ic : Bool) (cls : CharClass) (s : List Char) :
    ∀ (lo hi : Nat) (st : Bool) (k : Bool → List Char → Bool),
      repK ic cls lo (some hi) st s k = true ↔
        ∃ m rest, s = m ++ rest ∧ lo ≤ m.length ∧ m.length ≤ hi ∧
          (∀ c ∈ m, classMatches ic cls c = true) ∧ k (st && m.isEmpty) rest = true := by
  induction s with
  | nil =>
    intro lo hi st k
    simp only [repK, Bool.and_eq_true, decide_eq_true_eq]
    constructor
    · rintro ⟨h0, hk⟩
      exact ⟨[], [], rfl, by simp [h0], by simp, by simp, by simpa using hk⟩
    · rintro ⟨m, rest, hs, hlo, hhi, hall, hk⟩
      have hm : m = [] := (List.append_eq_nil.mp hs.symm).1
      have hr : rest = [] := (List.append_eq_nil.mp hs.symm).2
      subst hm; subst hr
      exact ⟨by simpa using hlo, by simpa using hk⟩
  | cons c t ih =>
    intro lo hi st k
    simp only [repK, Bool.or_eq_true, Bool.and_eq_true, decide_eq_true_eq, Option.map_some',
      ih]
    constructor
    · rintro (⟨h0, hk⟩ | ⟨⟨hh, hc⟩, m, rest, hs, hlo, hhi, hall, hk⟩)
      · exact ⟨[], c :: t, rfl, by simp [h0], by simp, by simp, by simpa using hk⟩
      · have hh0 : hi ≠ 0 := fun e => hh (by rw [e])
        refine ⟨c :: m, rest, by rw [hs]; rfl, by simp; omega, by simp; omega, ?_, ?_⟩
        · intro x hx
          rcases List.mem_cons.mp hx with rfl | hx
          · exact hc
          · exact hall x hx
        · simpa using hk
    · rintro ⟨m, rest, hs, hlo, hhi, hall, hk⟩
      cases m with
      | nil =>
        left
        simp only [List.nil_append] at hs
        refine ⟨by simpa using hlo, ?_⟩
        rw [hs]; simpa using hk
      | cons x m =>
        right
        simp only [List.cons_append, List.cons.injEq] at hs
        obtain ⟨rfl, rfl⟩ := hs
        simp only [List.length_cons] at hlo hhi
        refine ⟨⟨?_, hall c (List.mem_cons_self _ _)⟩, m, rest, rfl, by omega, by omega,
          fun y hy => hall y (List.mem_cons_of_mem _ hy), by simpa using hk⟩
        intro e
        have := Option.some.inj e
        omega

theorem validLabel_iff (l : List Char) :
    validLabel l = true ↔
      ∃ x m y, l = x :: (m ++ [y]) ∧ x.isAlphanum = true ∧ y.isAlphanum = true ∧
        (∀ c ∈ m, (c.isAlphanum || c == '-') = true) ∧ m.length ≤ 61 := by
  constructor
  · intro h
    unfold validLabel at h
    simp only [Bool.and_eq_true, decide_eq_true_eq, List.all_eq_true] at h
    obtain ⟨⟨⟨⟨h2, h63⟩, hall⟩, hhead⟩, hlast⟩ := h
    cases l with
    | nil => simp at h2
    | cons x t =>
      have ht : t ≠ [] := by
        intro e; rw [e] at h2; simp at h2
      obtain ⟨m, y, rfl⟩ : ∃ m y, t = m ++ [y] :=
        ⟨t.dropLast, t.getLast ht, (List.dropLast_append_getLast ht).symm⟩
      refine ⟨x, m, y, rfl, by simpa using hhead, ?_, ?_, ?_⟩
      · have : (x :: (m ++ [y])).getLast? = some y := by
          rw [← List.cons_append, List.getLast?_append]; simp
        rw [this] at hlast
        simpa using hlast
      · intro c hc
        exact hall c (List.mem_cons_of_mem _ (List.mem_append_left _ hc))
      · simp at h63; omega
  · rintro ⟨x, m, y, rfl, hx, hy, hall, hlen⟩
    unfold validLabel
    have hl : (x :: (m ++ [y])).getLast? = some y := by
      rw [← List.cons_append, List.getLast?_append]; simp
    simp only [Bool.and_eq_true, decide_eq_true_eq, List.all_eq_true, hl]
    refine ⟨⟨⟨⟨by simp, by simp; omega⟩, ?_⟩, by simpa using hx⟩, by simpa using hy⟩
    intro c hc
    rcases List.mem_cons.mp hc with rfl | hc
    · simp [hx]
    · rcases List.mem_append.mp hc with hc | hc
      · exact hall c hc
      · simp only [List.mem_singleton] at hc
        subst hc; simp [hy]

theorem matchK_labelRe (st : Bool) (s : List Char) (k : Bool → List Char → Bool) :
    matchK false labelRe st s k = true ↔
      ∃ l rest, s = l ++ rest ∧ validLabel l = true ∧ k false rest = true := by
  have hseq : matchK false labelRe st s k =
      match s with
      | [] => false
      | x :: r => classMatches false alnum x &&
          repK false alnumHyphen 0 (some 61) false r (fun _ s2 =>
            match s2 with
            | [] => false
            | y :: r2 => classMatches false alnum y && k false r2) := by
    cases s <;> rfl
  rw [hseq]
  cases s with
  | nil =>
    simp only [Bool.false_eq_true, false_iff]
    rintro ⟨l, rest, hs, hv, _⟩
    have hl : l = [] := (List.append_eq_nil.mp hs.symm).1
    rw [hl] at hv
    exact absurd hv (by decide)
  | cons x r =>
    simp only [Bool.and_eq_true, repK_iff]
    have hcm : ∀ c, classMatches false alnum c = c.isAlphanum := fun c => by
      unfold classMatches; simp only [Bool.false_eq_true, if_false]; exact alnum_has c
    have hch : ∀ c, classMatches false alnumHyphen c = (c.isAlphanum || c == '-') := fun c => by
      unfold classMatches; simp only [Bool.false_eq_true, if_false]; exact alnumHyphen_has c
    constructor
    · rintro ⟨hx, m, rest, hs, _, hlen, hall, hk⟩
      cases rest with
      | nil => simp at hk
      | cons y r2 =>
        simp only [Bool.and_eq_true] at hk
        refine ⟨x :: (m ++ [y]), r2, by rw [hs]; simp, ?_, hk.2⟩
        rw [validLabel_iff]
        exact ⟨x, m, y, rfl, by rw [← hcm]; exact hx, by rw [← hcm]; exact hk.1,
          fun c hc => by rw [← hch]; exact hall c hc, hlen⟩
    · rintro ⟨l, rest, hs, hv, hk⟩
      rw [validLabel_iff] at hv
      obtain ⟨x2, m, y, rfl, hx, hy, hall, hlen⟩ := hv
      simp only [List.cons_append, List.cons.injEq] at hs
      obtain ⟨rfl, rfl⟩ := hs
      refine ⟨by rw [hcm]; exact hx, m, y :: rest, by simp, Nat.zero_le _, hlen,
        fun c hc => by rw [hch]; exact hall c hc, ?_⟩
      simp only [Bool.and_eq_true]
      exact ⟨by rw [hcm]; exact hy, hk⟩

theorem matchK_dotLabel (st : Bool) (s : List Char) (k : Bool → List Char → Bool) :
    matchK false (Regex.seq (Regex.chr '.') labelRe) st s k = true ↔
      ∃ l rest, s = '.' :: (l ++ rest) ∧ validLabel l = true ∧ k false rest = true := by
  have hseq : matchK false (Regex.seq (Regex.chr '.') labelRe) st s k =
      match s with
      | [] => false
      | x :: r => classMatches false [('.'.toNat, '.'.toNat)] x && matchK false labelRe false r k := by
    cases s <;> rfl
  rw [hseq]
  cases s with
  | nil => simp
  | cons x r =>
    simp only [Bool.and_eq_true, dot_has, beq_iff_eq, matchK_labelRe]
    constructor
    · rintro ⟨rfl, l, rest, rfl, hv, hk⟩
      exact ⟨l, rest, rfl, hv, hk⟩
    · rintro ⟨l, rest, hs, hv, hk⟩
      simp only [List.cons.injEq] at hs
      exact ⟨hs.1, l, rest, hs.2, hv, hk⟩

theorem starK_dotLabel (fuel : Nat) :
    ∀ (st : Bool) (s : List Char), s.length ≤ fuel →
      (starK false (Regex.seq (Regex.chr '.') labelRe) fuel st s (fun _ r => r.isEmpty) = true ↔
        ∃ labels : List (List Char), s = dotted labels ∧ ∀ l ∈ labels, validLabel l = true) := by
  induction fuel with
  | zero =>
    intro st s hs
    have : s = [] := List.length_eq_zero.mp (Nat.le_zero.mp hs)
    subst this
    simp only [starK, List.isEmpty_nil, true_iff]
    exact ⟨[], rfl, by simp⟩
  | succ n ih =>
    intro st s hs
    simp only [starK, Bool.or_eq_true, matchK_dotLabel, Bool.and_eq_true, decide_eq_true_eq]
    constructor
    · rintro (h | ⟨l, rest, rfl, hv, hlt, hstar⟩)
      · have : s = [] := List.isEmpty_iff.mp h
        exact ⟨[], this, by simp⟩
      · have hr : rest.length ≤ n := by
          simp only [List.length_cons, List.length_append] at hs
          omega
        obtain ⟨labels, rfl, hall⟩ := (ih false rest hr).mp hstar
        refine ⟨l :: labels, rfl, ?_⟩
        intro x hx
        rcases List.mem_cons.mp hx with rfl | hx
        · exact hv
        · exact hall x hx
    · rintro ⟨labels, rfl, hall⟩
      cases labels with
      | nil => left; rfl
      | cons l ls =>
        right
        have hl : (dotted ls).length < (dotted (l :: ls)).length := by
          simp [dotted]; omega
        have hr : (dotted ls).length ≤ n := by omega
        refine ⟨l, dotted ls, rfl, hall l (List.mem_cons_self _ _), hl, ?_⟩
        exact (ih false (dotted ls) hr).mpr
          ⟨ls, rfl, fun x hx => hall x (List.mem_cons_of_mem _ hx)⟩

theorem searchFromK_bol_false (ic : Bool) (r : Regex) (k : Bool → List Char → Bool)
    (s : List Char) : searchFromK ic (Regex.seq Regex.bol r) k false s = false := by
  induction s with
  | nil => simp [searchFromK, matchK]
  | cons c rest ih => simp [searchFromK, matchK, ih]

theorem searchFromK_bol_true (ic : Bool) (r : Regex) (k : Bool → List Char → Bool)
    (s : List Char) :
    searchFromK ic (Regex.seq Regex.bol r) k true s = matchK ic r true s k := by
  cases s with
  | nil => simp [searchFromK, matchK]
  | cons c rest => simp [searchFromK, matchK, searchFromK_bol_false]

theorem splitChar_of_not_mem (sep : Char) (l : List Char) (h : sep ∉ l) :
    splitChar sep l = [l] := by
  induction l with
  | nil => rfl
  | cons c t ih =>
    have hc : c ≠ sep := fun e => h (by rw [e]; exact List.mem_cons_self _ _)
    have ht : sep ∉ t := fun e => h (List.mem_cons_of_mem _ e)
    unfold splitChar
    rw [if_neg hc, ih ht]

theorem splitChar_append_sep (sep : Char) (l t : List Char) (h : sep ∉ l) :
    splitChar sep (l ++ sep :: t) = l :: splitChar sep t := by
  induction l with
  | nil =>
    show splitChar sep (sep :: t) = _
    rw [splitChar, if_pos rfl]
  | cons c r ih =>
    have hc : c ≠ sep := fun e => h (by rw [e]; exact List.mem_cons_self _ _)
    have hr : sep ∉ r := fun e => h (List.mem_cons_of_mem _ e)
    show splitChar sep (c :: (r ++ sep :: t)) = _
    rw [splitChar, if_neg hc, ih hr]

theorem validLabel_no_dot (l : List Char) (h : validLabel l = true) : '.' ∉ l := by
  unfold validLabel at h
  simp only [Bool.and_eq_true, List.all_eq_true] at h
  intro hm
  have := h.1.1.2 '.' hm
  exact absurd this (by decide)

theorem splitChar_dotted (l : List Char) (labels : List (List Char)) (hl : '.' ∉ l)
    (h : ∀ x ∈ labels, '.' ∉ x) : splitChar '.' (l ++ dotted labels) = l :: labels := by
  induction labels generalizing l with
  | nil =>
    show splitChar '.' (l ++ []) = _
    rw [List.append_nil, splitChar_of_not_mem '.' l hl]
  | cons x xs ih =>
    show splitChar '.' (l ++ '.' :: (x ++ dotted xs)) = _
    rw [splitChar_append_sep '.' l _ hl,
      ih x (h x (List.mem_cons_self _ _)) (fun y hy => h y (List.mem_cons_of_mem _ hy))]

theorem intercalate_dot (l : List Char) (labels : List (List Char)) :
    List.intercalate ['.'] (l :: labels) = l ++ dotted labels := by
  induction labels generalizing l with
  | nil => simp [List.intercalate, dotted]
  | cons x xs ih =>
    have := ih x
    simp only [List.intercalate, List.intersperse, List.flatten, dotted] at this ⊢
    simp [this]

theorem isValidDomain_eq_specValidDomain (domain : String) :
    isValidDomain domain = specValidDomain domain := by
  unfold isValidDomain specValidDomain
  rw [Bool.and_comm]
  congr 1
  rw [searchFromK_bol_true, Bool.eq_iff_iff, matchK_labelRe]
  constructor
  · rintro ⟨l, rest, hs, hv, hstar⟩
    obtain ⟨labels, rfl, hall⟩ := (starK_dotLabel rest.length false rest (le_refl _)).mp hstar
    rw [hs, splitChar_dotted l labels (validLabel_no_dot l hv)
      (fun x hx => validLabel_no_dot x (hall x hx)), List.all_eq_true]
    intro x hx
    rcases List.mem_cons.mp hx with rfl | hx
    · exact hv
    · exact hall x hx
  · intro h
    rw [List.all_eq_true] at h
    have hne := splitChar_ne_nil '.' domain.toList
    have hj := splitChar_join '.' domain.toList
    cases hp : splitChar '.' domain.toList with
    | nil => exact absurd hp hne
    | cons l labels =>
      rw [hp] at h hj
      rw [intercalate_dot] at hj
      refine ⟨l, dotted labels, hj.symm, h l (List.mem_cons_self _ _), ?_⟩
      exact (starK_dotLabel _ false _ (le_refl _)).mpr
        ⟨labels, rfl, fun x hx => h x (List.mem_cons_of_mem _ hx)⟩

/-- C30: the check `isValidDomain` accepts a domain exactly when it has at most 253 code
units and every one of its dot-separated labels consists of ASCII letters, digits and
hyphens, begins and ends with a letter or digit and is 2 to 63 long; a domain with a
one-character label, such as "x.com" or "t.co", is rejected, and the add handlers of
the options page leave the custom list unchanged for it. -/
theorem isValidDomain_labels (domain : String) :
    isValidDomain domain = specValidDomain domain ∧
    (isValidDomain domain = true ↔
      jsLength domain.toList ≤ 253 ∧
        ∀ l ∈ splitChar '.' domain.toList, validLabel l = true) ∧
    ((∃ l ∈ splitChar '.' domain.toList, l.length = 1) →
      isValidDomain domain = false ∧ ∀ list : List String, addCustomDomain list domain = list) ∧
    isValidDomain "x.com" = false ∧ isValidDomain "t.co" = false ∧
    (∀ list : List String,
      addCustomDomain list "x.com" = list ∧ addCustomDomain list "t.co" = list) ∧
    isValidDomain "example.com" = true ∧
    addCustomDomain ["github.com"] "example.com" = ["github.com", "example.com"] := by
  have heq := isValidDomain_eq_specValidDomain domain
  have hrej : ∀ d : String, isValidDomain d = false →
      ∀ list : List String, addCustomDomain list d = list := by
    intro d hd list
    unfold addCustomDomain
    rw [if_neg]
    rw [hd]
    simp
  refine ⟨heq, ?_, ?_, by decide, by decide, ?_, by decide, by decide⟩
  · rw [heq]
    unfold specValidDomain
    rw [Bool.and_eq_true, decide_eq_true_eq, List.all_eq_true]
  · rintro ⟨l, hl, h1⟩
    have hf : isValidDomain domain = false := by
      rw [heq]
      unfold specValidDomain
      rw [Bool.and_eq_false_iff]
      right
      rw [← Bool.not_eq_true, List.all_eq_true]
      intro hall
      have hv := hall l hl
      unfold validLabel at hv
      simp only [Bool.and_eq_true, decide_eq_true_eq] at hv
      omega
    exact ⟨hf, hrej domain hf⟩
  · intro list
    exact ⟨hrej "x.com" (by decide) list, hrej "t.co" (by decide) list⟩

end PhishGuard
